import Mathlib

/-!
Verification development for the phase-gated lifecycle reconciliation engine.

The embedding below translates the two controllers
(operator/controllers/keptnworkloadinstance/controller.go, package
keptnworkloadinstance, and the companion package keptnappversion) into pure
Lean functions.  Stateful controller code becomes explicit state passing: a
reconcile invocation is a function from an entity record plus an oracle (the
results supplied by the external store, the task/evaluation engines, the
status-update calls and the clock) to an output record containing the
controller-runtime result, the returned error, the in-memory entity, the last
persisted snapshot of the entity, and a log of observable side effects
(events, metric samples, span operations, callback invocations).

Code of the repository that is not part of the two controller files (the
v1alpha1 API types with their accessor methods, the phase table in the common
package, and the task/evaluation reconcile helpers) is modelled from the
specification; every such definition carries a doc comment that starts with
"Modelled from the spec:".  The semantic-version comparison is external
library code (golang.org/x/mod/semver) and is translated below from that
library's semantics: versions must carry a leading v to be valid, an invalid
version compares below every valid one, and all invalid versions compare
equal to each other.
-/

set_option linter.unusedVariables false

/-- Phase status / overall status enumeration.  The spec's Phase Status data
model (section 3) lists Pending, Progressing, Succeeded, Failed. -/
inductive KeptnState where
  | pending
  | progressing
  | succeeded
  | failed
  deriving DecidableEq, Repr

/-- Modelled from the spec: Status Accessor Set, IsXSucceeded() is
(statusX == Succeeded) (section 4.1). -/
def KeptnState.isSucceeded : KeptnState → Bool
  | .succeeded => true
  | _ => false

/-- Modelled from the spec: Status Accessor Set, IsXFailed() is
(statusX == Failed) (section 4.1). -/
def KeptnState.isFailed : KeptnState → Bool
  | .failed => true
  | _ => false

/-- Modelled from the spec: a phase is completed when its status reached a
terminal value, Succeeded or Failed being the terminal phase statuses
(section 3).  This backs the IsPostDeploymentEvaluationCompleted accessor
used by the application-version walk. -/
def KeptnState.isCompleted (s : KeptnState) : Bool :=
  s.isSucceeded || s.isFailed

/-- Modelled from the spec: the Phase Table entry, an immutable value of a
short and a long name (sections 2 and 3; the concrete name strings live in
the common package which is not among the sources). -/
structure KeptnPhaseType where
  shortName : String
  longName : String
  deriving DecidableEq, Repr

/-- Modelled from the spec: workload pre-deployment task phase. -/
def PhaseWorkloadPreDeployment : KeptnPhaseType :=
  ⟨("WorkloadPreDeployTasks"), ("Workload Pre-Deployment Tasks")⟩

/-- Modelled from the spec: workload deployment phase. -/
def PhaseWorkloadDeployment : KeptnPhaseType :=
  ⟨("WorkloadDeploy"), ("Workload Deployment")⟩

/-- Modelled from the spec: workload post-deployment task phase. -/
def PhaseWorkloadPostDeployment : KeptnPhaseType :=
  ⟨("WorkloadPostDeployTasks"), ("Workload Post-Deployment Tasks")⟩

/-- Modelled from the spec: application pre-deployment task phase. -/
def PhaseAppPreDeployment : KeptnPhaseType :=
  ⟨("AppPreDeployTasks"), ("App Pre-Deployment Tasks")⟩

/-- Modelled from the spec: application pre-deployment evaluation phase. -/
def PhaseAppPreEvaluation : KeptnPhaseType :=
  ⟨("AppPreDeployEvaluations"), ("App Pre-Deployment Evaluations")⟩

/-- Modelled from the spec: application deployment (workload fan-out)
phase. -/
def PhaseAppDeployment : KeptnPhaseType :=
  ⟨("AppDeploy"), ("App Deployment")⟩

/-- Modelled from the spec: application post-deployment task phase. -/
def PhaseAppPostDeployment : KeptnPhaseType :=
  ⟨("AppPostDeployTasks"), ("App Post-Deployment Tasks")⟩

/-- Modelled from the spec: application post-deployment evaluation phase. -/
def PhaseAppPostEvaluation : KeptnPhaseType :=
  ⟨("AppPostDeployEvaluations"), ("App Post-Deployment Evaluations")⟩

/-- Modelled from the spec: the synthetic terminal Completed phase
(section 3). -/
def PhaseCompleted : KeptnPhaseType := ⟨("Completed"), ("Completed")⟩

/-- A workload entry of an application aggregate's Spec.Workloads list:
a (short) name and a version. -/
structure KeptnWorkloadRef where
  name : String
  version : String
  deriving DecidableEq, Repr

/-- Spec part of a KeptnAppVersion.  TraceId is the flat string-map carrier
of the application-level trace context. -/
structure KeptnAppVersionSpec where
  appName : String := ("")
  version : String := ("")
  previousVersion : String := ("")
  traceId : List (String × String) := []
  workloads : List KeptnWorkloadRef := []
  deriving DecidableEq, Repr

/-- Status part of a KeptnAppVersion.  Times are model clock values; the
zero-value sentinel of the Go metav1.Time is rendered as none.  The
fan-out aggregate over the constituent workload instances is modelled, per
the spec's Status Accessor Set (section 4.1), as a summary field written by
the fan-out phase engine. -/
structure KeptnAppVersionStatus where
  preDeploymentStatus : KeptnState := .pending
  postDeploymentStatus : KeptnState := .pending
  preDeploymentEvaluationStatus : KeptnState := .pending
  postDeploymentEvaluationStatus : KeptnState := .pending
  workloadOverallStatus : KeptnState := .pending
  currentPhase : String := ("")
  status : KeptnState := .pending
  startTime : Option Nat := none
  endTime : Option Nat := none
  deriving DecidableEq, Repr

/-- A KeptnAppVersion object: identity plus spec plus status. -/
structure KeptnAppVersion where
  namespace0 : String := ("")
  name : String := ("")
  spec : KeptnAppVersionSpec := {}
  status : KeptnAppVersionStatus := {}
  deriving DecidableEq, Repr

/-- Spec part of a KeptnWorkloadInstance.  WorkloadName is the composite
applicationName-workloadShortName. -/
structure KeptnWorkloadInstanceSpec where
  appName : String := ("")
  workloadName : String := ("")
  version : String := ("")
  previousVersion : String := ("")
  traceId : List (String × String) := []
  deriving DecidableEq, Repr

/-- Status part of a KeptnWorkloadInstance. -/
structure KeptnWorkloadInstanceStatus where
  preDeploymentStatus : KeptnState := .pending
  deploymentStatus : KeptnState := .pending
  postDeploymentStatus : KeptnState := .pending
  preDeploymentEvaluationStatus : KeptnState := .pending
  postDeploymentEvaluationStatus : KeptnState := .pending
  currentPhase : String := ("")
  status : KeptnState := .pending
  startTime : Option Nat := none
  endTime : Option Nat := none
  deriving DecidableEq, Repr

/-- A KeptnWorkloadInstance object. -/
structure KeptnWorkloadInstance where
  namespace0 : String := ("")
  name : String := ("")
  spec : KeptnWorkloadInstanceSpec := {}
  status : KeptnWorkloadInstanceStatus := {}
  deriving DecidableEq, Repr

/-! ## Semantic-version comparison: golang.org/x/mod/semver

The resolver calls semver.Compare.  The definitions below translate that
library: parseInt reads a canonical decimal number (no leading zeros),
parse requires the leading v and reads MAJOR[.MINOR[.PATCH[-PRE][+BUILD]]],
compareInt compares canonical decimal strings by length then bytes, and
comparePrerelease implements the semver precedence rules on prerelease
identifiers.  Compare treats an unparsable version as smaller than any
parsable one and all unparsable versions as equal. -/

/-- ASCII decimal digit test. -/
def goIsDigit (c : Char) : Bool := ('0' ≤ c) && (c ≤ '9')

/-- x/mod/semver isIdentChar: ASCII letters, digits and the hyphen. -/
def goIsIdentChar (c : Char) : Bool :=
  (('A' ≤ c) && (c ≤ 'Z')) || (('a' ≤ c) && (c ≤ 'z')) || goIsDigit c || (c = '-')

/-- x/mod/semver parseInt: splits a leading canonical decimal number off the
character list; fails on empty input, a non-digit first character, or a
leading zero followed by more digits. -/
def goParseInt (v : List Char) : Option (List Char × List Char) :=
  match v with
  | [] => none
  | c :: _ =>
    if ¬ goIsDigit c then none
    else
      let t := v.takeWhile goIsDigit
      let rest := v.dropWhile goIsDigit
      if c = '0' ∧ t.length ≠ 1 then none
      else some (t, rest)

/-- x/mod/semver isNum: every character is a digit (true on empty input,
matching the Go loop). -/
def goIsNum (v : List Char) : Bool := v.all goIsDigit

/-- x/mod/semver isBadNum: an all-digit identifier longer than one character
that starts with zero. -/
def goIsBadNum (v : List Char) : Bool :=
  goIsNum v && decide (v.length > 1) && decide (v.head? = some '0')

/-- Dot-separated segments of a prerelease or build body. -/
def goSplitDots (v : List Char) : List (List Char) :=
  v.splitOn '.'

/-- x/mod/semver parsePrerelease: after the hyphen, the body up to a plus
sign must be nonempty dot-separated identifiers of ident characters, none of
them a numeric identifier with leading zeros.  Returns the prerelease
including its leading hyphen, and the rest. -/
def goParsePrerelease (v : List Char) : Option (List Char × List Char) :=
  match v with
  | '-' :: tail =>
    let body := tail.takeWhile (fun c => c ≠ '+')
    let rest := tail.dropWhile (fun c => c ≠ '+')
    if body.all (fun c => goIsIdentChar c || c = '.')
        ∧ (goSplitDots body).all (fun seg => ¬ seg.isEmpty ∧ ¬ goIsBadNum seg)
    then some ('-' :: body, rest)
    else none
  | _ => none

/-- x/mod/semver parseBuild: after the plus sign, nonempty dot-separated
identifiers of ident characters (leading zeros are allowed here). -/
def goParseBuild (v : List Char) : Option (List Char × List Char) :=
  match v with
  | '+' :: tail =>
    if tail.all (fun c => goIsIdentChar c || c = '.')
        ∧ (goSplitDots tail).all (fun seg => ¬ seg.isEmpty)
    then some ('+' :: tail, [])
    else none
  | _ => none

/-- The parsed fields of a valid semantic version. -/
structure GoSemverParsed where
  major : List Char
  minor : List Char
  patch : List Char
  prerelease : List Char
  build : List Char
  deriving DecidableEq, Repr

/-- x/mod/semver parse, tail part: optional prerelease then optional build,
with nothing allowed to remain. -/
def goParseTail (major minor patch r : List Char) : Option GoSemverParsed :=
  let step1 : Option (List Char × List Char) :=
    match r with
    | '-' :: _ =>
      match goParsePrerelease r with
      | none => none
      | some (pre, r2) => some (pre, r2)
    | _ => some ([], r)
  match step1 with
  | none => none
  | some (pre, r2) =>
    match r2 with
    | [] => some ⟨major, minor, patch, pre, []⟩
    | '+' :: _ =>
      match goParseBuild r2 with
      | none => none
      | some (bld, _) => some ⟨major, minor, patch, pre, bld⟩
    | _ => none

/-- x/mod/semver parse: requires the leading v; a missing minor or patch
number defaults to zero; rejects any malformed remainder. -/
def goParse (v : String) : Option GoSemverParsed :=
  match v.data with
  | 'v' :: r0 =>
    match goParseInt r0 with
    | none => none
    | some (major, r1) =>
      match r1 with
      | [] => some ⟨major, ['0'], ['0'], [], []⟩
      | '.' :: r2 =>
        match goParseInt r2 with
        | none => none
        | some (minor, r3) =>
          match r3 with
          | [] => some ⟨major, minor, ['0'], [], []⟩
          | '.' :: r4 =>
            match goParseInt r4 with
            | none => none
            | some (patch, r5) => goParseTail major minor patch r5
          | _ => none
      | _ => none
  | _ => none

/-- Lexicographic byte order on ASCII character lists (the Go string
comparison restricted to the canonical inputs used here). -/
def goCharListLt : List Char → List Char → Bool
  | [], [] => false
  | [], _ :: _ => true
  | _ :: _, [] => false
  | a :: as, b :: bs => if a < b then true else if b < a then false else goCharListLt as bs

/-- x/mod/semver compareInt on canonical decimal strings: equality first,
then length, then byte order. -/
def goCompareInt (x y : List Char) : Int :=
  if x = y then 0
  else if x.length < y.length then -1
  else if y.length < x.length then 1
  else if goCharListLt x y then -1 else 1

/-- x/mod/semver nextIdent: the identifier up to the next dot, and the
rest starting at that dot. -/
def goNextIdent (x : List Char) : List Char × List Char :=
  (x.takeWhile (fun c => c ≠ '.'), x.dropWhile (fun c => c ≠ '.'))

/-- Ordering of two differing prerelease identifiers: numeric identifiers
sort below alphanumeric ones, numeric ones by length then bytes, and
alphanumeric ones by bytes. -/
def goCompareIdent (dx dy : List Char) : Int :=
  if goIsNum dx ≠ goIsNum dy then (if goIsNum dx then -1 else 1)
  else if goIsNum dx ∧ dx.length < dy.length then -1
  else if goIsNum dx ∧ dy.length < dx.length then 1
  else if goCharListLt dx dy then -1 else 1

/-- The loop of x/mod/semver comparePrerelease: both lists start with a
hyphen or a dot; drop that separator, compare the next identifiers, and
recurse while they agree.  A shorter prerelease sorts first. -/
def goComparePrereleaseLoop : List Char → List Char → Int
  | [], _ => -1
  | _ :: _, [] => 1
  | _ :: xs, _ :: ys =>
    let dx := (goNextIdent xs).1
    let x2 := (goNextIdent xs).2
    let dy := (goNextIdent ys).1
    let y2 := (goNextIdent ys).2
    if dx ≠ dy then goCompareIdent dx dy
    else goComparePrereleaseLoop x2 y2
  termination_by x y => x.length + y.length
  decreasing_by
    simp only [goNextIdent]
    have hx := List.Sublist.length_le (List.dropWhile_sublist (l := xs) (p := fun c => c ≠ '.'))
    have hy := List.Sublist.length_le (List.dropWhile_sublist (l := ys) (p := fun c => c ≠ '.'))
    simp only [List.length_cons]
    omega

/-- x/mod/semver comparePrerelease: the empty prerelease sorts above any
nonempty one; otherwise compare identifier lists. -/
def goComparePrerelease (x y : List Char) : Int :=
  if x = y then 0
  else if x = [] then 1
  else if y = [] then -1
  else goComparePrereleaseLoop x y

/-- x/mod/semver Compare: an invalid version is smaller than a valid one and
all invalid versions are equal; valid versions compare by major, minor,
patch, then prerelease. -/
def semverCompare (v w : String) : Int :=
  match goParse v, goParse w with
  | none, none => 0
  | none, some _ => -1
  | some _, none => 1
  | some pv, some pw =>
    let c1 := goCompareInt pv.major pw.major
    if c1 ≠ 0 then c1
    else
      let c2 := goCompareInt pv.minor pw.minor
      if c2 ≠ 0 then c2
      else
        let c3 := goCompareInt pv.patch pw.patch
        if c3 ≠ 0 then c3
        else goComparePrerelease pv.prerelease pw.prerelease

/-! ## The App-Version Resolver (getAppVersionForWorkloadInstance)

Translated from controller.go lines 376-404.  The store List call is
handled by the caller; this function is the loop over the listed
application aggregates. -/

/-- The zero KeptnAppVersion value used for latestVersion before the first
match (its Spec.Version is the empty string). -/
def emptyAppVersion : KeptnAppVersion := {}

/-- One outer-loop iteration of getAppVersionForWorkloadInstance: if the
aggregate's application name matches, scan its workload list; a workload
entry matches when its version equals the instance's version and the
composite name appName-workloadName equals the instance's workload name;
on a match, keep the aggregate when no match was kept yet, or when
semver.Compare puts the kept version strictly below the new one. -/
def resolverScanApp (wli : KeptnWorkloadInstance) (latest : KeptnAppVersion)
    (app : KeptnAppVersion) : KeptnAppVersion :=
  if app.spec.appName = wli.spec.appName then
    app.spec.workloads.foldl
      (fun latest appWorkload =>
        let workloadName := app.spec.appName ++ ("-") ++ appWorkload.name
        if appWorkload.version = wli.spec.version ∧ workloadName = wli.spec.workloadName then
          if latest.spec.version = ("") then app
          else if semverCompare latest.spec.version app.spec.version < 0 then app
          else latest
        else latest)
      latest
  else latest

/-- getAppVersionForWorkloadInstance, given the application aggregates the
store listed for the instance's namespace: fold the scan over the list and
report found = false exactly when the kept version is still empty. -/
def getAppVersionForWorkloadInstance (apps : List KeptnAppVersion)
    (wli : KeptnWorkloadInstance) : Bool × KeptnAppVersion :=
  let latestVersion := apps.foldl (resolverScanApp wli) emptyAppVersion
  if latestVersion.spec.version = ("") then (false, emptyAppVersion)
  else (true, latestVersion)

/-- Modelled from the spec: semantic-version precedence on plain
MAJOR.MINOR.PATCH strings, as the spec's resolver section demands it
(candidates 1.2.0 and 1.10.0 must select 1.10.0).  Compares the three
dot-separated components numerically. -/
def specSemverLt (v w : String) : Bool :=
  let nums := fun (s : String) => (s.data.splitOn '.').map (fun seg =>
    seg.foldl (fun n c => n * 10 + (c.toNat - '0'.toNat)) 0)
  match nums v, nums w with
  | [a1, a2, a3], [b1, b2, b3] =>
    if a1 ≠ b1 then a1 < b1 else if a2 ≠ b2 then a2 < b2 else a3 < b3
  | _, _ => false

/-! ## Observable effects, oracle inputs and reconcile outputs

A reconcile invocation's observable side effects are collected in a list:
operator events (recordEvent), metric counter and gauge samples, status
Update calls against the store, span-cache operations of the span binder,
and the invocations of the phase reconcile callbacks. -/

/-- One observable side effect of a reconcile invocation. -/
inductive Effect where
  | event (phaseShort : String) (severity : String) (reason : String)
  | counterAdd (meter : String) (n : Nat)
  | gaugeRecord (meter : String) (value : Int)
  | statusUpdate (ok : Bool)
  | spanGetOrCreate (phaseShort : String)
  | spanEnd (phaseShort : String)
  | spanUnbind (phaseShort : String)
  | callbackInvoked (phaseShort : String)
  deriving DecidableEq, Repr

/-- The controller-runtime result: whether to requeue and after how many
seconds (RequeueAfter, zero meaning immediate). -/
structure CtrlResult where
  requeue : Bool
  requeueAfter : Nat
  deriving DecidableEq, Repr

/-- Threaded state of one reconcile invocation: the in-memory entity, the
last snapshot the store accepted, the effect log, and the remaining
outcomes of the status-update oracle (an exhausted stream means every
further update succeeds). -/
structure RecState (E : Type) where
  entity : E
  persisted : E
  effects : List Effect
  updates : List Bool

/-- The output of one reconcile invocation. -/
structure ReconcileOutput (E : Type) where
  result : CtrlResult
  error : Option String
  entity : E
  persisted : E
  effects : List Effect

/-- One Status().Update call against the store: on success the in-memory
entity becomes the persisted snapshot; on failure (the store's
optimistic-concurrency rejection) the persisted snapshot is unchanged. -/
def doUpdate {E : Type} (s : RecState E) : Bool × RecState E :=
  match s.updates with
  | [] => (true, { s with persisted := s.entity, effects := s.effects ++ [.statusUpdate true] })
  | b :: rest =>
    if b then
      (true, { s with
               persisted := s.entity,
               effects := s.effects ++ [.statusUpdate true],
               updates := rest })
    else
      (false, { s with effects := s.effects ++ [.statusUpdate false], updates := rest })

/-! ## Entity accessor methods (v1alpha1 API types, not among the sources) -/

/-- Modelled from the spec: SetStartTime stamps StartTime once; the
zero-value sentinel (none) means unset (section 3). -/
def KeptnWorkloadInstance.setStartTime (now : Nat) (wi : KeptnWorkloadInstance) :
    KeptnWorkloadInstance :=
  if wi.status.startTime = none then
    { wi with status := { wi.status with startTime := some now } }
  else wi

/-- Modelled from the spec: SetEndTime stamps EndTime once (section 3). -/
def KeptnWorkloadInstance.setEndTime (now : Nat) (wi : KeptnWorkloadInstance) :
    KeptnWorkloadInstance :=
  if wi.status.endTime = none then
    { wi with status := { wi.status with endTime := some now } }
  else wi

/-- Modelled from the spec: IsEndTimeSet tests the zero-value sentinel. -/
def KeptnWorkloadInstance.isEndTimeSet (wi : KeptnWorkloadInstance) : Bool :=
  wi.status.endTime.isSome

/-- Modelled from the spec: per-phase status accessor (section 4.1). -/
def KeptnWorkloadInstance.isPreDeploymentSucceeded (wi : KeptnWorkloadInstance) : Bool :=
  wi.status.preDeploymentStatus.isSucceeded

/-- Modelled from the spec: per-phase status accessor (section 4.1). -/
def KeptnWorkloadInstance.isPreDeploymentEvaluationSucceeded (wi : KeptnWorkloadInstance) : Bool :=
  wi.status.preDeploymentEvaluationStatus.isSucceeded

/-- Modelled from the spec: per-phase status accessor (section 4.1). -/
def KeptnWorkloadInstance.isDeploymentSucceeded (wi : KeptnWorkloadInstance) : Bool :=
  wi.status.deploymentStatus.isSucceeded

/-- Modelled from the spec: per-phase status accessor (section 4.1). -/
def KeptnWorkloadInstance.isPostDeploymentSucceeded (wi : KeptnWorkloadInstance) : Bool :=
  wi.status.postDeploymentStatus.isSucceeded

/-- Modelled from the spec: per-phase status accessor (section 4.1). -/
def KeptnWorkloadInstance.isPostDeploymentEvaluationSucceeded (wi : KeptnWorkloadInstance) : Bool :=
  wi.status.postDeploymentEvaluationStatus.isSucceeded

/-- Modelled from the spec: SetStartTime for the application aggregate. -/
def KeptnAppVersion.setStartTime (now : Nat) (av : KeptnAppVersion) : KeptnAppVersion :=
  if av.status.startTime = none then
    { av with status := { av.status with startTime := some now } }
  else av

/-- Modelled from the spec: SetEndTime for the application aggregate. -/
def KeptnAppVersion.setEndTime (now : Nat) (av : KeptnAppVersion) : KeptnAppVersion :=
  if av.status.endTime = none then
    { av with status := { av.status with endTime := some now } }
  else av

/-- Modelled from the spec: IsEndTimeSet for the application aggregate. -/
def KeptnAppVersion.isEndTimeSet (av : KeptnAppVersion) : Bool :=
  av.status.endTime.isSome

/-- Modelled from the spec: per-phase status accessor (section 4.1). -/
def KeptnAppVersion.isPreDeploymentSucceeded (av : KeptnAppVersion) : Bool :=
  av.status.preDeploymentStatus.isSucceeded

/-- Modelled from the spec: per-phase status accessor (section 4.1). -/
def KeptnAppVersion.isPreDeploymentEvaluationSucceeded (av : KeptnAppVersion) : Bool :=
  av.status.preDeploymentEvaluationStatus.isSucceeded

/-- Modelled from the spec: the fan-out aggregate accessor
AreWorkloadsSucceeded, reading the summary the fan-out engine recorded
(section 4.1). -/
def KeptnAppVersion.areWorkloadsSucceeded (av : KeptnAppVersion) : Bool :=
  av.status.workloadOverallStatus.isSucceeded

/-- Modelled from the spec: the fan-out aggregate accessor
AreWorkloadsFailed (section 4.1). -/
def KeptnAppVersion.areWorkloadsFailed (av : KeptnAppVersion) : Bool :=
  av.status.workloadOverallStatus.isFailed

/-- Modelled from the spec: per-phase status accessor (section 4.1). -/
def KeptnAppVersion.isPostDeploymentSucceeded (av : KeptnAppVersion) : Bool :=
  av.status.postDeploymentStatus.isSucceeded

/-- Modelled from the spec: per-phase status accessor (section 4.1). -/
def KeptnAppVersion.isPostDeploymentEvaluationSucceeded (av : KeptnAppVersion) : Bool :=
  av.status.postDeploymentEvaluationStatus.isSucceeded

/-- Modelled from the spec: IsPostDeploymentEvaluationCompleted, the guard
the application-version walk uses for its final phase; completed means the
phase status is terminal (section 3). -/
def KeptnAppVersion.isPostDeploymentEvaluationCompleted (av : KeptnAppVersion) : Bool :=
  av.status.postDeploymentEvaluationStatus.isCompleted

/-! ## Per-phase status fields as first-class selectors -/

/-- The five evaluated phases of a workload instance, as selectors into its
per-phase status fields. -/
inductive WIField where
  | preDeployment
  | preDeploymentEval
  | deployment
  | postDeployment
  | postDeploymentEval
  deriving DecidableEq, Repr

/-- Read the per-phase status field of a workload instance. -/
def wiGetField : WIField → KeptnWorkloadInstanceStatus → KeptnState
  | .preDeployment, st => st.preDeploymentStatus
  | .preDeploymentEval, st => st.preDeploymentEvaluationStatus
  | .deployment, st => st.deploymentStatus
  | .postDeployment, st => st.postDeploymentStatus
  | .postDeploymentEval, st => st.postDeploymentEvaluationStatus

/-- Write the per-phase status field of a workload instance. -/
def wiSetField : WIField → KeptnState → KeptnWorkloadInstanceStatus →
    KeptnWorkloadInstanceStatus
  | .preDeployment, v, st => { st with preDeploymentStatus := v }
  | .preDeploymentEval, v, st => { st with preDeploymentEvaluationStatus := v }
  | .deployment, v, st => { st with deploymentStatus := v }
  | .postDeployment, v, st => { st with postDeploymentStatus := v }
  | .postDeploymentEval, v, st => { st with postDeploymentEvaluationStatus := v }

/-- The five evaluated phases of an application aggregate, as selectors into
its per-phase status fields (the third is the workload fan-out summary). -/
inductive AppField where
  | preDeployment
  | preDeploymentEval
  | workloads
  | postDeployment
  | postDeploymentEval
  deriving DecidableEq, Repr

/-- Read the per-phase status field of an application aggregate. -/
def appGetField : AppField → KeptnAppVersionStatus → KeptnState
  | .preDeployment, st => st.preDeploymentStatus
  | .preDeploymentEval, st => st.preDeploymentEvaluationStatus
  | .workloads, st => st.workloadOverallStatus
  | .postDeployment, st => st.postDeploymentStatus
  | .postDeploymentEval, st => st.postDeploymentEvaluationStatus

/-- Write the per-phase status field of an application aggregate. -/
def appSetField : AppField → KeptnState → KeptnAppVersionStatus → KeptnAppVersionStatus
  | .preDeployment, v, st => { st with preDeploymentStatus := v }
  | .preDeploymentEval, v, st => { st with preDeploymentEvaluationStatus := v }
  | .workloads, v, st => { st with workloadOverallStatus := v }
  | .postDeployment, v, st => { st with postDeploymentStatus := v }
  | .postDeploymentEval, v, st => { st with postDeploymentEvaluationStatus := v }

/-! ## The Phase Driver (handlePhase) for the workload instance

Translated from controller.go lines 281-341.  The reconcilePhase callback
stands for the task/evaluation helpers (reconcilePrePostDeployment,
reconcilePrePostEvaluation, reconcileDeployment), which are not among the
sources.  Modelled from the spec: those engines compute the phase verdict,
record it in the entity's per-phase status field, and persist it; a failure
of that persistence surfaces as the callback's error (sections 3, 4.1 and
6 of the spec: the callback returns Succeeded, Failed or Progressing plus
an optional error, and the per-phase status fields stored on the entity are
what the Status Accessors read). -/

/-- The common tail of the workload-instance handlePhase (controller.go
lines 329-340): on a phase change, open the span of the new current phase
and force a persist; persist when anything observable changed (a failed
update is only logged); always request a 5-second requeue with no error. -/
def wiHandleTail (e : KeptnWorkloadInstance) (pers : KeptnWorkloadInstance)
    (fx : List Effect) (updates : List Bool) (oldPhase : String) (updated : Bool) :
    ReconcileOutput KeptnWorkloadInstance :=
  let moved : Bool := decide (oldPhase ≠ e.status.currentPhase)
  let fx := if moved then fx ++ [.spanGetOrCreate e.status.currentPhase] else fx
  let updated := updated || moved
  if updated then
    let r := doUpdate { entity := e, persisted := pers, effects := fx, updates := updates }
    { result := ⟨true, 5⟩, error := none, entity := r.2.entity, persisted := r.2.persisted,
      effects := r.2.effects }
  else
    { result := ⟨true, 5⟩, error := none, entity := e, persisted := pers, effects := fx }

/-- The workload-instance Phase Driver, controller.go lines 281-341:
record the phase as current, get-or-create its span, short-circuit with a
60-second requeue if the phase already failed, otherwise invoke the
callback; an error requeues immediately and propagates; Succeeded ends and
releases the span; Failed seals the entity (overall Status Failed, EndTime
stamped, deployment counter sample) and ends the span; Progressing moves
the overall Status to Progressing if it was not there already. -/
def wiHandlePhase (now : Nat) (s : RecState KeptnWorkloadInstance)
    (phase : KeptnPhaseType) (field : WIField) (cb : Except String KeptnState) :
    ReconcileOutput KeptnWorkloadInstance :=
  let oldstate := s.entity.status.status
  let oldPhase := s.entity.status.currentPhase
  let e1 := { s.entity with status := { s.entity.status with currentPhase := phase.shortName } }
  let fx1 := s.effects ++ [.spanGetOrCreate phase.shortName]
  if (wiGetField field e1.status).isFailed then
    { result := ⟨true, 60⟩, error := none, entity := e1, persisted := s.persisted,
      effects := fx1 ++ [.event phase.shortName ("Warning") ("Failed")] }
  else
    match cb with
    | .error msg =>
      { result := ⟨true, 0⟩, error := some msg, entity := e1, persisted := s.persisted,
        effects := fx1 ++ [.callbackInvoked phase.shortName,
                           .event phase.shortName ("Warning") ("ReconcileErrored")] }
    | .ok st =>
      let e2 := { e1 with status := wiSetField field st e1.status }
      let pers2 := e2
      let fx2 := fx1 ++ [.callbackInvoked phase.shortName]
      if st.isSucceeded then
        wiHandleTail e2 pers2
          (fx2 ++ [.spanEnd phase.shortName, .spanUnbind phase.shortName,
                   .event phase.shortName ("Normal") ("Succeeded")])
          s.updates oldPhase false
      else if st.isFailed then
        let e3 := KeptnWorkloadInstance.setEndTime now
          { e2 with status := { e2.status with status := .failed } }
        wiHandleTail e3 pers2
          (fx2 ++ [.event phase.shortName ("Warning") ("Failed"),
                   .counterAdd ("DeploymentCount") 1,
                   .spanEnd phase.shortName, .spanUnbind phase.shortName])
          s.updates oldPhase true
      else
        let e3 := if oldstate ≠ .progressing then
            { e2 with status := { e2.status with status := .progressing } }
          else e2
        wiHandleTail e3 pers2
          (fx2 ++ [.event phase.shortName ("Warning") ("NotFinished")])
          s.updates oldPhase (oldstate ≠ .progressing)

/-! ## The Phase Driver (handlePhase) for the application aggregate

Translated from the keptnappversion controller, lines 670-735 of the
concatenated source. -/

/-- The application-version Phase Driver.  Differences from the
workload-instance driver, preserved from the source: the span is obtained
before the current phase is recorded; a successful phase sets the overall
Status to Succeeded; the failure path samples the app counter; the overall
Status is only written when the computed new status differs from the old
one. -/
def appHandlePhase (now : Nat) (s : RecState KeptnAppVersion)
    (phase : KeptnPhaseType) (field : AppField) (cb : Except String KeptnState) :
    ReconcileOutput KeptnAppVersion :=
  let oldStatus := s.entity.status.status
  let fx1 := s.effects ++ [.spanGetOrCreate phase.shortName]
  let oldPhase := s.entity.status.currentPhase
  let e1 := { s.entity with status := { s.entity.status with currentPhase := phase.shortName } }
  if (appGetField field e1.status).isFailed then
    { result := ⟨true, 60⟩, error := none, entity := e1, persisted := s.persisted,
      effects := fx1 ++ [.event phase.shortName ("Warning") ("Failed")] }
  else
    match cb with
    | .error msg =>
      { result := ⟨true, 0⟩, error := some msg, entity := e1, persisted := s.persisted,
        effects := fx1 ++ [.callbackInvoked phase.shortName,
                           .event phase.shortName ("Warning") ("ReconcileErrored")] }
    | .ok st =>
      let e2 := { e1 with status := appSetField field st e1.status }
      let pers2 := e2
      let fx2 := fx1 ++ [.callbackInvoked phase.shortName]
      let branch : KeptnState × KeptnAppVersion × List Effect :=
        if st.isSucceeded then
          (.succeeded, e2,
           fx2 ++ [.spanEnd phase.shortName, .spanUnbind phase.shortName,
                   .event phase.shortName ("Normal") ("Succeeded")])
        else if st.isFailed then
          (.failed, KeptnAppVersion.setEndTime now e2,
           fx2 ++ [.counterAdd ("AppCount") 1,
                   .spanEnd phase.shortName, .spanUnbind phase.shortName,
                   .event phase.shortName ("Warning") ("Failed")])
        else
          (.progressing, e2, fx2 ++ [.event phase.shortName ("Warning") ("NotFinished")])
      let newStatus := branch.1
      let e3 := branch.2.1
      let fx3 := branch.2.2
      let moved : Bool := decide (oldPhase ≠ e3.status.currentPhase)
      let fx4 := if moved then fx3 ++ [.spanGetOrCreate e3.status.currentPhase] else fx3
      let e4 := if oldStatus ≠ newStatus then
          { e3 with status := { e3.status with status := newStatus } }
        else e3
      let updated := moved || decide (oldStatus ≠ newStatus)
      if updated then
        let r := doUpdate { entity := e4, persisted := pers2, effects := fx4,
                            updates := s.updates }
        { result := ⟨true, 5⟩, error := none, entity := r.2.entity,
          persisted := r.2.persisted, effects := r.2.effects }
      else
        { result := ⟨true, 5⟩, error := none, entity := e4, persisted := pers2,
          effects := fx4 }

/-! ## Oracle inputs of a reconcile invocation

The oracle packages everything the environment decides during one
invocation: the model clock, the store's List answer for the cross-entity
gate, the verdicts of the phase engines, and the fates of the status-update
calls issued directly by the reconciler. -/

/-- Oracle for one workload-instance reconcile invocation. -/
structure WIOracle where
  now : Nat
  listApps : Except String (List KeptnAppVersion)
  callback : WIField → Except String KeptnState
  updates : List Bool

/-- Oracle for one application-version reconcile invocation. -/
structure AppOracle where
  now : Nat
  callback : AppField → Except String KeptnState
  updates : List Bool

/-! ## The workload-instance reconciler (controller.go lines 78-256) -/

/-- Promotion of the pre-deployment status from Pending to Progressing in
the gate section (controller.go lines 133-138); the Bool reports whether
the state changed (saveState). -/
def wiPromote1 (wi : KeptnWorkloadInstance) : KeptnWorkloadInstance × Bool :=
  if wi.status.preDeploymentStatus = .pending then
    ({ wi with status := { wi.status with preDeploymentStatus := .progressing } }, true)
  else (wi, false)

/-- Copy of the application's trace id onto the instance when the
instance's own trace id is still empty (controller.go lines 139-143). -/
def wiTraceCopy (wi : KeptnWorkloadInstance) (av : KeptnAppVersion) :
    KeptnWorkloadInstance × Bool :=
  if wi.spec.traceId.isEmpty then
    ({ wi with spec := { wi.spec with traceId := av.spec.traceId } }, true)
  else (wi, false)

/-- Promotion of the pre-deployment-evaluation status from Pending to
Progressing (controller.go lines 168-174). -/
def wiPromotePreEval (wi : KeptnWorkloadInstance) : KeptnWorkloadInstance × Bool :=
  if wi.status.preDeploymentEvaluationStatus = .pending then
    ({ wi with status := { wi.status with preDeploymentEvaluationStatus := .progressing } },
     true)
  else (wi, false)

/-- Promotion of the deployment status from Pending to Progressing
(controller.go lines 184-190). -/
def wiPromoteDeployment (wi : KeptnWorkloadInstance) : KeptnWorkloadInstance × Bool :=
  if wi.status.deploymentStatus = .pending then
    ({ wi with status := { wi.status with deploymentStatus := .progressing } }, true)
  else (wi, false)

/-- Promotion of the post-deployment status from Pending to Progressing
(controller.go lines 200-206). -/
def wiPromotePostDeployment (wi : KeptnWorkloadInstance) : KeptnWorkloadInstance × Bool :=
  if wi.status.postDeploymentStatus = .pending then
    ({ wi with status := { wi.status with postDeploymentStatus := .progressing } }, true)
  else (wi, false)

/-- The pending-promotion block of the post-deployment-evaluation step
(controller.go lines 216-222).  As in the source, the field this block
tests for Pending and promotes to Progressing is PostDeploymentStatus (the
post-deployment task status), not PostDeploymentEvaluationStatus. -/
def wiPostEvalStepPromote (wi : KeptnWorkloadInstance) : KeptnWorkloadInstance × Bool :=
  if wi.status.postDeploymentStatus = .pending then
    ({ wi with status := { wi.status with postDeploymentStatus := .progressing } }, true)
  else (wi, false)

/-- A promotion followed, when it changed the state, by a status update
against the store; mirrors the per-step pattern of controller.go. -/
def wiPromoteAndSave (s : RecState KeptnWorkloadInstance)
    (promote : KeptnWorkloadInstance → KeptnWorkloadInstance × Bool) :
    Bool × RecState KeptnWorkloadInstance :=
  match promote s.entity with
  | (e, true) => doUpdate { s with entity := e }
  | (e, false) => (true, { s with entity := e })

/-- The output used when a mid-walk status update fails: the Go code
returns the empty ctrl.Result plus the error (controller.go lines
145-147, 171-173, 187-189, 203-205, 219-221). -/
def wiUpdateFailOut (s : RecState KeptnWorkloadInstance) :
    ReconcileOutput KeptnWorkloadInstance :=
  { result := ⟨false, 0⟩, error := some ("status update failed"), entity := s.entity,
    persisted := s.persisted, effects := s.effects }

/-- The effects of the Started block (controller.go lines 149-156):
release the stale binding, open the initial phase's span, and record the
Started event. -/
def wiStartedFx : List Effect :=
  [.spanUnbind PhaseWorkloadPreDeployment.shortName,
   .spanGetOrCreate PhaseWorkloadPreDeployment.shortName,
   .event PhaseWorkloadPreDeployment.shortName ("Normal") ("Started")]

/-- The completion block of the workload-instance reconciler
(controller.go lines 230-255): when EndTime is unset, record the Completed
phase, set the overall Status to Succeeded and stamp EndTime; persist (a
failure here requeues immediately with the error and skips the metrics);
then sample the deployment counter and the duration gauge and record the
Finished event (the phase variable still holds the post-evaluation phase
at this point). -/
def wiCompletion (o : WIOracle) (s : RecState KeptnWorkloadInstance) :
    ReconcileOutput KeptnWorkloadInstance :=
  let e := s.entity
  let e2 :=
    if ¬ e.isEndTimeSet then
      KeptnWorkloadInstance.setEndTime o.now
        { e with status := { e.status with
                             currentPhase := PhaseCompleted.shortName,
                             status := .succeeded } }
    else e
  let r := doUpdate { s with entity := e2 }
  if r.1 = false then
    { result := ⟨true, 0⟩, error := some ("status update failed"), entity := r.2.entity,
      persisted := r.2.persisted, effects := r.2.effects }
  else
    let dur : Int := Int.ofNat (e2.status.endTime.getD 0) - Int.ofNat (e2.status.startTime.getD 0)
    { result := ⟨false, 0⟩, error := none, entity := r.2.entity, persisted := r.2.persisted,
      effects := r.2.effects ++
        [.counterAdd ("DeploymentCount") 1,
         .gaugeRecord ("DeploymentDuration") dur,
         .event PhaseAppPostEvaluation.shortName ("Normal") ("Finished")] }

/-- The post-deployment-evaluation step of the workload-instance walk
(controller.go lines 214-228): run the pending-promotion block (which, as
in the source, tests PostDeploymentStatus), persist if it changed, and
hand the phase to the driver unless its accessor already reports
succeeded; otherwise fall through to the completion block. -/
def wiWalkPostEval (o : WIOracle) (s : RecState KeptnWorkloadInstance) :
    ReconcileOutput KeptnWorkloadInstance :=
  let r := wiPromoteAndSave s wiPostEvalStepPromote
  if r.1 = false then wiUpdateFailOut r.2
  else if ¬ r.2.entity.isPostDeploymentEvaluationSucceeded then
    wiHandlePhase o.now r.2 PhaseAppPostEvaluation .postDeploymentEval
      (o.callback .postDeploymentEval)
  else wiCompletion o r.2

/-- The post-deployment step of the walk (controller.go lines 198-212). -/
def wiWalkPostDeployment (o : WIOracle) (s : RecState KeptnWorkloadInstance) :
    ReconcileOutput KeptnWorkloadInstance :=
  let r := wiPromoteAndSave s wiPromotePostDeployment
  if r.1 = false then wiUpdateFailOut r.2
  else if ¬ r.2.entity.isPostDeploymentSucceeded then
    wiHandlePhase o.now r.2 PhaseWorkloadPostDeployment .postDeployment
      (o.callback .postDeployment)
  else wiWalkPostEval o r.2

/-- The deployment step of the walk (controller.go lines 182-196). -/
def wiWalkDeployment (o : WIOracle) (s : RecState KeptnWorkloadInstance) :
    ReconcileOutput KeptnWorkloadInstance :=
  let r := wiPromoteAndSave s wiPromoteDeployment
  if r.1 = false then wiUpdateFailOut r.2
  else if ¬ r.2.entity.isDeploymentSucceeded then
    wiHandlePhase o.now r.2 PhaseWorkloadDeployment .deployment (o.callback .deployment)
  else wiWalkPostDeployment o r.2

/-- The pre-deployment-evaluation step of the walk (controller.go lines
165-180; as in the source the phase passed to the driver here is the
application pre-evaluation phase descriptor). -/
def wiWalkPreEval (o : WIOracle) (s : RecState KeptnWorkloadInstance) :
    ReconcileOutput KeptnWorkloadInstance :=
  let r := wiPromoteAndSave s wiPromotePreEval
  if r.1 = false then wiUpdateFailOut r.2
  else if ¬ r.2.entity.isPreDeploymentEvaluationSucceeded then
    wiHandlePhase o.now r.2 PhaseAppPreEvaluation .preDeploymentEval
      (o.callback .preDeploymentEval)
  else wiWalkDeployment o r.2

/-- The pre-deployment step of the walk (controller.go lines 158-163; the
pending-promotion for this phase already happened in the gate section). -/
def wiWalkPre (o : WIOracle) (s : RecState KeptnWorkloadInstance) :
    ReconcileOutput KeptnWorkloadInstance :=
  if ¬ s.entity.isPreDeploymentSucceeded then
    wiHandlePhase o.now s PhaseWorkloadPreDeployment .preDeployment
      (o.callback .preDeployment)
  else wiWalkPreEval o s

/-- The part of the workload-instance Reconcile after the cross-entity
gate has cleared (controller.go lines 131-255): promote the pre-deployment
status and copy the trace id, persisting when either changed (a failure of
that persist returns the empty result with the error); emit the Started
block when the application's current phase is empty; then walk the five
phases in order. -/
def wiAfterGate (o : WIOracle) (wi0 e1 : KeptnWorkloadInstance) (av : KeptnAppVersion) :
    ReconcileOutput KeptnWorkloadInstance :=
  let p1 := wiPromote1 e1
  let p2 := wiTraceCopy p1.1 av
  let s0 : RecState KeptnWorkloadInstance :=
    { entity := p2.1, persisted := wi0, effects := [], updates := o.updates }
  let save := p1.2 || p2.2
  let r0 := if save then doUpdate s0 else (true, s0)
  if r0.1 = false then wiUpdateFailOut r0.2
  else
    let s1 := r0.2
    let s2 := if av.status.currentPhase = ("") then
        { s1 with effects := s1.effects ++ wiStartedFx }
      else s1
    wiWalkPre o s2

/-- The workload-instance Reconcile after the entity has been fetched
(controller.go lines 93-255): stamp StartTime, then run the cross-entity
gate — a List error requeues after 10 seconds propagating the error, a
missing application aggregate requeues after 10 seconds with an error, a
failed application pre-deployment evaluation requeues after 60 seconds, an
unfinished one after 20 seconds — and only a succeeded one lets the
instance proceed to its own phase sequence. -/
def wiReconcile (o : WIOracle) (wi0 : KeptnWorkloadInstance) :
    ReconcileOutput KeptnWorkloadInstance :=
  let e1 := KeptnWorkloadInstance.setStartTime o.now wi0
  let ps := PhaseAppPreEvaluation.shortName
  match o.listApps with
  | .error msg =>
    { result := ⟨true, 10⟩,
      error := some (("could not fetch AppVersion for KeptnWorkloadInstance: ") ++ msg),
      entity := e1, persisted := wi0,
      effects := [.event ps ("Warning") ("GetAppVersionFailed")] }
  | .ok apps =>
    let r := getAppVersionForWorkloadInstance apps e1
    if ¬ r.1 then
      { result := ⟨true, 10⟩,
        error := some ("could not find AppVersion for KeptnWorkloadInstance"),
        entity := e1, persisted := wi0,
        effects := [.event ps ("Warning") ("AppVersionNotFound")] }
    else
      let av := r.2
      let appPreEvalStatus := av.status.preDeploymentEvaluationStatus
      if ¬ appPreEvalStatus.isSucceeded then
        if appPreEvalStatus.isFailed then
          { result := ⟨true, 60⟩, error := none, entity := e1, persisted := wi0,
            effects := [.event ps ("Warning") ("Failed")] }
        else
          { result := ⟨true, 20⟩, error := none, entity := e1, persisted := wi0,
            effects := [.event ps ("Normal") ("NotFinished")] }
      else wiAfterGate o wi0 e1 av

/-! ## The application-version reconciler (keptnappversion package) -/

/-- The completion block of the application-version reconciler (lines
626-656 of the concatenated source): record the Finished event, persist (a
failure requeues immediately with the error); when EndTime is unset record
the Completed phase and stamp EndTime — the overall Status is not touched
here — persist again, then sample the app counter and the app duration
gauge. -/
def appCompletion (o : AppOracle) (s : RecState KeptnAppVersion) :
    ReconcileOutput KeptnAppVersion :=
  let s0 := { s with effects := s.effects ++
      [.event PhaseAppPostEvaluation.shortName ("Normal") ("Finished")] }
  let r1 := doUpdate s0
  if r1.1 = false then
    { result := ⟨true, 0⟩, error := some ("status update failed"), entity := r1.2.entity,
      persisted := r1.2.persisted, effects := r1.2.effects }
  else
    let e := r1.2.entity
    let e2 :=
      if ¬ e.isEndTimeSet then
        KeptnAppVersion.setEndTime o.now
          { e with status := { e.status with currentPhase := PhaseCompleted.shortName } }
      else e
    let r2 := doUpdate { r1.2 with entity := e2 }
    if r2.1 = false then
      { result := ⟨true, 0⟩, error := some ("status update failed"), entity := r2.2.entity,
        persisted := r2.2.persisted, effects := r2.2.effects }
    else
      let dur : Int :=
        Int.ofNat (e2.status.endTime.getD 0) - Int.ofNat (e2.status.startTime.getD 0)
      { result := ⟨false, 0⟩, error := none, entity := r2.2.entity,
        persisted := r2.2.persisted,
        effects := r2.2.effects ++
          [.counterAdd ("AppCount") 1, .gaugeRecord ("AppDuration") dur] }

/-- The Started block of the application-version reconciler (lines 576-584
of the concatenated source), emitted when the entity's own current phase
is empty. -/
def appStartedFx (e1 : KeptnAppVersion) : List Effect :=
  if e1.status.currentPhase = ("") then
    [.spanUnbind PhaseAppPreDeployment.shortName,
     .spanGetOrCreate PhaseAppPreDeployment.shortName,
     .event PhaseAppPreDeployment.shortName ("Normal") ("Started")]
  else []

/-- The application-version Reconcile after the entity has been fetched
(lines 561-656 of the concatenated source): stamp StartTime; when the
entity's own current phase is empty, release the stale binding, open the
initial phase's span and record the Started event; walk the five phases in
order handing the first one whose guard is false to the Phase Driver (the
final phase's guard is IsPostDeploymentEvaluationCompleted); when every
guard holds, run the completion block. -/
def appReconcile (o : AppOracle) (a0 : KeptnAppVersion) : ReconcileOutput KeptnAppVersion :=
  let e1 := KeptnAppVersion.setStartTime o.now a0
  let s : RecState KeptnAppVersion :=
    { entity := e1, persisted := a0, effects := appStartedFx e1, updates := o.updates }
  if ¬ e1.isPreDeploymentSucceeded then
    appHandlePhase o.now s PhaseAppPreDeployment .preDeployment (o.callback .preDeployment)
  else if ¬ e1.isPreDeploymentEvaluationSucceeded then
    appHandlePhase o.now s PhaseAppPreEvaluation .preDeploymentEval
      (o.callback .preDeploymentEval)
  else if ¬ e1.areWorkloadsSucceeded then
    appHandlePhase o.now s PhaseAppDeployment .workloads (o.callback .workloads)
  else if ¬ e1.isPostDeploymentSucceeded then
    appHandlePhase o.now s PhaseAppPostDeployment .postDeployment
      (o.callback .postDeployment)
  else if ¬ e1.isPostDeploymentEvaluationCompleted then
    appHandlePhase o.now s PhaseAppPostEvaluation .postDeploymentEval
      (o.callback .postDeploymentEval)
  else appCompletion o s

/-- Number of callback invocations recorded in an effect log. -/
def countCallbacks (fx : List Effect) : Nat :=
  fx.countP (fun e => match e with | .callbackInvoked _ => true | _ => false)

/-- Number of Started events recorded in an effect log. -/
def countStarted (fx : List Effect) : Nat :=
  fx.countP (fun e => match e with | .event _ _ r => r = ("Started") | _ => false)

/-- Number of duration-gauge samples recorded in an effect log. -/
def countGauges (fx : List Effect) : Nat :=
  fx.countP (fun e => match e with | .gaugeRecord _ _ => true | _ => false)

/-- A workload instance wired to the fixture application below. -/
def fxWli : KeptnWorkloadInstance :=
  { namespace0 := ("default"), name := ("app-w1-1.0.0"),
    spec := { appName := ("app"), workloadName := ("app-w1"), version := ("1.0.0") } }

/-- An application aggregate whose workload set matches fxWli, with the
pre-deployment evaluation succeeded (the cross-entity gate clears) and a
nonempty current phase. -/
def fxAv : KeptnAppVersion :=
  { namespace0 := ("default"), name := ("app-1.0.0"),
    spec := { appName := ("app"), version := ("1.0.0"), traceId := [(("k"), ("v"))],
              workloads := [⟨("w1"), ("1.0.0")⟩] },
    status := { preDeploymentEvaluationStatus := .succeeded,
                currentPhase := ("AppPreDeployTasks") } }

/-- fxAv with an empty current phase. -/
def fxAvFresh : KeptnAppVersion :=
  { fxAv with status := { fxAv.status with currentPhase := ("") } }

/-- A completed workload instance: every phase accessor succeeded, overall
Status Succeeded, both times stamped, trace id present. -/
def fxWliDone : KeptnWorkloadInstance :=
  { fxWli with
    spec := { fxWli.spec with traceId := [(("k"), ("v"))] },
    status := { preDeploymentStatus := .succeeded, deploymentStatus := .succeeded,
                postDeploymentStatus := .succeeded,
                preDeploymentEvaluationStatus := .succeeded,
                postDeploymentEvaluationStatus := .succeeded,
                currentPhase := ("Completed"), status := .succeeded,
                startTime := some 1, endTime := some 9 } }

/-- A completed application aggregate. -/
def fxAppDone : KeptnAppVersion :=
  { namespace0 := ("default"), name := ("app-1.0.0"),
    spec := { appName := ("app"), version := ("1.0.0") },
    status := { preDeploymentStatus := .succeeded, postDeploymentStatus := .succeeded,
                preDeploymentEvaluationStatus := .succeeded,
                postDeploymentEvaluationStatus := .succeeded,
                workloadOverallStatus := .succeeded,
                currentPhase := ("Completed"), status := .succeeded,
                startTime := some 1, endTime := some 9 } }

/-- A freshly created application aggregate (spec initial state). -/
def fxAppInit : KeptnAppVersion :=
  { namespace0 := ("default"), name := ("app-1.0.0"),
    spec := { appName := ("app"), version := ("1.0.0") } }

/-- Oracle whose phase engines always report Progressing; the gate finds
fxAv; no update failures. -/
def fxOracle : WIOracle :=
  { now := 3, listApps := .ok [fxAv], callback := fun _ => .ok .progressing, updates := [] }

/-- Application oracle whose phase engines always report Succeeded. -/
def fxAppOracleSucc : AppOracle :=
  { now := 3, callback := fun _ => .ok .succeeded, updates := [] }

/-- Application oracle whose phase engines always report Progressing. -/
def fxAppOracle : AppOracle :=
  { now := 11, callback := fun _ => .ok .progressing, updates := [] }

/-! ## Claim C1 -/

/-- The two matching application aggregates of the C1 failing input, listed
with the semantically smaller version first. -/
def c1AppA : KeptnAppVersion :=
  { namespace0 := ("default"), name := ("app-1.2.0"),
    spec := { appName := ("app"), version := ("1.2.0"),
              workloads := [⟨("w1"), ("1.0.0")⟩] } }

/-- The aggregate carrying the semantically larger version 1.10.0. -/
def c1AppB : KeptnAppVersion :=
  { namespace0 := ("default"), name := ("app-1.10.0"),
    spec := { appName := ("app"), version := ("1.10.0"),
              workloads := [⟨("w1"), ("1.0.0")⟩] } }

/-- A driver state whose pre-deployment phase already failed. -/
def c5S : RecState KeptnWorkloadInstance :=
  { entity := { fxWli with status := { fxWli.status with preDeploymentStatus := .failed } },
    persisted := fxWli, effects := [], updates := [] }

/-- A driver state whose pre-deployment phase has not failed. -/
def c7S : RecState KeptnWorkloadInstance :=
  { entity := fxWli, persisted := fxWli, effects := [], updates := [] }

/-- A workload instance already past its first phase. -/
def c8Wli2 : KeptnWorkloadInstance :=
  { fxWli with status := { fxWli.status with
      currentPhase := PhaseWorkloadPreDeployment.shortName } }

/-- Oracle resolving to the fixture application with an empty current
phase. -/
def c8Oracle2 : WIOracle := { fxOracle with listApps := .ok [fxAvFresh] }

/-! ## Claim C4 -/

/-- The first phase of the application-version walk whose guard is false,
with its phase descriptor, mirroring the guard chain of the reconciler. -/
def appFirstUnfinished (a : KeptnAppVersion) : Option (KeptnPhaseType × AppField) :=
  if ¬ a.isPreDeploymentSucceeded then some (PhaseAppPreDeployment, .preDeployment)
  else if ¬ a.isPreDeploymentEvaluationSucceeded then
    some (PhaseAppPreEvaluation, .preDeploymentEval)
  else if ¬ a.areWorkloadsSucceeded then some (PhaseAppDeployment, .workloads)
  else if ¬ a.isPostDeploymentSucceeded then
    some (PhaseAppPostDeployment, .postDeployment)
  else if ¬ a.isPostDeploymentEvaluationCompleted then
    some (PhaseAppPostEvaluation, .postDeploymentEval)
  else none

/-- The first phase of the workload-instance walk whose accessor is false,
with the phase descriptor the source hands to the driver there. -/
def wiFirstUnfinished (wi : KeptnWorkloadInstance) : Option (KeptnPhaseType × WIField) :=
  if ¬ wi.isPreDeploymentSucceeded then some (PhaseWorkloadPreDeployment, .preDeployment)
  else if ¬ wi.isPreDeploymentEvaluationSucceeded then
    some (PhaseAppPreEvaluation, .preDeploymentEval)
  else if ¬ wi.isDeploymentSucceeded then some (PhaseWorkloadDeployment, .deployment)
  else if ¬ wi.isPostDeploymentSucceeded then
    some (PhaseWorkloadPostDeployment, .postDeployment)
  else if ¬ wi.isPostDeploymentEvaluationSucceeded then
    some (PhaseAppPostEvaluation, .postDeploymentEval)
  else none

/-! ## The EndTime invariant (claim C3) -/

/-- All five phase accessors of a workload instance report succeeded. -/
def wiAllSucc (wi : KeptnWorkloadInstance) : Bool :=
  wi.isPreDeploymentSucceeded && wi.isPreDeploymentEvaluationSucceeded
    && wi.isDeploymentSucceeded && wi.isPostDeploymentSucceeded
    && wi.isPostDeploymentEvaluationSucceeded

/-- The workload instance is stuck: its first unfinished phase has already
failed, so the driver will keep short-circuiting. -/
def wiStuck (wi : KeptnWorkloadInstance) : Bool :=
  match wiFirstUnfinished wi with
  | some (_, f) => (wiGetField f wi.status).isFailed
  | none => false

/-- The inductive state invariant of the workload-instance reconciler:
overall Succeeded means every phase succeeded and EndTime is stamped,
overall Failed means the walk is stuck at a failed phase and EndTime is
stamped, and EndTime is only ever stamped on a terminal overall Status. -/
def wiInv (wi : KeptnWorkloadInstance) : Bool :=
  (if wi.status.status = KeptnState.succeeded then
      wiAllSucc wi && wi.status.endTime.isSome else true)
  && (if wi.status.status = KeptnState.failed then
      wiStuck wi && wi.status.endTime.isSome else true)
  && (if wi.status.endTime.isSome then wi.status.status.isCompleted else true)

/-- All five phase guards of the application-version walk hold (the last
one is completion, not success, as in the source). -/
def appDone (a : KeptnAppVersion) : Bool :=
  a.isPreDeploymentSucceeded && a.isPreDeploymentEvaluationSucceeded
    && a.areWorkloadsSucceeded && a.isPostDeploymentSucceeded
    && a.isPostDeploymentEvaluationCompleted

/-- The application aggregate is stuck: its first unfinished phase has
already failed. -/
def appStuck (a : KeptnAppVersion) : Bool :=
  match appFirstUnfinished a with
  | some (_, f) => (appGetField f a.status).isFailed
  | none => false

/-- The inductive state invariant of the application-version reconciler.
Because a successful phase sets the overall Status to Succeeded well
before the walk finishes, Succeeded does not imply EndTime here; the
invariant keeps only: a finished walk has a terminal overall Status, and
EndTime is only stamped on a finished walk (Succeeded) or on a failure
(finished or stuck). -/
def appInv (a : KeptnAppVersion) : Bool :=
  (!(appDone a) || a.status.status.isCompleted)
  && (!(a.status.endTime.isSome)
      || ((decide (a.status.status = KeptnState.succeeded) && appDone a)
          || (decide (a.status.status = KeptnState.failed)
              && (appDone a || appStuck a))))

/-- One clean-update reconcile step of the workload-instance controller:
the store moves to the persisted output of a reconcile whose status
updates all succeed. -/
def wiStep (a b : KeptnWorkloadInstance) : Prop :=
  ∃ o : WIOracle, o.updates = [] ∧ b = (wiReconcile o a).persisted

/-- Reachability of the workload-instance store under clean reconciles. -/
def wiReachable (a b : KeptnWorkloadInstance) : Prop :=
  Relation.ReflTransGen wiStep a b

/-- One clean-update reconcile step of the application-version controller. -/
def appStep (a b : KeptnAppVersion) : Prop :=
  ∃ o : AppOracle, o.updates = [] ∧ b = (appReconcile o a).persisted

/-- Reachability of the application-version store under clean reconciles. -/
def appReachable (a b : KeptnAppVersion) : Prop :=
  Relation.ReflTransGen appStep a b

/-! ## Helper lemmas and concrete fixtures -/

/-- Replacing the current phase leaves every per-phase field unchanged. -/
theorem wiGetField_currentPhase (f : WIField) (st : KeptnWorkloadInstanceStatus)
    (v : String) : wiGetField f { st with currentPhase := v } = wiGetField f st := by
  cases f <;> rfl

/-- Replacing the current phase leaves every per-phase field unchanged. -/
theorem appGetField_currentPhase (f : AppField) (st : KeptnAppVersionStatus)
    (v : String) : appGetField f { st with currentPhase := v } = appGetField f st := by
  cases f <;> rfl

/-- Claim C1: the App-Version Resolver is claimed to return, among several
matching application aggregates, the one with the maximum version under
semantic-version ordering (1.10.0 beats 1.2.0).  On the failing input with
both aggregates matching and listed as [1.2.0, 1.10.0], the resolver of the
source returns the 1.2.0 aggregate: golang.org/x/mod/semver.Compare
declares versions without the leading v invalid and all invalid versions
equal, so the comparison never replaces the first match.  The final
conjuncts record that 1.2.0 is semantically below 1.10.0 (the spec's
ordering) while the library comparison of the two returns 0. -/
theorem c1_resolver_ignores_semver_without_v :
    getAppVersionForWorkloadInstance [c1AppA, c1AppB] fxWli = (true, c1AppA)
    ∧ c1AppA.spec.version = ("1.2.0")
    ∧ c1AppB.spec.version = ("1.10.0")
    ∧ specSemverLt c1AppA.spec.version c1AppB.spec.version = true
    ∧ semverCompare c1AppA.spec.version c1AppB.spec.version = 0 := by
  refine ⟨?_, rfl, rfl, by decide, by decide⟩
  decide

/-! ## Claim C5 -/

/-- Claim C5: for every call to handlePhase (either entity kind) in which
the phaseFailed predicate is true, the driver records a Failed event and
returns a 60-second requeue with no error; it does not invoke the
reconcilePhase callback and does not persist any status mutation (the
persisted snapshot is untouched, and the effect log gains only the span
lookup and the Failed event — no status update, no callback). -/
theorem c5_phase_failed_short_circuits :
    (∀ (now : Nat) (s : RecState KeptnWorkloadInstance) (phase : KeptnPhaseType)
        (field : WIField) (cb : Except String KeptnState),
      (wiGetField field s.entity.status).isFailed = true →
      (wiHandlePhase now s phase field cb).result = ⟨true, 60⟩
      ∧ (wiHandlePhase now s phase field cb).error = none
      ∧ (wiHandlePhase now s phase field cb).persisted = s.persisted
      ∧ (wiHandlePhase now s phase field cb).effects
          = s.effects ++ [.spanGetOrCreate phase.shortName,
                          .event phase.shortName ("Warning") ("Failed")])
    ∧ (∀ (now : Nat) (s : RecState KeptnAppVersion) (phase : KeptnPhaseType)
        (field : AppField) (cb : Except String KeptnState),
      (appGetField field s.entity.status).isFailed = true →
      (appHandlePhase now s phase field cb).result = ⟨true, 60⟩
      ∧ (appHandlePhase now s phase field cb).error = none
      ∧ (appHandlePhase now s phase field cb).persisted = s.persisted
      ∧ (appHandlePhase now s phase field cb).effects
          = s.effects ++ [.spanGetOrCreate phase.shortName,
                          .event phase.shortName ("Warning") ("Failed")]) := by
  constructor
  · intro now s phase field cb h
    simp only [wiHandlePhase, wiGetField_currentPhase, h]
    simp
  · intro now s phase field cb h
    simp only [appHandlePhase, appGetField_currentPhase, h]
    simp

/-- Witness for C5 at a concrete failed phase. -/
theorem c5_phase_failed_short_circuits_witness :
    (wiHandlePhase 0 c5S PhaseWorkloadPreDeployment .preDeployment
        (Except.ok KeptnState.progressing)).result = ⟨true, 60⟩
    ∧ (wiHandlePhase 0 c5S PhaseWorkloadPreDeployment .preDeployment
        (Except.ok KeptnState.progressing)).error = none
    ∧ (wiHandlePhase 0 c5S PhaseWorkloadPreDeployment .preDeployment
        (Except.ok KeptnState.progressing)).persisted = c5S.persisted
    ∧ (wiHandlePhase 0 c5S PhaseWorkloadPreDeployment .preDeployment
        (Except.ok KeptnState.progressing)).effects
        = c5S.effects ++ [.spanGetOrCreate PhaseWorkloadPreDeployment.shortName,
                          .event PhaseWorkloadPreDeployment.shortName ("Warning") ("Failed")] :=
  c5_phase_failed_short_circuits.1 0 c5S PhaseWorkloadPreDeployment .preDeployment
    (Except.ok KeptnState.progressing) (by decide)

/-! ## Claim C7 -/

/-- The common driver tail always requests a 5-second requeue without
error, whatever the update oracle decides. -/
theorem wiHandleTail_result (e pers : KeptnWorkloadInstance) (fx : List Effect)
    (updates : List Bool) (oldPhase : String) (updated : Bool) :
    (wiHandleTail e pers fx updates oldPhase updated).result = ⟨true, 5⟩
    ∧ (wiHandleTail e pers fx updates oldPhase updated).error = none := by
  simp only [wiHandleTail]
  split <;> simp

/-- Claim C7: for every call to handlePhase (either entity kind) that does
not take the phaseFailed short-circuit, a callback error yields an
immediate requeue (Requeue true with no delay) with the error propagated,
while a callback outcome of Succeeded, Failed or Progressing without error
yields a 5-second requeue with no error — including the terminal Failed
outcome. -/
theorem c7_driver_retry_directives :
    (∀ (now : Nat) (s : RecState KeptnWorkloadInstance) (phase : KeptnPhaseType)
        (field : WIField),
      (wiGetField field s.entity.status).isFailed = false →
      (∀ msg, (wiHandlePhase now s phase field (.error msg)).result = ⟨true, 0⟩
        ∧ (wiHandlePhase now s phase field (.error msg)).error = some msg)
      ∧ (∀ st, (wiHandlePhase now s phase field (.ok st)).result = ⟨true, 5⟩
        ∧ (wiHandlePhase now s phase field (.ok st)).error = none))
    ∧ (∀ (now : Nat) (s : RecState KeptnAppVersion) (phase : KeptnPhaseType)
        (field : AppField),
      (appGetField field s.entity.status).isFailed = false →
      (∀ msg, (appHandlePhase now s phase field (.error msg)).result = ⟨true, 0⟩
        ∧ (appHandlePhase now s phase field (.error msg)).error = some msg)
      ∧ (∀ st, (appHandlePhase now s phase field (.ok st)).result = ⟨true, 5⟩
        ∧ (appHandlePhase now s phase field (.ok st)).error = none)) := by
  constructor
  · intro now s phase field h
    constructor
    · intro msg
      simp only [wiHandlePhase, wiGetField_currentPhase, h]
      simp
    · intro st
      simp only [wiHandlePhase, wiGetField_currentPhase, h]
      simp only [Bool.false_eq_true, if_false]
      split
      · exact wiHandleTail_result ..
      · split <;> exact wiHandleTail_result ..
  · intro now s phase field h
    constructor
    · intro msg
      simp only [appHandlePhase, appGetField_currentPhase, h]
      simp
    · intro st
      simp only [appHandlePhase, appGetField_currentPhase, h]
      simp only [Bool.false_eq_true, if_false]
      repeat' split
      all_goals simp

/-- Witness for C7: a concrete erroring callback requeues immediately with
the error, and a concrete terminal-Failed outcome still requeues after
5 seconds without error. -/
theorem c7_driver_retry_directives_witness :
    ((wiHandlePhase 0 c7S PhaseWorkloadPreDeployment .preDeployment
        (.error ("boom"))).result = ⟨true, 0⟩
      ∧ (wiHandlePhase 0 c7S PhaseWorkloadPreDeployment .preDeployment
        (.error ("boom"))).error = some ("boom"))
    ∧ ((wiHandlePhase 0 c7S PhaseWorkloadPreDeployment .preDeployment
        (.ok KeptnState.failed)).result = ⟨true, 5⟩
      ∧ (wiHandlePhase 0 c7S PhaseWorkloadPreDeployment .preDeployment
        (.ok KeptnState.failed)).error = none) :=
  ⟨(c7_driver_retry_directives.1 0 c7S PhaseWorkloadPreDeployment .preDeployment
      (by decide)).1 ("boom"),
   (c7_driver_retry_directives.1 0 c7S PhaseWorkloadPreDeployment .preDeployment
      (by decide)).2 KeptnState.failed⟩

/-! ## Claim C6 -/

/-- Claim C6: the cross-entity gate of the workload-instance reconcile
yields exactly the claimed directives: a List error gives a 10-second
requeue with the error propagated; a missing aggregate gives a 10-second
requeue with an error noting absence; a Failed application
pre-deployment-evaluation gives a 60-second requeue without error; a
not-yet-succeeded one gives a 20-second requeue without error; and only a
Succeeded one lets the instance proceed to its own phase sequence (the
output is then exactly the post-gate walk). -/
theorem c6_gate_directives (o : WIOracle) (wi : KeptnWorkloadInstance) :
    (∀ msg, o.listApps = .error msg →
      (wiReconcile o wi).result = ⟨true, 10⟩
      ∧ (wiReconcile o wi).error
          = some (("could not fetch AppVersion for KeptnWorkloadInstance: ") ++ msg)
      ∧ (wiReconcile o wi).persisted = wi)
    ∧ (∀ apps, o.listApps = .ok apps →
      (getAppVersionForWorkloadInstance apps
          (KeptnWorkloadInstance.setStartTime o.now wi)).1 = false →
      (wiReconcile o wi).result = ⟨true, 10⟩
      ∧ (wiReconcile o wi).error
          = some ("could not find AppVersion for KeptnWorkloadInstance")
      ∧ (wiReconcile o wi).persisted = wi)
    ∧ (∀ apps av, o.listApps = .ok apps →
      getAppVersionForWorkloadInstance apps
          (KeptnWorkloadInstance.setStartTime o.now wi) = (true, av) →
      av.status.preDeploymentEvaluationStatus = .failed →
      (wiReconcile o wi).result = ⟨true, 60⟩
      ∧ (wiReconcile o wi).error = none
      ∧ (wiReconcile o wi).persisted = wi)
    ∧ (∀ apps av, o.listApps = .ok apps →
      getAppVersionForWorkloadInstance apps
          (KeptnWorkloadInstance.setStartTime o.now wi) = (true, av) →
      av.status.preDeploymentEvaluationStatus.isSucceeded = false →
      av.status.preDeploymentEvaluationStatus.isFailed = false →
      (wiReconcile o wi).result = ⟨true, 20⟩
      ∧ (wiReconcile o wi).error = none
      ∧ (wiReconcile o wi).persisted = wi)
    ∧ (∀ apps av, o.listApps = .ok apps →
      getAppVersionForWorkloadInstance apps
          (KeptnWorkloadInstance.setStartTime o.now wi) = (true, av) →
      av.status.preDeploymentEvaluationStatus = .succeeded →
      wiReconcile o wi
        = wiAfterGate o wi (KeptnWorkloadInstance.setStartTime o.now wi) av) := by
  refine ⟨?_, ?_, ?_, ?_, ?_⟩
  · intro msg h
    simp [wiReconcile, h]
  · intro apps h hnf
    simp [wiReconcile, h, hnf]
  · intro apps av h hr hf
    simp [wiReconcile, h, hr, hf, KeptnState.isSucceeded, KeptnState.isFailed]
  · intro apps av h hr hs hf
    simp [wiReconcile, h, hr, hs, hf]
  · intro apps av h hr hs
    simp [wiReconcile, h, hr, hs, KeptnState.isSucceeded]

/-- Witness for C6: each gate directive observed at a concrete input. -/
theorem c6_gate_directives_witness :
    ((wiReconcile { fxOracle with listApps := .error ("boom") } fxWli).result = ⟨true, 10⟩
      ∧ (wiReconcile { fxOracle with listApps := .error ("boom") } fxWli).error
          = some (("could not fetch AppVersion for KeptnWorkloadInstance: ") ++ ("boom"))
      ∧ (wiReconcile { fxOracle with listApps := .error ("boom") } fxWli).persisted = fxWli)
    ∧ ((wiReconcile { fxOracle with listApps := .ok [] } fxWli).result = ⟨true, 10⟩
      ∧ (wiReconcile { fxOracle with listApps := .ok [] } fxWli).error
          = some ("could not find AppVersion for KeptnWorkloadInstance")
      ∧ (wiReconcile { fxOracle with listApps := .ok [] } fxWli).persisted = fxWli)
    ∧ ((wiReconcile { fxOracle with
          listApps := .ok [{ fxAv with status :=
            { fxAv.status with preDeploymentEvaluationStatus := .failed } }] } fxWli).result
        = ⟨true, 60⟩)
    ∧ ((wiReconcile { fxOracle with
          listApps := .ok [{ fxAv with status :=
            { fxAv.status with preDeploymentEvaluationStatus := .progressing } }] }
          fxWli).result = ⟨true, 20⟩)
    ∧ (wiReconcile fxOracle fxWli
        = wiAfterGate fxOracle fxWli
            (KeptnWorkloadInstance.setStartTime fxOracle.now fxWli) fxAv) :=
  ⟨(c6_gate_directives { fxOracle with listApps := .error ("boom") } fxWli).1 ("boom") rfl,
   (c6_gate_directives { fxOracle with listApps := .ok [] } fxWli).2.1 [] rfl (by decide),
   ((c6_gate_directives _ fxWli).2.2.1 _
      ({ fxAv with status := { fxAv.status with preDeploymentEvaluationStatus := .failed } })
      rfl (by decide) rfl).1,
   ((c6_gate_directives _ fxWli).2.2.2.1 _
      ({ fxAv with status :=
         { fxAv.status with preDeploymentEvaluationStatus := .progressing } })
      rfl (by decide) (by decide) (by decide)).1,
   (c6_gate_directives fxOracle fxWli).2.2.2.2 [fxAv] fxAv rfl (by decide) rfl⟩

/-! ## Claim C10 -/

/-- Claim C10: on every workload instance found in the store — including
one whose overall Status is already terminal — the application-aggregate
resolution gate runs before any of the instance's own phase-status checks;
when no matching aggregate exists, the reconcile returns an error with a
10-second requeue rather than a no-op, invokes no phase callback, and
persists nothing. -/
theorem c10_gate_runs_before_own_checks (o : WIOracle) (wi : KeptnWorkloadInstance)
    (apps : List KeptnAppVersion) :
    o.listApps = .ok apps →
    (getAppVersionForWorkloadInstance apps
        (KeptnWorkloadInstance.setStartTime o.now wi)).1 = false →
    (wiReconcile o wi).result = ⟨true, 10⟩
    ∧ (wiReconcile o wi).error.isSome = true
    ∧ (wiReconcile o wi).persisted = wi
    ∧ countCallbacks (wiReconcile o wi).effects = 0 := by
  intro h hnf
  simp [wiReconcile, h, hnf, countCallbacks]

/-- Witness for C10 at a completed workload instance and an empty
namespace listing: the reconcile of the terminal entity errors with a
10-second requeue instead of a no-op. -/
theorem c10_gate_runs_before_own_checks_witness :
    (wiReconcile { fxOracle with listApps := .ok [] } fxWliDone).result = ⟨true, 10⟩
    ∧ (wiReconcile { fxOracle with listApps := .ok [] } fxWliDone).error.isSome = true
    ∧ (wiReconcile { fxOracle with listApps := .ok [] } fxWliDone).persisted = fxWliDone
    ∧ countCallbacks (wiReconcile { fxOracle with listApps := .ok [] } fxWliDone).effects
        = 0 :=
  c10_gate_runs_before_own_checks { fxOracle with listApps := .ok [] } fxWliDone [] rfl
    (by decide)

/-! ## Claim C9 -/

/-- Stamping the start time only fills the startTime field, with the rest
of the object unchanged. -/
theorem wiSetStartTime_eq (now : Nat) (wi : KeptnWorkloadInstance) :
    KeptnWorkloadInstance.setStartTime now wi
      = { wi with status := { wi.status with
            startTime := some (wi.status.startTime.getD now) } } := by
  unfold KeptnWorkloadInstance.setStartTime
  split
  · simp_all
  · rename_i h
    cases hh : wi.status.startTime with
    | none => exact absurd hh h
    | some t =>
      simp only [hh, Option.getD_some]
      rw [← hh]

/-- Stamping the start time only fills the startTime field, with the rest
of the object unchanged. -/
theorem appSetStartTime_eq (now : Nat) (av : KeptnAppVersion) :
    KeptnAppVersion.setStartTime now av
      = { av with status := { av.status with
            startTime := some (av.status.startTime.getD now) } } := by
  unfold KeptnAppVersion.setStartTime
  split
  · simp_all
  · rename_i h
    cases hh : av.status.startTime with
    | none => exact absurd hh h
    | some t =>
      simp only [hh, Option.getD_some]
      rw [← hh]

/-- The trace-id copy touches only the spec. -/
theorem wiTraceCopy_status (wi : KeptnWorkloadInstance) (av : KeptnAppVersion) :
    (wiTraceCopy wi av).1.status = wi.status := by
  unfold wiTraceCopy
  split <;> rfl

/-- The first gate-section promotion is a no-op unless the field is
Pending. -/
theorem wiPromote1_noop (wi : KeptnWorkloadInstance)
    (h : wi.status.preDeploymentStatus ≠ .pending) : wiPromote1 wi = (wi, false) := by
  simp [wiPromote1, h]

/-- The pre-deployment-evaluation promotion is a no-op unless Pending. -/
theorem wiPromotePreEval_noop (wi : KeptnWorkloadInstance)
    (h : wi.status.preDeploymentEvaluationStatus ≠ .pending) :
    wiPromotePreEval wi = (wi, false) := by
  simp [wiPromotePreEval, h]

/-- The deployment promotion is a no-op unless Pending. -/
theorem wiPromoteDeployment_noop (wi : KeptnWorkloadInstance)
    (h : wi.status.deploymentStatus ≠ .pending) : wiPromoteDeployment wi = (wi, false) := by
  simp [wiPromoteDeployment, h]

/-- The post-deployment promotion is a no-op unless Pending. -/
theorem wiPromotePostDeployment_noop (wi : KeptnWorkloadInstance)
    (h : wi.status.postDeploymentStatus ≠ .pending) :
    wiPromotePostDeployment wi = (wi, false) := by
  simp [wiPromotePostDeployment, h]

/-- The post-evaluation-step promotion block is a no-op unless the
post-deployment task status is Pending. -/
theorem wiPostEvalStepPromote_noop (wi : KeptnWorkloadInstance)
    (h : wi.status.postDeploymentStatus ≠ .pending) :
    wiPostEvalStepPromote wi = (wi, false) := by
  simp [wiPostEvalStepPromote, h]

/-- A promotion that does not change the entity skips the store update. -/
theorem wiPromoteAndSave_noop (s : RecState KeptnWorkloadInstance)
    (promote : KeptnWorkloadInstance → KeptnWorkloadInstance × Bool)
    (h : promote s.entity = (s.entity, false)) : wiPromoteAndSave s promote = (true, s) := by
  simp [wiPromoteAndSave, h]

/-- An erroring callback leaves the persisted snapshot untouched (when the
phase had not already failed). -/
theorem wiHandlePhase_error_persisted (now : Nat) (s : RecState KeptnWorkloadInstance)
    (phase : KeptnPhaseType) (field : WIField) (msg : String)
    (h : (wiGetField field s.entity.status).isFailed = false) :
    (wiHandlePhase now s phase field (.error msg)).persisted = s.persisted := by
  simp only [wiHandlePhase, wiGetField_currentPhase, h]
  simp

/-- The gate section of the post-gate walk under a clean update stream:
the walk starts from the trace-copied entity, the persisted snapshot is
either the stored object or that entity, and the accumulated effects hold
no callback, no counter, no gauge, and a Started event exactly when the
application's current phase is empty. -/
theorem wiAfterGate_head (o : WIOracle) (wi0 e1 : KeptnWorkloadInstance)
    (av : KeptnAppVersion) (hupd : o.updates = []) :
    ∃ (pers : KeptnWorkloadInstance) (fx : List Effect),
      wiAfterGate o wi0 e1 av
        = wiWalkPre o { entity := (wiTraceCopy (wiPromote1 e1).1 av).1, persisted := pers,
                        effects := fx, updates := [] }
      ∧ (pers = wi0 ∨ pers = (wiTraceCopy (wiPromote1 e1).1 av).1)
      ∧ countCallbacks fx = 0
      ∧ fx.count (.counterAdd ("DeploymentCount") 1) = 0
      ∧ countGauges fx = 0
      ∧ countStarted fx = (if av.status.currentPhase = ("") then 1 else 0) := by
  by_cases hsave : ((wiPromote1 e1).2 || (wiTraceCopy (wiPromote1 e1).1 av).2) = true <;>
    by_cases hcp : av.status.currentPhase = ("") <;>
      simp only [wiAfterGate, hupd, hsave, hcp, doUpdate, if_true, if_false,
        Bool.false_eq_true, Bool.true_eq_false, reduceIte] <;>
      first
        | exact ⟨_, _, rfl, Or.inr rfl, by decide, by decide, by decide,
            by first
              | decide
              | simp [countStarted, wiStartedFx, hcp]
              | (simp [countStarted, wiStartedFx, hcp]; decide)⟩
        | exact ⟨_, _, rfl, Or.inl rfl, by decide, by decide, by decide,
            by first
              | decide
              | simp [countStarted, wiStartedFx, hcp]
              | (simp [countStarted, wiStartedFx, hcp]; decide)⟩

/-- Skipping the pre-deployment step when its accessor succeeded. -/
theorem wiWalkPre_skip (o : WIOracle) (s : RecState KeptnWorkloadInstance)
    (hg : s.entity.isPreDeploymentSucceeded = true) : wiWalkPre o s = wiWalkPreEval o s := by
  simp [wiWalkPre, hg]

/-- Skipping the pre-deployment-evaluation step. -/
theorem wiWalkPreEval_skip (o : WIOracle) (s : RecState KeptnWorkloadInstance)
    (hnoop : wiPromotePreEval s.entity = (s.entity, false))
    (hg : s.entity.isPreDeploymentEvaluationSucceeded = true) :
    wiWalkPreEval o s = wiWalkDeployment o s := by
  simp [wiWalkPreEval, wiPromoteAndSave_noop s _ hnoop, hg]

/-- Skipping the deployment step. -/
theorem wiWalkDeployment_skip (o : WIOracle) (s : RecState KeptnWorkloadInstance)
    (hnoop : wiPromoteDeployment s.entity = (s.entity, false))
    (hg : s.entity.isDeploymentSucceeded = true) :
    wiWalkDeployment o s = wiWalkPostDeployment o s := by
  simp [wiWalkDeployment, wiPromoteAndSave_noop s _ hnoop, hg]

/-- Skipping the post-deployment step. -/
theorem wiWalkPostDeployment_skip (o : WIOracle) (s : RecState KeptnWorkloadInstance)
    (hnoop : wiPromotePostDeployment s.entity = (s.entity, false))
    (hg : s.entity.isPostDeploymentSucceeded = true) :
    wiWalkPostDeployment o s = wiWalkPostEval o s := by
  simp [wiWalkPostDeployment, wiPromoteAndSave_noop s _ hnoop, hg]

/-- The post-evaluation step hands the phase to the driver when its
accessor has not succeeded (and its promotion block changed nothing). -/
theorem wiWalkPostEval_driver (o : WIOracle) (s : RecState KeptnWorkloadInstance)
    (hnoop : wiPostEvalStepPromote s.entity = (s.entity, false))
    (hg : s.entity.isPostDeploymentEvaluationSucceeded = false) :
    wiWalkPostEval o s
      = wiHandlePhase o.now s PhaseAppPostEvaluation .postDeploymentEval
          (o.callback .postDeploymentEval) := by
  simp [wiWalkPostEval, wiPromoteAndSave_noop s _ hnoop, hg]

/-- The post-evaluation step falls through to the completion block when
its accessor succeeded. -/
theorem wiWalkPostEval_completion (o : WIOracle) (s : RecState KeptnWorkloadInstance)
    (hnoop : wiPostEvalStepPromote s.entity = (s.entity, false))
    (hg : s.entity.isPostDeploymentEvaluationSucceeded = true) :
    wiWalkPostEval o s = wiCompletion o s := by
  simp [wiWalkPostEval, wiPromoteAndSave_noop s _ hnoop, hg]

/-- The completion block on a clean update stream and a set end time:
persist the entity unchanged and emit the counter, the gauge and the
Finished event. -/
theorem wiCompletion_of_endTimeSet (o : WIOracle) (s : RecState KeptnWorkloadInstance)
    (hend : s.entity.isEndTimeSet = true) (hupd : s.updates = []) :
    wiCompletion o s
      = { result := ⟨false, 0⟩, error := none, entity := s.entity, persisted := s.entity,
          effects := (s.effects ++ [.statusUpdate true]) ++
            [.counterAdd ("DeploymentCount") 1,
             .gaugeRecord ("DeploymentDuration")
               (Int.ofNat (s.entity.status.endTime.getD 0)
                 - Int.ofNat (s.entity.status.startTime.getD 0)),
             .event PhaseAppPostEvaluation.shortName ("Normal") ("Finished")] } := by
  simp [wiCompletion, hend, doUpdate, hupd]

/-- When the cross-entity gate has cleared and the first four phases of the
entity handed to the walk have succeeded while the post-deployment
evaluation is still Pending, an erroring post-evaluation callback leaves
the persisted snapshot at either the stored object or the trace-copied
entity. -/
theorem wiAfterGate_cb_error_persisted (o : WIOracle) (wi0 e1 : KeptnWorkloadInstance)
    (av : KeptnAppVersion) (msg : String)
    (h1 : e1.status.preDeploymentStatus = .succeeded)
    (h2 : e1.status.preDeploymentEvaluationStatus = .succeeded)
    (h3 : e1.status.deploymentStatus = .succeeded)
    (h4 : e1.status.postDeploymentStatus = .succeeded)
    (h5 : e1.status.postDeploymentEvaluationStatus = .pending)
    (hcb : o.callback .postDeploymentEval = .error msg)
    (hupd : o.updates = []) :
    (wiAfterGate o wi0 e1 av).persisted = wi0
    ∨ (wiAfterGate o wi0 e1 av).persisted = (wiTraceCopy e1 av).1 := by
  have hp1 : wiPromote1 e1 = (e1, false) :=
    wiPromote1_noop e1 (by rw [h1]; intro hh; cases hh)
  obtain ⟨pers, fx, heq, hpers, -⟩ := wiAfterGate_head o wi0 e1 av hupd
  rw [hp1] at heq hpers
  have hts : (wiTraceCopy e1 av).1.status = e1.status := wiTraceCopy_status e1 av
  rw [heq, wiWalkPre_skip o _
        (by simp [KeptnWorkloadInstance.isPreDeploymentSucceeded, hts, h1,
              KeptnState.isSucceeded]),
      wiWalkPreEval_skip o _
        (wiPromotePreEval_noop _ (by rw [hts, h2]; intro hh; cases hh))
        (by simp [KeptnWorkloadInstance.isPreDeploymentEvaluationSucceeded, hts, h2,
              KeptnState.isSucceeded]),
      wiWalkDeployment_skip o _
        (wiPromoteDeployment_noop _ (by rw [hts, h3]; intro hh; cases hh))
        (by simp [KeptnWorkloadInstance.isDeploymentSucceeded, hts, h3,
              KeptnState.isSucceeded]),
      wiWalkPostDeployment_skip o _
        (wiPromotePostDeployment_noop _ (by rw [hts, h4]; intro hh; cases hh))
        (by simp [KeptnWorkloadInstance.isPostDeploymentSucceeded, hts, h4,
              KeptnState.isSucceeded]),
      wiWalkPostEval_driver o _
        (wiPostEvalStepPromote_noop _ (by rw [hts, h4]; intro hh; cases hh))
        (by simp [KeptnWorkloadInstance.isPostDeploymentEvaluationSucceeded, hts, h5,
              KeptnState.isSucceeded]),
      hcb,
      wiHandlePhase_error_persisted o.now _ _ _ msg
        (by simp [wiGetField, hts, h5, KeptnState.isFailed])]
  exact hpers

/-- Claim C9: the pending-promotion block of the post-deployment-evaluation
step of the workload-instance reconciler tests and promotes
PostDeploymentStatus (the post-deployment task status), never
PostDeploymentEvaluationStatus, and leaves every other field alone; at
reconcile level, once the first four phases have succeeded, the step is a
no-op — when the post-deployment-evaluation phase is still Pending and its
callback errors, the persisted status still carries Pending there (it was
never promoted to Progressing) and the whole persisted status equals the
stored one. -/
theorem c9_posteval_step_promotes_postdeployment :
    (∀ wi : KeptnWorkloadInstance,
      (wiPostEvalStepPromote wi).1.status.postDeploymentEvaluationStatus
          = wi.status.postDeploymentEvaluationStatus
      ∧ (wiPostEvalStepPromote wi).1.status.postDeploymentStatus
          = (if wi.status.postDeploymentStatus = .pending then .progressing
             else wi.status.postDeploymentStatus)
      ∧ (wiPostEvalStepPromote wi).1.status.preDeploymentStatus
          = wi.status.preDeploymentStatus
      ∧ (wiPostEvalStepPromote wi).1.status.preDeploymentEvaluationStatus
          = wi.status.preDeploymentEvaluationStatus
      ∧ (wiPostEvalStepPromote wi).1.status.deploymentStatus = wi.status.deploymentStatus
      ∧ (wiPostEvalStepPromote wi).1.status.status = wi.status.status
      ∧ (wiPostEvalStepPromote wi).1.status.endTime = wi.status.endTime
      ∧ (wiPostEvalStepPromote wi).1.spec = wi.spec
      ∧ (wi.status.postDeploymentStatus = .succeeded →
            wiPostEvalStepPromote wi = (wi, false)))
    ∧ (∀ (o : WIOracle) (wi : KeptnWorkloadInstance) (apps : List KeptnAppVersion)
        (av : KeptnAppVersion) (msg : String),
      o.listApps = .ok apps →
      getAppVersionForWorkloadInstance apps
          (KeptnWorkloadInstance.setStartTime o.now wi) = (true, av) →
      av.status.preDeploymentEvaluationStatus = .succeeded →
      wi.status.preDeploymentStatus = .succeeded →
      wi.status.preDeploymentEvaluationStatus = .succeeded →
      wi.status.deploymentStatus = .succeeded →
      wi.status.postDeploymentStatus = .succeeded →
      wi.status.postDeploymentEvaluationStatus = .pending →
      o.callback .postDeploymentEval = .error msg →
      o.updates = [] →
      (wiReconcile o wi).persisted.status.postDeploymentEvaluationStatus = .pending
      ∧ (wiReconcile o wi).persisted.status.postDeploymentStatus = .succeeded
      ∧ (wiReconcile o wi).persisted.status.status = wi.status.status) := by
  constructor
  · intro wi
    unfold wiPostEvalStepPromote
    split <;> simp_all
  · intro o wi apps av msg h hr hs h1 h2 h3 h4 h5 hcb hupd
    have hs' : av.status.preDeploymentEvaluationStatus.isSucceeded = true := by
      rw [hs]; rfl
    have hred : wiReconcile o wi
        = wiAfterGate o wi (KeptnWorkloadInstance.setStartTime o.now wi) av := by
      simp [wiReconcile, h, hr, hs']
    have he1 : (KeptnWorkloadInstance.setStartTime o.now wi).status.preDeploymentStatus
          = wi.status.preDeploymentStatus
        ∧ (KeptnWorkloadInstance.setStartTime o.now wi).status.preDeploymentEvaluationStatus
          = wi.status.preDeploymentEvaluationStatus
        ∧ (KeptnWorkloadInstance.setStartTime o.now wi).status.deploymentStatus
          = wi.status.deploymentStatus
        ∧ (KeptnWorkloadInstance.setStartTime o.now wi).status.postDeploymentStatus
          = wi.status.postDeploymentStatus
        ∧ (KeptnWorkloadInstance.setStartTime o.now wi).status.postDeploymentEvaluationStatus
          = wi.status.postDeploymentEvaluationStatus
        ∧ (KeptnWorkloadInstance.setStartTime o.now wi).status.status
          = wi.status.status := by
      rw [wiSetStartTime_eq]
      exact ⟨rfl, rfl, rfl, rfl, rfl, rfl⟩
    have hres := wiAfterGate_cb_error_persisted o wi
      (KeptnWorkloadInstance.setStartTime o.now wi) av msg
      (by rw [he1.1, h1]) (by rw [he1.2.1, h2]) (by rw [he1.2.2.1, h3])
      (by rw [he1.2.2.2.1, h4]) (by rw [he1.2.2.2.2.1, h5]) hcb hupd
    rw [hred]
    have hts := wiTraceCopy_status (KeptnWorkloadInstance.setStartTime o.now wi) av
    rcases hres with hP | hP <;> rw [hP]
    · exact ⟨h5, h4, rfl⟩
    · rw [hts]
      exact ⟨by rw [he1.2.2.2.2.1, h5], by rw [he1.2.2.2.1, h4], he1.2.2.2.2.2⟩

/-- Witness for C9: the block-level and the reconcile-level statements at a
concrete instance whose post-deployment-evaluation phase is Pending with an
erroring callback. -/
theorem c9_posteval_step_promotes_postdeployment_witness :
    (wiPostEvalStepPromote fxWliDone = (fxWliDone, false))
    ∧ ((wiReconcile
          { now := 3, listApps := .ok [fxAv],
            callback := fun _ => .error ("boom"), updates := [] }
          { fxWliDone with status := { fxWliDone.status with
              postDeploymentEvaluationStatus := .pending } }).persisted.status.postDeploymentEvaluationStatus
        = .pending) :=
  ⟨(c9_posteval_step_promotes_postdeployment.1 fxWliDone).2.2.2.2.2.2.2.2 rfl,
   (c9_posteval_step_promotes_postdeployment.2
      { now := 3, listApps := .ok [fxAv],
        callback := fun _ => .error ("boom"), updates := [] }
      { fxWliDone with status := { fxWliDone.status with
          postDeploymentEvaluationStatus := .pending } }
      [fxAv] fxAv ("boom") rfl (by decide) rfl rfl rfl rfl rfl rfl rfl rfl).1⟩

/-! ## Claim C2 -/

/-- Counterexample to C2: re-reconciling an already-completed application
aggregate (overall Status Succeeded, every phase accessor succeeded,
EndTime set) leaves the persisted status unchanged, but emits the terminal
app counter increment and the duration-gauge sample again — the claimed
absence of duplicate terminal metric emission fails. -/
theorem c2_counterexample_rereconcile_emits_metrics :
    fxAppDone.status.status = .succeeded
    ∧ fxAppDone.status.endTime.isSome = true
    ∧ (appReconcile fxAppOracle fxAppDone).persisted.status = fxAppDone.status
    ∧ (appReconcile fxAppOracle fxAppDone).effects.count (.counterAdd ("AppCount") 1) = 1
    ∧ countGauges (appReconcile fxAppOracle fxAppDone).effects = 1 := by
  decide

/-- Stamping the start time is a no-op when the start time is present. -/
theorem wiSetStartTime_of_isSome (now : Nat) (wi : KeptnWorkloadInstance)
    (h : wi.status.startTime.isSome = true) :
    KeptnWorkloadInstance.setStartTime now wi = wi := by
  unfold KeptnWorkloadInstance.setStartTime
  split <;> simp_all

/-- Stamping the start time is a no-op when the start time is present. -/
theorem appSetStartTime_of_isSome (now : Nat) (av : KeptnAppVersion)
    (h : av.status.startTime.isSome = true) :
    KeptnAppVersion.setStartTime now av = av := by
  unfold KeptnAppVersion.setStartTime
  split <;> simp_all

/-- The completion path of the post-gate walk: when every phase accessor of
the entity handed to the walk reports succeeded and the end time is
already set, the walk persists the (trace-copied) entity unchanged,
returns success, and emits exactly one deployment counter increment and
one duration-gauge sample. -/
theorem wiAfterGate_completed (o : WIOracle) (wi0 e1 : KeptnWorkloadInstance)
    (av : KeptnAppVersion)
    (h1 : e1.status.preDeploymentStatus = .succeeded)
    (h2 : e1.status.preDeploymentEvaluationStatus = .succeeded)
    (h3 : e1.status.deploymentStatus = .succeeded)
    (h4 : e1.status.postDeploymentStatus = .succeeded)
    (h5 : e1.status.postDeploymentEvaluationStatus = .succeeded)
    (hend : e1.status.endTime.isSome = true)
    (hupd : o.updates = []) :
    (wiAfterGate o wi0 e1 av).persisted = (wiTraceCopy e1 av).1
    ∧ (wiAfterGate o wi0 e1 av).error = none
    ∧ (wiAfterGate o wi0 e1 av).result = ⟨false, 0⟩
    ∧ (wiAfterGate o wi0 e1 av).effects.count (.counterAdd ("DeploymentCount") 1) = 1
    ∧ countGauges (wiAfterGate o wi0 e1 av).effects = 1 := by
  have hp1 : wiPromote1 e1 = (e1, false) :=
    wiPromote1_noop e1 (by rw [h1]; intro hh; cases hh)
  obtain ⟨pers, fx, heq, hpers, hcc, hcnt, hcg, hcs⟩ := wiAfterGate_head o wi0 e1 av hupd
  rw [hp1] at heq hpers
  have hts : (wiTraceCopy e1 av).1.status = e1.status := wiTraceCopy_status e1 av
  rw [heq, wiWalkPre_skip o _
        (by simp [KeptnWorkloadInstance.isPreDeploymentSucceeded, hts, h1,
              KeptnState.isSucceeded]),
      wiWalkPreEval_skip o _
        (wiPromotePreEval_noop _ (by rw [hts, h2]; intro hh; cases hh))
        (by simp [KeptnWorkloadInstance.isPreDeploymentEvaluationSucceeded, hts, h2,
              KeptnState.isSucceeded]),
      wiWalkDeployment_skip o _
        (wiPromoteDeployment_noop _ (by rw [hts, h3]; intro hh; cases hh))
        (by simp [KeptnWorkloadInstance.isDeploymentSucceeded, hts, h3,
              KeptnState.isSucceeded]),
      wiWalkPostDeployment_skip o _
        (wiPromotePostDeployment_noop _ (by rw [hts, h4]; intro hh; cases hh))
        (by simp [KeptnWorkloadInstance.isPostDeploymentSucceeded, hts, h4,
              KeptnState.isSucceeded]),
      wiWalkPostEval_completion o _
        (wiPostEvalStepPromote_noop _ (by rw [hts, h4]; intro hh; cases hh))
        (by simp [KeptnWorkloadInstance.isPostDeploymentEvaluationSucceeded, hts, h5,
              KeptnState.isSucceeded]),
      wiCompletion_of_endTimeSet o _
        (by simp [KeptnWorkloadInstance.isEndTimeSet, hts, hend]) rfl]
  refine ⟨rfl, rfl, rfl, ?_, ?_⟩
  · simp [List.count_append, hcnt]
  · have hcg2 : fx.countP
        (fun e => match e with | .gaugeRecord _ _ => true | _ => false) = 0 := hcg
    simp [countGauges, List.countP_append, hcg2]

/-- Amended C2: re-reconciling a terminal entity (overall Status terminal,
every phase accessor succeeded, EndTime and StartTime set) performs no
status mutation — the persisted status equals the stored one — but the
terminal counter and the duration gauge are emitted again on every such
invocation (for a workload instance this happens whenever its cross-entity
gate clears; for an application aggregate on every invocation); the
reconcilers are not metrics-idempotent. -/
theorem c2_amended_no_mutation_but_metrics :
    (∀ (o : WIOracle) (wi : KeptnWorkloadInstance) (apps : List KeptnAppVersion)
        (av : KeptnAppVersion),
      o.listApps = .ok apps →
      getAppVersionForWorkloadInstance apps
          (KeptnWorkloadInstance.setStartTime o.now wi) = (true, av) →
      av.status.preDeploymentEvaluationStatus = .succeeded →
      wi.status.preDeploymentStatus = .succeeded →
      wi.status.preDeploymentEvaluationStatus = .succeeded →
      wi.status.deploymentStatus = .succeeded →
      wi.status.postDeploymentStatus = .succeeded →
      wi.status.postDeploymentEvaluationStatus = .succeeded →
      (wi.status.status = .succeeded ∨ wi.status.status = .failed) →
      wi.status.endTime.isSome = true →
      wi.status.startTime.isSome = true →
      o.updates = [] →
      (wiReconcile o wi).persisted.status = wi.status
      ∧ (wiReconcile o wi).error = none
      ∧ (wiReconcile o wi).effects.count (.counterAdd ("DeploymentCount") 1) = 1
      ∧ countGauges (wiReconcile o wi).effects = 1)
    ∧ (∀ (o : AppOracle) (a : KeptnAppVersion),
      a.status.preDeploymentStatus = .succeeded →
      a.status.preDeploymentEvaluationStatus = .succeeded →
      a.status.workloadOverallStatus = .succeeded →
      a.status.postDeploymentStatus = .succeeded →
      a.status.postDeploymentEvaluationStatus = .succeeded →
      (a.status.status = .succeeded ∨ a.status.status = .failed) →
      a.status.endTime.isSome = true →
      a.status.startTime.isSome = true →
      o.updates = [] →
      (appReconcile o a).persisted.status = a.status
      ∧ (appReconcile o a).error = none
      ∧ (appReconcile o a).effects.count (.counterAdd ("AppCount") 1) = 1
      ∧ countGauges (appReconcile o a).effects = 1) := by
  constructor
  · intro o wi apps av h hr hs h1 h2 h3 h4 h5 hterm hend hstart hupd
    have he1 : KeptnWorkloadInstance.setStartTime o.now wi = wi :=
      wiSetStartTime_of_isSome o.now wi hstart
    have hs' : av.status.preDeploymentEvaluationStatus.isSucceeded = true := by
      rw [hs]; rfl
    rw [he1] at hr
    have hred : wiReconcile o wi = wiAfterGate o wi wi av := by
      simp [wiReconcile, h, he1, hr, hs']
    have hres := wiAfterGate_completed o wi wi av h1 h2 h3 h4 h5 hend hupd
    rw [hred]
    refine ⟨?_, hres.2.1, hres.2.2.2.1, hres.2.2.2.2⟩
    rw [hres.1, wiTraceCopy_status]
  · intro o a h1 h2 h3 h4 h5 hterm hend hstart hupd
    have he1 : KeptnAppVersion.setStartTime o.now a = a :=
      appSetStartTime_of_isSome o.now a hstart
    have hset : a.isEndTimeSet = true := by
      simp [KeptnAppVersion.isEndTimeSet, hend]
    have hc : a.isPostDeploymentEvaluationCompleted = true := by
      simp [KeptnAppVersion.isPostDeploymentEvaluationCompleted, h5,
        KeptnState.isCompleted, KeptnState.isSucceeded]
    by_cases hcp : a.status.currentPhase = ("") <;>
      simp_all [appReconcile, appStartedFx, KeptnAppVersion.isPreDeploymentSucceeded,
        KeptnAppVersion.isPreDeploymentEvaluationSucceeded,
        KeptnAppVersion.areWorkloadsSucceeded, KeptnAppVersion.isPostDeploymentSucceeded,
        KeptnState.isSucceeded, appCompletion, doUpdate, countGauges,
        List.count_append, List.countP_append]

/-- Witness for the amended C2 at concrete completed entities. -/
theorem c2_amended_no_mutation_but_metrics_witness :
    ((wiReconcile fxOracle fxWliDone).persisted.status = fxWliDone.status
      ∧ (wiReconcile fxOracle fxWliDone).error = none
      ∧ (wiReconcile fxOracle fxWliDone).effects.count (.counterAdd ("DeploymentCount") 1)
          = 1
      ∧ countGauges (wiReconcile fxOracle fxWliDone).effects = 1)
    ∧ ((appReconcile fxAppOracle fxAppDone).persisted.status = fxAppDone.status
      ∧ (appReconcile fxAppOracle fxAppDone).error = none
      ∧ (appReconcile fxAppOracle fxAppDone).effects.count (.counterAdd ("AppCount") 1) = 1
      ∧ countGauges (appReconcile fxAppOracle fxAppDone).effects = 1) :=
  ⟨c2_amended_no_mutation_but_metrics.1 fxOracle fxWliDone [fxAv] fxAv rfl (by decide)
      rfl rfl rfl rfl rfl rfl (Or.inl rfl) rfl rfl rfl,
   c2_amended_no_mutation_but_metrics.2 fxAppOracle fxAppDone
      rfl rfl rfl rfl rfl (Or.inl rfl) rfl rfl rfl⟩

/-! ## Claim C8 -/

/-- Writing a per-phase field never touches the start time. -/
theorem wiSetField_startTime (f : WIField) (v : KeptnState)
    (st : KeptnWorkloadInstanceStatus) : (wiSetField f v st).startTime = st.startTime := by
  cases f <;> rfl

/-- Writing a per-phase field never touches the start time. -/
theorem appSetField_startTime (f : AppField) (v : KeptnState)
    (st : KeptnAppVersionStatus) : (appSetField f v st).startTime = st.startTime := by
  cases f <;> rfl

/-- Stamping the end time never touches the start time. -/
theorem wiSetEndTime_startTime (now : Nat) (wi : KeptnWorkloadInstance) :
    (KeptnWorkloadInstance.setEndTime now wi).status.startTime = wi.status.startTime := by
  unfold KeptnWorkloadInstance.setEndTime
  split <;> rfl

/-- Stamping the end time never touches the start time. -/
theorem appSetEndTime_startTime (now : Nat) (av : KeptnAppVersion) :
    (KeptnAppVersion.setEndTime now av).status.startTime = av.status.startTime := by
  unfold KeptnAppVersion.setEndTime
  split <;> rfl

/-- Stamping the end time only fills the endTime field. -/
theorem wiSetEndTime_eq (now : Nat) (wi : KeptnWorkloadInstance) :
    KeptnWorkloadInstance.setEndTime now wi
      = { wi with status := { wi.status with
            endTime := some (wi.status.endTime.getD now) } } := by
  unfold KeptnWorkloadInstance.setEndTime
  split
  · simp_all
  · rename_i h
    cases hh : wi.status.endTime with
    | none => exact absurd hh h
    | some t =>
      simp only [hh, Option.getD_some]
      rw [← hh]

/-- Stamping the end time only fills the endTime field. -/
theorem appSetEndTime_eq (now : Nat) (av : KeptnAppVersion) :
    KeptnAppVersion.setEndTime now av
      = { av with status := { av.status with
            endTime := some (av.status.endTime.getD now) } } := by
  unfold KeptnAppVersion.setEndTime
  split
  · simp_all
  · rename_i h
    cases hh : av.status.endTime with
    | none => exact absurd hh h
    | some t =>
      simp only [hh, Option.getD_some]
      rw [← hh]

/-- The driver tail adds no Started event and returns the entity it was
given. -/
theorem wiHandleTail_frame (e pers : KeptnWorkloadInstance) (fx : List Effect)
    (updates : List Bool) (oldPhase : String) (updated : Bool) :
    countStarted (wiHandleTail e pers fx updates oldPhase updated).effects = countStarted fx
    ∧ (wiHandleTail e pers fx updates oldPhase updated).entity = e := by
  simp only [wiHandleTail, doUpdate]
  repeat' split
  all_goals simp_all [countStarted, List.countP_append]

/-- The workload-instance driver records no Started event and keeps the
in-memory entity's start time. -/
theorem wiHandlePhase_countStarted (now : Nat) (s : RecState KeptnWorkloadInstance)
    (phase : KeptnPhaseType) (field : WIField) (cb : Except String KeptnState) :
    countStarted (wiHandlePhase now s phase field cb).effects = countStarted s.effects
    ∧ (wiHandlePhase now s phase field cb).entity.status.startTime
        = s.entity.status.startTime := by
  by_cases hf : (wiGetField field s.entity.status).isFailed = true
  · constructor <;>
      simp [wiHandlePhase, wiGetField_currentPhase, hf, countStarted, List.countP_append]
  · rw [Bool.not_eq_true] at hf
    cases cb with
    | error msg =>
      constructor <;>
        simp [wiHandlePhase, wiGetField_currentPhase, hf, countStarted, List.countP_append]
    | ok st =>
      simp only [wiHandlePhase, wiGetField_currentPhase, hf, Bool.false_eq_true, if_false]
      constructor
      · split
        · rw [(wiHandleTail_frame ..).1]
          simp [countStarted, List.countP_append]
        · split
          · rw [(wiHandleTail_frame ..).1]
            simp [countStarted, List.countP_append]
          · rw [(wiHandleTail_frame ..).1]
            simp [countStarted, List.countP_append]
      · split
        · rw [(wiHandleTail_frame ..).2]
          simp [wiSetField_startTime]
        · split
          · rw [(wiHandleTail_frame ..).2, wiSetEndTime_startTime]
            simp [wiSetField_startTime]
          · rw [(wiHandleTail_frame ..).2]
            split <;> simp [wiSetField_startTime]

/-- The application-version driver records no Started event and keeps the
in-memory entity's start time. -/
theorem appHandlePhase_countStarted (now : Nat) (s : RecState KeptnAppVersion)
    (phase : KeptnPhaseType) (field : AppField) (cb : Except String KeptnState) :
    countStarted (appHandlePhase now s phase field cb).effects = countStarted s.effects
    ∧ (appHandlePhase now s phase field cb).entity.status.startTime
        = s.entity.status.startTime := by
  by_cases hf : (appGetField field s.entity.status).isFailed = true
  · constructor <;>
      simp [appHandlePhase, appGetField_currentPhase, hf, countStarted, List.countP_append]
  · rw [Bool.not_eq_true] at hf
    cases cb with
    | error msg =>
      constructor <;>
        simp [appHandlePhase, appGetField_currentPhase, hf, countStarted,
          List.countP_append]
    | ok st =>
      simp only [appHandlePhase, appGetField_currentPhase, hf, Bool.false_eq_true, if_false,
        appSetEndTime_eq]
      constructor
      · simp only [doUpdate]
        repeat' split
        all_goals simp_all [countStarted, List.countP_append]
      · simp only [doUpdate]
        repeat' split
        all_goals simp_all [appSetField_startTime]

/-- The workload-instance completion block records no Started event and
keeps the in-memory entity's start time. -/
theorem wiCompletion_countStarted (o : WIOracle) (s : RecState KeptnWorkloadInstance) :
    countStarted (wiCompletion o s).effects = countStarted s.effects
    ∧ (wiCompletion o s).entity.status.startTime = s.entity.status.startTime := by
  simp only [wiCompletion, wiSetEndTime_eq, doUpdate]
  repeat' split
  all_goals simp_all [countStarted, List.countP_append, List.countP_cons]

/-- The application-version completion block records no Started event and
keeps the in-memory entity's start time. -/
theorem appCompletion_countStarted (o : AppOracle) (s : RecState KeptnAppVersion) :
    countStarted (appCompletion o s).effects = countStarted s.effects
    ∧ (appCompletion o s).entity.status.startTime = s.entity.status.startTime := by
  simp only [appCompletion, appSetEndTime_eq, doUpdate]
  repeat' split
  all_goals simp_all [countStarted, List.countP_append, List.countP_cons]

/-- A promotion-and-save step never adds events and keeps the start
time (promotions only flip a phase status to Progressing). -/
theorem wiPromoteAndSave_countStarted (s : RecState KeptnWorkloadInstance)
    (promote : KeptnWorkloadInstance → KeptnWorkloadInstance × Bool) :
    countStarted (wiPromoteAndSave s promote).2.effects = countStarted s.effects := by
  simp only [wiPromoteAndSave, doUpdate]
  repeat' split
  all_goals simp_all [countStarted, List.countP_append]

/-- Entity start time through a promotion-and-save step, for each of the
five promotion blocks (they only touch phase status fields). -/
theorem wiPromoteAndSave_startTime (s : RecState KeptnWorkloadInstance)
    (promote : KeptnWorkloadInstance → KeptnWorkloadInstance × Bool)
    (hp : ∀ wi, (promote wi).1.status.startTime = wi.status.startTime) :
    (wiPromoteAndSave s promote).2.entity.status.startTime
      = s.entity.status.startTime := by
  have hx := hp s.entity
  simp only [wiPromoteAndSave, doUpdate]
  repeat' split
  all_goals simp_all

/-- Each promotion block keeps the start time. -/
theorem wiPromotes_startTime (wi : KeptnWorkloadInstance) :
    (wiPromote1 wi).1.status.startTime = wi.status.startTime
    ∧ (wiPromotePreEval wi).1.status.startTime = wi.status.startTime
    ∧ (wiPromoteDeployment wi).1.status.startTime = wi.status.startTime
    ∧ (wiPromotePostDeployment wi).1.status.startTime = wi.status.startTime
    ∧ (wiPostEvalStepPromote wi).1.status.startTime = wi.status.startTime := by
  refine ⟨?_, ?_, ?_, ?_, ?_⟩ <;>
    (first
      | (unfold wiPromote1; split <;> rfl)
      | (unfold wiPromotePreEval; split <;> rfl)
      | (unfold wiPromoteDeployment; split <;> rfl)
      | (unfold wiPromotePostDeployment; split <;> rfl)
      | (unfold wiPostEvalStepPromote; split <;> rfl))

/-- The post-evaluation walk step adds no Started event and keeps the
entity's start time. -/
theorem wiWalkPostEval_countStarted (o : WIOracle) (s : RecState KeptnWorkloadInstance) :
    countStarted (wiWalkPostEval o s).effects = countStarted s.effects
    ∧ (wiWalkPostEval o s).entity.status.startTime = s.entity.status.startTime := by
  constructor <;>
  · simp only [wiWalkPostEval]
    split
    · simp [wiUpdateFailOut, wiPromoteAndSave_countStarted,
        wiPromoteAndSave_startTime _ _ (fun wi => (wiPromotes_startTime wi).2.2.2.2)]
    · split
      · first
          | rw [(wiHandlePhase_countStarted ..).1, wiPromoteAndSave_countStarted]
          | rw [(wiHandlePhase_countStarted ..).2,
              wiPromoteAndSave_startTime _ _ (fun wi => (wiPromotes_startTime wi).2.2.2.2)]
      · first
          | rw [(wiCompletion_countStarted ..).1, wiPromoteAndSave_countStarted]
          | rw [(wiCompletion_countStarted ..).2,
              wiPromoteAndSave_startTime _ _ (fun wi => (wiPromotes_startTime wi).2.2.2.2)]

/-- The post-deployment walk step adds no Started event and keeps the
entity's start time. -/
theorem wiWalkPostDeployment_countStarted (o : WIOracle)
    (s : RecState KeptnWorkloadInstance) :
    countStarted (wiWalkPostDeployment o s).effects = countStarted s.effects
    ∧ (wiWalkPostDeployment o s).entity.status.startTime = s.entity.status.startTime := by
  constructor <;>
  · simp only [wiWalkPostDeployment]
    split
    · simp [wiUpdateFailOut, wiPromoteAndSave_countStarted,
        wiPromoteAndSave_startTime _ _ (fun wi => (wiPromotes_startTime wi).2.2.2.1)]
    · split
      · first
          | rw [(wiHandlePhase_countStarted ..).1, wiPromoteAndSave_countStarted]
          | rw [(wiHandlePhase_countStarted ..).2,
              wiPromoteAndSave_startTime _ _ (fun wi => (wiPromotes_startTime wi).2.2.2.1)]
      · first
          | rw [(wiWalkPostEval_countStarted ..).1, wiPromoteAndSave_countStarted]
          | rw [(wiWalkPostEval_countStarted ..).2,
              wiPromoteAndSave_startTime _ _ (fun wi => (wiPromotes_startTime wi).2.2.2.1)]

/-- The deployment walk step adds no Started event and keeps the entity's
start time. -/
theorem wiWalkDeployment_countStarted (o : WIOracle) (s : RecState KeptnWorkloadInstance) :
    countStarted (wiWalkDeployment o s).effects = countStarted s.effects
    ∧ (wiWalkDeployment o s).entity.status.startTime = s.entity.status.startTime := by
  constructor <;>
  · simp only [wiWalkDeployment]
    split
    · simp [wiUpdateFailOut, wiPromoteAndSave_countStarted,
        wiPromoteAndSave_startTime _ _ (fun wi => (wiPromotes_startTime wi).2.2.1)]
    · split
      · first
          | rw [(wiHandlePhase_countStarted ..).1, wiPromoteAndSave_countStarted]
          | rw [(wiHandlePhase_countStarted ..).2,
              wiPromoteAndSave_startTime _ _ (fun wi => (wiPromotes_startTime wi).2.2.1)]
      · first
          | rw [(wiWalkPostDeployment_countStarted ..).1, wiPromoteAndSave_countStarted]
          | rw [(wiWalkPostDeployment_countStarted ..).2,
              wiPromoteAndSave_startTime _ _ (fun wi => (wiPromotes_startTime wi).2.2.1)]

/-- The pre-evaluation walk step adds no Started event and keeps the
entity's start time. -/
theorem wiWalkPreEval_countStarted (o : WIOracle) (s : RecState KeptnWorkloadInstance) :
    countStarted (wiWalkPreEval o s).effects = countStarted s.effects
    ∧ (wiWalkPreEval o s).entity.status.startTime = s.entity.status.startTime := by
  constructor <;>
  · simp only [wiWalkPreEval]
    split
    · simp [wiUpdateFailOut, wiPromoteAndSave_countStarted,
        wiPromoteAndSave_startTime _ _ (fun wi => (wiPromotes_startTime wi).2.1)]
    · split
      · first
          | rw [(wiHandlePhase_countStarted ..).1, wiPromoteAndSave_countStarted]
          | rw [(wiHandlePhase_countStarted ..).2,
              wiPromoteAndSave_startTime _ _ (fun wi => (wiPromotes_startTime wi).2.1)]
      · first
          | rw [(wiWalkDeployment_countStarted ..).1, wiPromoteAndSave_countStarted]
          | rw [(wiWalkDeployment_countStarted ..).2,
              wiPromoteAndSave_startTime _ _ (fun wi => (wiPromotes_startTime wi).2.1)]

/-- The whole walk adds no Started event and keeps the entity's start
time. -/
theorem wiWalkPre_countStarted (o : WIOracle) (s : RecState KeptnWorkloadInstance) :
    countStarted (wiWalkPre o s).effects = countStarted s.effects
    ∧ (wiWalkPre o s).entity.status.startTime = s.entity.status.startTime := by
  constructor <;>
  · simp only [wiWalkPre]
    split
    · first
        | rw [(wiHandlePhase_countStarted ..).1]
        | rw [(wiHandlePhase_countStarted ..).2]
    · first
        | rw [(wiWalkPreEval_countStarted ..).1]
        | rw [(wiWalkPreEval_countStarted ..).2]

/-- Counterexample to C8: a workload instance whose own CurrentPhase is
empty is reconciled (gate cleared) without any Started event, because the
reconciler gates the Started block on the owning application's
CurrentPhase — here nonempty; conversely an instance whose own
CurrentPhase is nonempty receives a Started event when the application's
CurrentPhase is empty. -/
theorem c8_counterexample_started_follows_app_phase :
    fxWli.status.currentPhase = ("")
    ∧ countStarted (wiReconcile fxOracle fxWli).effects = 0
    ∧ c8Wli2.status.currentPhase ≠ ("")
    ∧ countStarted (wiReconcile c8Oracle2 c8Wli2).effects = 1 := by
  decide

/-- Amended C8: StartTime is stamped (when unset) on every reconcile of
either entity kind, independently of CurrentPhase; the application-version
reconciler opens the initial phase's span and emits the Started event
exactly when its own CurrentPhase is empty; the workload-instance
reconciler, once its cross-entity gate clears, emits the Started block
exactly when the owning application aggregate's CurrentPhase is empty —
not its own. -/
theorem c8_amended_started_gating :
    (∀ (o : AppOracle) (a : KeptnAppVersion),
      countStarted (appReconcile o a).effects
        = (if a.status.currentPhase = ("") then 1 else 0)
      ∧ (appReconcile o a).entity.status.startTime
        = some (a.status.startTime.getD o.now))
    ∧ (∀ (o : WIOracle) (wi : KeptnWorkloadInstance) (apps : List KeptnAppVersion)
        (av : KeptnAppVersion),
      o.listApps = .ok apps →
      getAppVersionForWorkloadInstance apps
          (KeptnWorkloadInstance.setStartTime o.now wi) = (true, av) →
      av.status.preDeploymentEvaluationStatus = .succeeded →
      o.updates = [] →
      countStarted (wiReconcile o wi).effects
        = (if av.status.currentPhase = ("") then 1 else 0)
      ∧ (wiReconcile o wi).entity.status.startTime
        = some (wi.status.startTime.getD o.now)) := by
  constructor
  · intro o a
    constructor
    · simp only [appReconcile, appStartedFx, appSetStartTime_eq]
      repeat' split
      all_goals
        first
          | (rw [(appHandlePhase_countStarted ..).1]; simp_all [countStarted])
          | (rw [(appCompletion_countStarted ..).1]; simp_all [countStarted])
    · simp only [appReconcile, appSetStartTime_eq]
      repeat' split
      all_goals
        first
          | (rw [(appHandlePhase_countStarted ..).2])
          | (rw [(appCompletion_countStarted ..).2])
  · intro o wi apps av h hr hs hupd
    have hs' : av.status.preDeploymentEvaluationStatus.isSucceeded = true := by
      rw [hs]; rfl
    have hred : wiReconcile o wi
        = wiAfterGate o wi (KeptnWorkloadInstance.setStartTime o.now wi) av := by
      simp [wiReconcile, h, hr, hs']
    obtain ⟨pers, fx, heq, -, -, -, -, hcs⟩ :=
      wiAfterGate_head o wi (KeptnWorkloadInstance.setStartTime o.now wi) av hupd
    constructor
    · rw [hred, heq, (wiWalkPre_countStarted ..).1]
      exact hcs
    · rw [hred, heq, (wiWalkPre_countStarted ..).2]
      show ((wiTraceCopy (wiPromote1 (KeptnWorkloadInstance.setStartTime o.now wi)).1
        av).1).status.startTime = _
      rw [wiTraceCopy_status, (wiPromotes_startTime _).1, wiSetStartTime_eq]

/-- Witness for the amended C8 at concrete entities: a fresh application
aggregate gets its Started event; a workload instance whose gate clears
against an already-started application gets none. -/
theorem c8_amended_started_gating_witness :
    (countStarted (appReconcile fxAppOracleSucc fxAppInit).effects
        = (if fxAppInit.status.currentPhase = ("") then 1 else 0)
      ∧ (appReconcile fxAppOracleSucc fxAppInit).entity.status.startTime
        = some (fxAppInit.status.startTime.getD fxAppOracleSucc.now))
    ∧ (countStarted (wiReconcile fxOracle fxWli).effects
        = (if fxAv.status.currentPhase = ("") then 1 else 0)
      ∧ (wiReconcile fxOracle fxWli).entity.status.startTime
        = some (fxWli.status.startTime.getD fxOracle.now)) :=
  ⟨c8_amended_started_gating.1 fxAppOracleSucc fxAppInit,
   c8_amended_started_gating.2 fxOracle fxWli [fxAv] fxAv rfl (by decide) rfl rfl⟩

/-- The gate-section promotion only moves the pre-deployment status from
Pending to Progressing. -/
theorem wiPromote1_char (wi : KeptnWorkloadInstance) :
    (wiPromote1 wi).1
      = { wi with status := { wi.status with
            preDeploymentStatus :=
              if wi.status.preDeploymentStatus = .pending then .progressing
              else wi.status.preDeploymentStatus } } := by
  unfold wiPromote1
  split <;> simp_all

/-- The pre-evaluation promotion only moves its status from Pending to
Progressing. -/
theorem wiPromotePreEval_char (wi : KeptnWorkloadInstance) :
    (wiPromotePreEval wi).1
      = { wi with status := { wi.status with
            preDeploymentEvaluationStatus :=
              if wi.status.preDeploymentEvaluationStatus = .pending then .progressing
              else wi.status.preDeploymentEvaluationStatus } } := by
  unfold wiPromotePreEval
  split <;> simp_all

/-- The deployment promotion only moves its status from Pending to
Progressing. -/
theorem wiPromoteDeployment_char (wi : KeptnWorkloadInstance) :
    (wiPromoteDeployment wi).1
      = { wi with status := { wi.status with
            deploymentStatus :=
              if wi.status.deploymentStatus = .pending then .progressing
              else wi.status.deploymentStatus } } := by
  unfold wiPromoteDeployment
  split <;> simp_all

/-- The post-deployment promotion only moves its status from Pending to
Progressing. -/
theorem wiPromotePostDeployment_char (wi : KeptnWorkloadInstance) :
    (wiPromotePostDeployment wi).1
      = { wi with status := { wi.status with
            postDeploymentStatus :=
              if wi.status.postDeploymentStatus = .pending then .progressing
              else wi.status.postDeploymentStatus } } := by
  unfold wiPromotePostDeployment
  split <;> simp_all

/-- The post-evaluation-step promotion block only moves the
post-deployment task status from Pending to Progressing. -/
theorem wiPostEvalStepPromote_char (wi : KeptnWorkloadInstance) :
    (wiPostEvalStepPromote wi).1
      = { wi with status := { wi.status with
            postDeploymentStatus :=
              if wi.status.postDeploymentStatus = .pending then .progressing
              else wi.status.postDeploymentStatus } } := by
  unfold wiPostEvalStepPromote
  split <;> simp_all

/-- A Pending-to-Progressing rewrite never changes whether a phase status
counts as succeeded, and never makes it failed. -/
theorem promoteValue_succ (v : KeptnState) :
    ((if v = .pending then KeptnState.progressing else v).isSucceeded = v.isSucceeded)
    ∧ ((if v = .pending then KeptnState.progressing else v).isFailed = v.isFailed) := by
  cases v <;> simp [KeptnState.isSucceeded, KeptnState.isFailed]

/-- A promotion-and-save step passes the promoted entity on, keeps a clean
update stream clean, and reports success on a clean stream. -/
theorem wiPromoteAndSave_state (s : RecState KeptnWorkloadInstance)
    (promote : KeptnWorkloadInstance → KeptnWorkloadInstance × Bool) :
    (wiPromoteAndSave s promote).2.entity = (promote s.entity).1
    ∧ (s.updates = [] → (wiPromoteAndSave s promote).1 = true
        ∧ (wiPromoteAndSave s promote).2.updates = []
        ∧ (wiPromoteAndSave s promote).2.persisted
            ∈ [s.persisted, (promote s.entity).1]) := by
  simp only [wiPromoteAndSave, doUpdate]
  repeat' split
  all_goals simp_all

/-- A status update records no callback invocation. -/
theorem doUpdate_countCallbacks {E : Type} (s : RecState E) :
    countCallbacks (doUpdate s).2.effects = countCallbacks s.effects := by
  simp only [doUpdate]
  repeat' split
  all_goals simp_all [countCallbacks, List.countP_append]

/-- The driver tail records no callback invocation. -/
theorem wiHandleTail_countCallbacks (e pers : KeptnWorkloadInstance) (fx : List Effect)
    (updates : List Bool) (oldPhase : String) (updated : Bool) :
    countCallbacks (wiHandleTail e pers fx updates oldPhase updated).effects
      = countCallbacks fx := by
  simp only [wiHandleTail, doUpdate]
  repeat' split
  all_goals simp_all [countCallbacks, List.countP_append]

/-- One driver call records at most one callback invocation. -/
theorem wiHandlePhase_countCallbacks (now : Nat) (s : RecState KeptnWorkloadInstance)
    (phase : KeptnPhaseType) (field : WIField) (cb : Except String KeptnState) :
    countCallbacks (wiHandlePhase now s phase field cb).effects
      ≤ countCallbacks s.effects + 1 := by
  by_cases hf : (wiGetField field s.entity.status).isFailed = true
  · simp [wiHandlePhase, wiGetField_currentPhase, hf, countCallbacks, List.countP_append]
  · rw [Bool.not_eq_true] at hf
    cases cb with
    | error msg =>
      simp [wiHandlePhase, wiGetField_currentPhase, hf, countCallbacks, List.countP_append]
    | ok st =>
      simp only [wiHandlePhase, wiGetField_currentPhase, hf, Bool.false_eq_true, if_false]
      split
      · rw [wiHandleTail_countCallbacks]
        simp [countCallbacks, List.countP_append]
      · split <;>
        · rw [wiHandleTail_countCallbacks]
          simp [countCallbacks, List.countP_append]

/-- One application driver call records at most one callback invocation. -/
theorem appHandlePhase_countCallbacks (now : Nat) (s : RecState KeptnAppVersion)
    (phase : KeptnPhaseType) (field : AppField) (cb : Except String KeptnState) :
    countCallbacks (appHandlePhase now s phase field cb).effects
      ≤ countCallbacks s.effects + 1 := by
  by_cases hf : (appGetField field s.entity.status).isFailed = true
  · simp [appHandlePhase, appGetField_currentPhase, hf, countCallbacks, List.countP_append]
  · rw [Bool.not_eq_true] at hf
    cases cb with
    | error msg =>
      simp [appHandlePhase, appGetField_currentPhase, hf, countCallbacks,
        List.countP_append]
    | ok st =>
      simp only [appHandlePhase, appGetField_currentPhase, hf, Bool.false_eq_true, if_false,
        appSetEndTime_eq, doUpdate]
      repeat' split
      all_goals simp_all [countCallbacks, List.countP_append]

/-- The workload-instance completion block records no callback. -/
theorem wiCompletion_countCallbacks (o : WIOracle) (s : RecState KeptnWorkloadInstance) :
    countCallbacks (wiCompletion o s).effects = countCallbacks s.effects := by
  simp only [wiCompletion, wiSetEndTime_eq, doUpdate]
  repeat' split
  all_goals simp_all [countCallbacks, List.countP_append]

/-- The application completion block records no callback. -/
theorem appCompletion_countCallbacks (o : AppOracle) (s : RecState KeptnAppVersion) :
    countCallbacks (appCompletion o s).effects = countCallbacks s.effects := by
  simp only [appCompletion, appSetEndTime_eq, doUpdate]
  repeat' split
  all_goals simp_all [countCallbacks, List.countP_append]

/-- A promotion-and-save step records no callback. -/
theorem wiPromoteAndSave_countCallbacks (s : RecState KeptnWorkloadInstance)
    (promote : KeptnWorkloadInstance → KeptnWorkloadInstance × Bool) :
    countCallbacks (wiPromoteAndSave s promote).2.effects = countCallbacks s.effects := by
  simp only [wiPromoteAndSave, doUpdate]
  repeat' split
  all_goals simp_all [countCallbacks, List.countP_append]

/-- The post-evaluation walk step invokes at most one callback. -/
theorem wiWalkPostEval_countCallbacks (o : WIOracle) (s : RecState KeptnWorkloadInstance) :
    countCallbacks (wiWalkPostEval o s).effects ≤ countCallbacks s.effects + 1 := by
  simp only [wiWalkPostEval]
  split
  · simp [wiUpdateFailOut, wiPromoteAndSave_countCallbacks]
  · split
    · calc countCallbacks (wiHandlePhase o.now (wiPromoteAndSave s wiPostEvalStepPromote).2
            PhaseAppPostEvaluation .postDeploymentEval (o.callback .postDeploymentEval)).effects
          ≤ countCallbacks (wiPromoteAndSave s wiPostEvalStepPromote).2.effects + 1 :=
            wiHandlePhase_countCallbacks ..
        _ = countCallbacks s.effects + 1 := by rw [wiPromoteAndSave_countCallbacks]
    · rw [wiCompletion_countCallbacks, wiPromoteAndSave_countCallbacks]
      omega

/-- The post-deployment walk step invokes at most one callback. -/
theorem wiWalkPostDeployment_countCallbacks (o : WIOracle)
    (s : RecState KeptnWorkloadInstance) :
    countCallbacks (wiWalkPostDeployment o s).effects ≤ countCallbacks s.effects + 1 := by
  simp only [wiWalkPostDeployment]
  split
  · simp [wiUpdateFailOut, wiPromoteAndSave_countCallbacks]
  · split
    · calc countCallbacks (wiHandlePhase o.now (wiPromoteAndSave s wiPromotePostDeployment).2
            PhaseWorkloadPostDeployment .postDeployment (o.callback .postDeployment)).effects
          ≤ countCallbacks (wiPromoteAndSave s wiPromotePostDeployment).2.effects + 1 :=
            wiHandlePhase_countCallbacks ..
        _ = countCallbacks s.effects + 1 := by rw [wiPromoteAndSave_countCallbacks]
    · calc countCallbacks (wiWalkPostEval o (wiPromoteAndSave s wiPromotePostDeployment).2).effects
          ≤ countCallbacks (wiPromoteAndSave s wiPromotePostDeployment).2.effects + 1 :=
            wiWalkPostEval_countCallbacks ..
        _ = countCallbacks s.effects + 1 := by rw [wiPromoteAndSave_countCallbacks]

/-- The deployment walk step invokes at most one callback. -/
theorem wiWalkDeployment_countCallbacks (o : WIOracle) (s : RecState KeptnWorkloadInstance) :
    countCallbacks (wiWalkDeployment o s).effects ≤ countCallbacks s.effects + 1 := by
  simp only [wiWalkDeployment]
  split
  · simp [wiUpdateFailOut, wiPromoteAndSave_countCallbacks]
  · split
    · calc countCallbacks (wiHandlePhase o.now (wiPromoteAndSave s wiPromoteDeployment).2
            PhaseWorkloadDeployment .deployment (o.callback .deployment)).effects
          ≤ countCallbacks (wiPromoteAndSave s wiPromoteDeployment).2.effects + 1 :=
            wiHandlePhase_countCallbacks ..
        _ = countCallbacks s.effects + 1 := by rw [wiPromoteAndSave_countCallbacks]
    · calc countCallbacks (wiWalkPostDeployment o (wiPromoteAndSave s wiPromoteDeployment).2).effects
          ≤ countCallbacks (wiPromoteAndSave s wiPromoteDeployment).2.effects + 1 :=
            wiWalkPostDeployment_countCallbacks ..
        _ = countCallbacks s.effects + 1 := by rw [wiPromoteAndSave_countCallbacks]

/-- The pre-evaluation walk step invokes at most one callback. -/
theorem wiWalkPreEval_countCallbacks (o : WIOracle) (s : RecState KeptnWorkloadInstance) :
    countCallbacks (wiWalkPreEval o s).effects ≤ countCallbacks s.effects + 1 := by
  simp only [wiWalkPreEval]
  split
  · simp [wiUpdateFailOut, wiPromoteAndSave_countCallbacks]
  · split
    · calc countCallbacks (wiHandlePhase o.now (wiPromoteAndSave s wiPromotePreEval).2
            PhaseAppPreEvaluation .preDeploymentEval (o.callback .preDeploymentEval)).effects
          ≤ countCallbacks (wiPromoteAndSave s wiPromotePreEval).2.effects + 1 :=
            wiHandlePhase_countCallbacks ..
        _ = countCallbacks s.effects + 1 := by rw [wiPromoteAndSave_countCallbacks]
    · calc countCallbacks (wiWalkDeployment o (wiPromoteAndSave s wiPromotePreEval).2).effects
          ≤ countCallbacks (wiPromoteAndSave s wiPromotePreEval).2.effects + 1 :=
            wiWalkDeployment_countCallbacks ..
        _ = countCallbacks s.effects + 1 := by rw [wiPromoteAndSave_countCallbacks]

/-- The whole walk invokes at most one callback. -/
theorem wiWalkPre_countCallbacks (o : WIOracle) (s : RecState KeptnWorkloadInstance) :
    countCallbacks (wiWalkPre o s).effects ≤ countCallbacks s.effects + 1 := by
  simp only [wiWalkPre]
  split
  · exact wiHandlePhase_countCallbacks ..
  · exact wiWalkPreEval_countCallbacks ..

/-- The first unfinished phase depends only on the status record. -/
theorem wiFirstUnfinished_congr (a b : KeptnWorkloadInstance) (h : a.status = b.status) :
    wiFirstUnfinished a = wiFirstUnfinished b := by
  simp [wiFirstUnfinished, KeptnWorkloadInstance.isPreDeploymentSucceeded,
    KeptnWorkloadInstance.isPreDeploymentEvaluationSucceeded,
    KeptnWorkloadInstance.isDeploymentSucceeded,
    KeptnWorkloadInstance.isPostDeploymentSucceeded,
    KeptnWorkloadInstance.isPostDeploymentEvaluationSucceeded, h]

/-- Each promotion block leaves the first unfinished phase unchanged. -/
theorem wiFirstUnfinished_promotes (wi : KeptnWorkloadInstance) :
    wiFirstUnfinished (wiPromote1 wi).1 = wiFirstUnfinished wi
    ∧ wiFirstUnfinished (wiPromotePreEval wi).1 = wiFirstUnfinished wi
    ∧ wiFirstUnfinished (wiPromoteDeployment wi).1 = wiFirstUnfinished wi
    ∧ wiFirstUnfinished (wiPromotePostDeployment wi).1 = wiFirstUnfinished wi
    ∧ wiFirstUnfinished (wiPostEvalStepPromote wi).1 = wiFirstUnfinished wi := by
  refine ⟨?_, ?_, ?_, ?_, ?_⟩ <;>
    first
      | (rw [wiPromote1_char]
         simp [wiFirstUnfinished, KeptnWorkloadInstance.isPreDeploymentSucceeded,
           KeptnWorkloadInstance.isPreDeploymentEvaluationSucceeded,
           KeptnWorkloadInstance.isDeploymentSucceeded,
           KeptnWorkloadInstance.isPostDeploymentSucceeded,
           KeptnWorkloadInstance.isPostDeploymentEvaluationSucceeded,
           (promoteValue_succ _).1])
      | (rw [wiPromotePreEval_char]
         simp [wiFirstUnfinished, KeptnWorkloadInstance.isPreDeploymentSucceeded,
           KeptnWorkloadInstance.isPreDeploymentEvaluationSucceeded,
           KeptnWorkloadInstance.isDeploymentSucceeded,
           KeptnWorkloadInstance.isPostDeploymentSucceeded,
           KeptnWorkloadInstance.isPostDeploymentEvaluationSucceeded,
           (promoteValue_succ _).1])
      | (rw [wiPromoteDeployment_char]
         simp [wiFirstUnfinished, KeptnWorkloadInstance.isPreDeploymentSucceeded,
           KeptnWorkloadInstance.isPreDeploymentEvaluationSucceeded,
           KeptnWorkloadInstance.isDeploymentSucceeded,
           KeptnWorkloadInstance.isPostDeploymentSucceeded,
           KeptnWorkloadInstance.isPostDeploymentEvaluationSucceeded,
           (promoteValue_succ _).1])
      | (rw [wiPromotePostDeployment_char]
         simp [wiFirstUnfinished, KeptnWorkloadInstance.isPreDeploymentSucceeded,
           KeptnWorkloadInstance.isPreDeploymentEvaluationSucceeded,
           KeptnWorkloadInstance.isDeploymentSucceeded,
           KeptnWorkloadInstance.isPostDeploymentSucceeded,
           KeptnWorkloadInstance.isPostDeploymentEvaluationSucceeded,
           (promoteValue_succ _).1])
      | (rw [wiPostEvalStepPromote_char]
         simp [wiFirstUnfinished, KeptnWorkloadInstance.isPreDeploymentSucceeded,
           KeptnWorkloadInstance.isPreDeploymentEvaluationSucceeded,
           KeptnWorkloadInstance.isDeploymentSucceeded,
           KeptnWorkloadInstance.isPostDeploymentSucceeded,
           KeptnWorkloadInstance.isPostDeploymentEvaluationSucceeded,
           (promoteValue_succ _).1])

/-- On a clean update stream, a walk step reduces to the guard test on the
promoted entity: the post-evaluation step. -/
theorem wiWalkPostEval_reduce (o : WIOracle) (s : RecState KeptnWorkloadInstance)
    (hupd : s.updates = []) :
    wiWalkPostEval o s
      = (if ¬ (wiPromoteAndSave s wiPostEvalStepPromote).2.entity.isPostDeploymentEvaluationSucceeded
         then wiHandlePhase o.now (wiPromoteAndSave s wiPostEvalStepPromote).2
           PhaseAppPostEvaluation .postDeploymentEval (o.callback .postDeploymentEval)
         else wiCompletion o (wiPromoteAndSave s wiPostEvalStepPromote).2) := by
  have hok := ((wiPromoteAndSave_state s wiPostEvalStepPromote).2 hupd).1
  simp [wiWalkPostEval, hok]

/-- On a clean update stream, the post-deployment walk step reduces. -/
theorem wiWalkPostDeployment_reduce (o : WIOracle) (s : RecState KeptnWorkloadInstance)
    (hupd : s.updates = []) :
    wiWalkPostDeployment o s
      = (if ¬ (wiPromoteAndSave s wiPromotePostDeployment).2.entity.isPostDeploymentSucceeded
         then wiHandlePhase o.now (wiPromoteAndSave s wiPromotePostDeployment).2
           PhaseWorkloadPostDeployment .postDeployment (o.callback .postDeployment)
         else wiWalkPostEval o (wiPromoteAndSave s wiPromotePostDeployment).2) := by
  have hok := ((wiPromoteAndSave_state s wiPromotePostDeployment).2 hupd).1
  simp [wiWalkPostDeployment, hok]

/-- On a clean update stream, the deployment walk step reduces. -/
theorem wiWalkDeployment_reduce (o : WIOracle) (s : RecState KeptnWorkloadInstance)
    (hupd : s.updates = []) :
    wiWalkDeployment o s
      = (if ¬ (wiPromoteAndSave s wiPromoteDeployment).2.entity.isDeploymentSucceeded
         then wiHandlePhase o.now (wiPromoteAndSave s wiPromoteDeployment).2
           PhaseWorkloadDeployment .deployment (o.callback .deployment)
         else wiWalkPostDeployment o (wiPromoteAndSave s wiPromoteDeployment).2) := by
  have hok := ((wiPromoteAndSave_state s wiPromoteDeployment).2 hupd).1
  simp [wiWalkDeployment, hok]

/-- On a clean update stream, the pre-evaluation walk step reduces. -/
theorem wiWalkPreEval_reduce (o : WIOracle) (s : RecState KeptnWorkloadInstance)
    (hupd : s.updates = []) :
    wiWalkPreEval o s
      = (if ¬ (wiPromoteAndSave s wiPromotePreEval).2.entity.isPreDeploymentEvaluationSucceeded
         then wiHandlePhase o.now (wiPromoteAndSave s wiPromotePreEval).2
           PhaseAppPreEvaluation .preDeploymentEval (o.callback .preDeploymentEval)
         else wiWalkDeployment o (wiPromoteAndSave s wiPromotePreEval).2) := by
  have hok := ((wiPromoteAndSave_state s wiPromotePreEval).2 hupd).1
  simp [wiWalkPreEval, hok]

/-- Success accessors through the pre-evaluation promotion. -/
theorem wiPromotePreEval_succ (wi : KeptnWorkloadInstance) :
    (wiPromotePreEval wi).1.isPreDeploymentSucceeded = wi.isPreDeploymentSucceeded
    ∧ (wiPromotePreEval wi).1.isPreDeploymentEvaluationSucceeded
        = wi.isPreDeploymentEvaluationSucceeded
    ∧ (wiPromotePreEval wi).1.isDeploymentSucceeded = wi.isDeploymentSucceeded
    ∧ (wiPromotePreEval wi).1.isPostDeploymentSucceeded = wi.isPostDeploymentSucceeded
    ∧ (wiPromotePreEval wi).1.isPostDeploymentEvaluationSucceeded
        = wi.isPostDeploymentEvaluationSucceeded := by
  rw [wiPromotePreEval_char]
  exact ⟨rfl, (promoteValue_succ _).1, rfl, rfl, rfl⟩

/-- Success accessors through the deployment promotion. -/
theorem wiPromoteDeployment_succ (wi : KeptnWorkloadInstance) :
    (wiPromoteDeployment wi).1.isPreDeploymentSucceeded = wi.isPreDeploymentSucceeded
    ∧ (wiPromoteDeployment wi).1.isPreDeploymentEvaluationSucceeded
        = wi.isPreDeploymentEvaluationSucceeded
    ∧ (wiPromoteDeployment wi).1.isDeploymentSucceeded = wi.isDeploymentSucceeded
    ∧ (wiPromoteDeployment wi).1.isPostDeploymentSucceeded = wi.isPostDeploymentSucceeded
    ∧ (wiPromoteDeployment wi).1.isPostDeploymentEvaluationSucceeded
        = wi.isPostDeploymentEvaluationSucceeded := by
  rw [wiPromoteDeployment_char]
  exact ⟨rfl, rfl, (promoteValue_succ _).1, rfl, rfl⟩

/-- Success accessors through the post-deployment promotion. -/
theorem wiPromotePostDeployment_succ (wi : KeptnWorkloadInstance) :
    (wiPromotePostDeployment wi).1.isPreDeploymentSucceeded = wi.isPreDeploymentSucceeded
    ∧ (wiPromotePostDeployment wi).1.isPreDeploymentEvaluationSucceeded
        = wi.isPreDeploymentEvaluationSucceeded
    ∧ (wiPromotePostDeployment wi).1.isDeploymentSucceeded = wi.isDeploymentSucceeded
    ∧ (wiPromotePostDeployment wi).1.isPostDeploymentSucceeded
        = wi.isPostDeploymentSucceeded
    ∧ (wiPromotePostDeployment wi).1.isPostDeploymentEvaluationSucceeded
        = wi.isPostDeploymentEvaluationSucceeded := by
  rw [wiPromotePostDeployment_char]
  exact ⟨rfl, rfl, rfl, (promoteValue_succ _).1, rfl⟩

/-- Success accessors through the post-evaluation-step promotion. -/
theorem wiPostEvalStepPromote_succ (wi : KeptnWorkloadInstance) :
    (wiPostEvalStepPromote wi).1.isPreDeploymentSucceeded = wi.isPreDeploymentSucceeded
    ∧ (wiPostEvalStepPromote wi).1.isPreDeploymentEvaluationSucceeded
        = wi.isPreDeploymentEvaluationSucceeded
    ∧ (wiPostEvalStepPromote wi).1.isDeploymentSucceeded = wi.isDeploymentSucceeded
    ∧ (wiPostEvalStepPromote wi).1.isPostDeploymentSucceeded
        = wi.isPostDeploymentSucceeded
    ∧ (wiPostEvalStepPromote wi).1.isPostDeploymentEvaluationSucceeded
        = wi.isPostDeploymentEvaluationSucceeded := by
  rw [wiPostEvalStepPromote_char]
  exact ⟨rfl, rfl, rfl, (promoteValue_succ _).1, rfl⟩

/-- The walk on a clean update stream: the driver is invoked exactly on
the first phase of the entity whose accessor is not succeeded, and when
every accessor succeeded no callback runs at all. -/
theorem wiWalkPre_first (o : WIOracle) (s : RecState KeptnWorkloadInstance)
    (hupd : s.updates = []) :
    (∀ ph f, wiFirstUnfinished s.entity = some (ph, f) →
      ∃ s2 : RecState KeptnWorkloadInstance,
        wiWalkPre o s = wiHandlePhase o.now s2 ph f (o.callback f))
    ∧ (wiFirstUnfinished s.entity = none →
        countCallbacks (wiWalkPre o s).effects = countCallbacks s.effects) := by
  have hu1 := ((wiPromoteAndSave_state s wiPromotePreEval).2 hupd).2.1
  have he1 := (wiPromoteAndSave_state s wiPromotePreEval).1
  set s1 := (wiPromoteAndSave s wiPromotePreEval).2 with hs1
  have hu2 := ((wiPromoteAndSave_state s1 wiPromoteDeployment).2 hu1).2.1
  have he2 := (wiPromoteAndSave_state s1 wiPromoteDeployment).1
  set s2 := (wiPromoteAndSave s1 wiPromoteDeployment).2 with hs2
  have hu3 := ((wiPromoteAndSave_state s2 wiPromotePostDeployment).2 hu2).2.1
  have he3 := (wiPromoteAndSave_state s2 wiPromotePostDeployment).1
  set s3 := (wiPromoteAndSave s2 wiPromotePostDeployment).2 with hs3
  have hu4 := ((wiPromoteAndSave_state s3 wiPostEvalStepPromote).2 hu3).2.1
  have he4 := (wiPromoteAndSave_state s3 wiPostEvalStepPromote).1
  set s4 := (wiPromoteAndSave s3 wiPostEvalStepPromote).2 with hs4
  have q2 : s1.entity.isPreDeploymentEvaluationSucceeded
      = s.entity.isPreDeploymentEvaluationSucceeded := by
    rw [he1]; exact (wiPromotePreEval_succ _).2.1
  have q3 : s2.entity.isDeploymentSucceeded = s.entity.isDeploymentSucceeded := by
    rw [he2, (wiPromoteDeployment_succ _).2.2.1, he1]
    exact (wiPromotePreEval_succ _).2.2.1
  have q4 : s3.entity.isPostDeploymentSucceeded = s.entity.isPostDeploymentSucceeded := by
    rw [he3, (wiPromotePostDeployment_succ _).2.2.2.1, he2,
      (wiPromoteDeployment_succ _).2.2.2.1, he1]
    exact (wiPromotePreEval_succ _).2.2.2.1
  have q5 : s4.entity.isPostDeploymentEvaluationSucceeded
      = s.entity.isPostDeploymentEvaluationSucceeded := by
    rw [he4, (wiPostEvalStepPromote_succ _).2.2.2.2, he3,
      (wiPromotePostDeployment_succ _).2.2.2.2, he2,
      (wiPromoteDeployment_succ _).2.2.2.2, he1]
    exact (wiPromotePreEval_succ _).2.2.2.2
  by_cases p1 : s.entity.isPreDeploymentSucceeded = true
  case neg =>
    rw [Bool.not_eq_true] at p1
    refine ⟨?_, ?_⟩ <;> rw [wiFirstUnfinished, if_pos (by simp [p1])]
    · intro ph f h
      cases h
      exact ⟨s, by simp [wiWalkPre, p1]⟩
    · intro h
      cases h
  case pos =>
  have hw1 : wiWalkPre o s = wiWalkPreEval o s := by simp [wiWalkPre, p1]
  by_cases p2 : s.entity.isPreDeploymentEvaluationSucceeded = true
  case neg =>
    rw [Bool.not_eq_true] at p2
    refine ⟨?_, ?_⟩ <;>
      rw [wiFirstUnfinished, if_neg (by simp [p1]), if_pos (by simp [p2])]
    · intro ph f h
      cases h
      refine ⟨s1, ?_⟩
      rw [hw1, wiWalkPreEval_reduce o s hupd, ← hs1, if_pos (by simp [q2, p2])]
    · intro h
      cases h
  case pos =>
  have hw2 : wiWalkPreEval o s = wiWalkDeployment o s1 := by
    rw [wiWalkPreEval_reduce o s hupd, ← hs1, if_neg (by simp [q2, p2])]
  by_cases p3 : s.entity.isDeploymentSucceeded = true
  case neg =>
    rw [Bool.not_eq_true] at p3
    refine ⟨?_, ?_⟩ <;>
      rw [wiFirstUnfinished, if_neg (by simp [p1]), if_neg (by simp [p2]),
        if_pos (by simp [p3])]
    · intro ph f h
      cases h
      refine ⟨s2, ?_⟩
      rw [hw1, hw2, wiWalkDeployment_reduce o s1 hu1, ← hs2, if_pos (by simp [q3, p3])]
    · intro h
      cases h
  case pos =>
  have hw3 : wiWalkDeployment o s1 = wiWalkPostDeployment o s2 := by
    rw [wiWalkDeployment_reduce o s1 hu1, ← hs2, if_neg (by simp [q3, p3])]
  by_cases p4 : s.entity.isPostDeploymentSucceeded = true
  case neg =>
    rw [Bool.not_eq_true] at p4
    refine ⟨?_, ?_⟩ <;>
      rw [wiFirstUnfinished, if_neg (by simp [p1]), if_neg (by simp [p2]),
        if_neg (by simp [p3]), if_pos (by simp [p4])]
    · intro ph f h
      cases h
      refine ⟨s3, ?_⟩
      rw [hw1, hw2, hw3, wiWalkPostDeployment_reduce o s2 hu2, ← hs3,
        if_pos (by simp [q4, p4])]
    · intro h
      cases h
  case pos =>
  have hw4 : wiWalkPostDeployment o s2 = wiWalkPostEval o s3 := by
    rw [wiWalkPostDeployment_reduce o s2 hu2, ← hs3, if_neg (by simp [q4, p4])]
  by_cases p5 : s.entity.isPostDeploymentEvaluationSucceeded = true
  case neg =>
    rw [Bool.not_eq_true] at p5
    refine ⟨?_, ?_⟩ <;>
      rw [wiFirstUnfinished, if_neg (by simp [p1]), if_neg (by simp [p2]),
        if_neg (by simp [p3]), if_neg (by simp [p4]), if_pos (by simp [p5])]
    · intro ph f h
      cases h
      refine ⟨s4, ?_⟩
      rw [hw1, hw2, hw3, hw4, wiWalkPostEval_reduce o s3 hu3, ← hs4,
        if_pos (by simp [q5, p5])]
    · intro h
      cases h
  case pos =>
  have hw5 : wiWalkPostEval o s3 = wiCompletion o s4 := by
    rw [wiWalkPostEval_reduce o s3 hu3, ← hs4, if_neg (by simp [q5, p5])]
  refine ⟨?_, ?_⟩ <;>
    rw [wiFirstUnfinished, if_neg (by simp [p1]), if_neg (by simp [p2]),
      if_neg (by simp [p3]), if_neg (by simp [p4]), if_neg (by simp [p5])]
  · intro ph f h
    cases h
  · intro h
    rw [hw1, hw2, hw3, hw4, hw5, wiCompletion_countCallbacks, hs4,
      wiPromoteAndSave_countCallbacks, hs3, wiPromoteAndSave_countCallbacks, hs2,
      wiPromoteAndSave_countCallbacks, hs1, wiPromoteAndSave_countCallbacks]

/-- Stamping the start time leaves the first unfinished phase unchanged. -/
theorem wiFirstUnfinished_setStartTime (now : Nat) (wi : KeptnWorkloadInstance) :
    wiFirstUnfinished (KeptnWorkloadInstance.setStartTime now wi) = wiFirstUnfinished wi := by
  rw [wiSetStartTime_eq]
  simp [wiFirstUnfinished, KeptnWorkloadInstance.isPreDeploymentSucceeded,
    KeptnWorkloadInstance.isPreDeploymentEvaluationSucceeded,
    KeptnWorkloadInstance.isDeploymentSucceeded,
    KeptnWorkloadInstance.isPostDeploymentSucceeded,
    KeptnWorkloadInstance.isPostDeploymentEvaluationSucceeded]

/-- The post-gate section invokes at most one callback, for any update
stream. -/
theorem wiAfterGate_countCallbacks (o : WIOracle) (wi0 e1 : KeptnWorkloadInstance)
    (av : KeptnAppVersion) :
    countCallbacks (wiAfterGate o wi0 e1 av).effects ≤ 1 := by
  simp only [wiAfterGate]
  set s0 : RecState KeptnWorkloadInstance :=
    { entity := (wiTraceCopy (wiPromote1 e1).1 av).1, persisted := wi0, effects := [],
      updates := o.updates } with hs0
  set r0 := if ((wiPromote1 e1).2 || (wiTraceCopy (wiPromote1 e1).1 av).2) = true then
      doUpdate s0
    else (true, s0) with hr0
  have hcc : countCallbacks r0.2.effects = 0 := by
    rw [hr0]
    split
    · rw [doUpdate_countCallbacks]
      rfl
    · rfl
  by_cases hfail : r0.1 = false
  · simp only [if_pos hfail, wiUpdateFailOut]
    simp [hcc]
  · simp only [if_neg hfail]
    have hw := wiWalkPre_countCallbacks o
      (if av.status.currentPhase = ("") then
        { r0.2 with effects := r0.2.effects ++ wiStartedFx } else r0.2)
    have hx : countCallbacks
        (if av.status.currentPhase = ("") then
          { r0.2 with effects := r0.2.effects ++ wiStartedFx } else r0.2).effects = 0 := by
      split
      · simp only [countCallbacks, List.countP_append] at hcc ⊢
        simp [hcc]
        decide
      · exact hcc
    rw [hx] at hw
    simpa using hw

/-- Every workload-instance reconcile invokes at most one callback. -/
theorem wiReconcile_countCallbacks (o : WIOracle) (wi : KeptnWorkloadInstance) :
    countCallbacks (wiReconcile o wi).effects ≤ 1 := by
  simp only [wiReconcile]
  cases hl : o.listApps with
  | error m => simp [countCallbacks]
  | ok apps =>
    simp only []
    repeat' split
    all_goals first
      | exact wiAfterGate_countCallbacks ..
      | simp [countCallbacks]

/-- Every application-version reconcile invokes at most one callback. -/
theorem appReconcile_countCallbacks (o : AppOracle) (a : KeptnAppVersion) :
    countCallbacks (appReconcile o a).effects ≤ 1 := by
  simp only [appReconcile]
  have hs : countCallbacks (appStartedFx (KeptnAppVersion.setStartTime o.now a)) = 0 := by
    simp only [appStartedFx]
    split
    · decide
    · decide
  repeat' split
  all_goals first
    | exact le_trans (appHandlePhase_countCallbacks ..) (by simp [hs])
    | (rw [appCompletion_countCallbacks]; simp [hs])

/-- C4: each reconcile invocation of either entity kind invokes at most
one phase callback; the application reconciler dispatches exactly the
first phase of the fixed order whose guard reports not-succeeded (not
complete, for the final phase) to its driver and invokes none when all
guards hold; and a workload-instance reconcile that clears the
cross-entity gate on a clean update stream likewise hands exactly the
first not-succeeded phase of its own sequence to the driver, and invokes
no callback at all when every accessor succeeded. -/
theorem c4_single_phase_per_call :
    (∀ (o : WIOracle) (wi : KeptnWorkloadInstance),
        countCallbacks (wiReconcile o wi).effects ≤ 1)
    ∧ (∀ (o : AppOracle) (a : KeptnAppVersion),
        countCallbacks (appReconcile o a).effects ≤ 1)
    ∧ (∀ (o : AppOracle) (a : KeptnAppVersion),
        (∀ ph f,
          appFirstUnfinished (KeptnAppVersion.setStartTime o.now a) = some (ph, f) →
            ∃ s2 : RecState KeptnAppVersion,
              appReconcile o a = appHandlePhase o.now s2 ph f (o.callback f))
        ∧ (appFirstUnfinished (KeptnAppVersion.setStartTime o.now a) = none →
            countCallbacks (appReconcile o a).effects = 0))
    ∧ (∀ (o : WIOracle) (wi : KeptnWorkloadInstance) (apps : List KeptnAppVersion)
        (av : KeptnAppVersion),
        o.updates = [] → o.listApps = Except.ok apps →
        getAppVersionForWorkloadInstance apps (KeptnWorkloadInstance.setStartTime o.now wi)
          = (true, av) →
        av.status.preDeploymentEvaluationStatus.isSucceeded = true →
        (∀ ph f, wiFirstUnfinished wi = some (ph, f) →
          ∃ s2 : RecState KeptnWorkloadInstance,
            wiReconcile o wi = wiHandlePhase o.now s2 ph f (o.callback f))
        ∧ (wiFirstUnfinished wi = none →
            countCallbacks (wiReconcile o wi).effects = 0)) := by
  refine ⟨wiReconcile_countCallbacks, appReconcile_countCallbacks, ?_, ?_⟩
  · intro o a
    constructor
    · intro ph f h
      simp only [appFirstUnfinished] at h
      simp only [appReconcile]
      by_cases g1 : (KeptnAppVersion.setStartTime o.now a).isPreDeploymentSucceeded = true
      case neg =>
        simp [g1] at h ⊢
        first
          | (cases h; exact ⟨_, rfl⟩)
          | (cases h.1; cases h.2; exact ⟨_, rfl⟩)
      case pos =>
      by_cases g2 :
          (KeptnAppVersion.setStartTime o.now a).isPreDeploymentEvaluationSucceeded = true
      case neg =>
        simp only [g1, g2] at h ⊢
        simp at h ⊢
        cases h.1
        cases h.2
        exact ⟨_, rfl⟩
      case pos =>
      by_cases g3 : (KeptnAppVersion.setStartTime o.now a).areWorkloadsSucceeded = true
      case neg =>
        simp only [g1, g2, g3] at h ⊢
        simp at h ⊢
        cases h.1
        cases h.2
        exact ⟨_, rfl⟩
      case pos =>
      by_cases g4 : (KeptnAppVersion.setStartTime o.now a).isPostDeploymentSucceeded = true
      case neg =>
        simp only [g1, g2, g3, g4] at h ⊢
        simp at h ⊢
        cases h.1
        cases h.2
        exact ⟨_, rfl⟩
      case pos =>
      by_cases g5 :
          (KeptnAppVersion.setStartTime o.now a).isPostDeploymentEvaluationCompleted = true
      case neg =>
        simp only [g1, g2, g3, g4, g5] at h ⊢
        simp at h ⊢
        cases h.1
        cases h.2
        exact ⟨_, rfl⟩
      case pos =>
        simp [g1, g2, g3, g4, g5] at h
    · intro h
      simp only [appFirstUnfinished] at h
      by_cases g1 : (KeptnAppVersion.setStartTime o.now a).isPreDeploymentSucceeded = true
      case neg => simp [g1] at h
      case pos =>
      by_cases g2 :
          (KeptnAppVersion.setStartTime o.now a).isPreDeploymentEvaluationSucceeded = true
      case neg => simp [g1, g2] at h
      case pos =>
      by_cases g3 : (KeptnAppVersion.setStartTime o.now a).areWorkloadsSucceeded = true
      case neg => simp [g1, g2, g3] at h
      case pos =>
      by_cases g4 : (KeptnAppVersion.setStartTime o.now a).isPostDeploymentSucceeded = true
      case neg => simp [g1, g2, g3, g4] at h
      case pos =>
      by_cases g5 :
          (KeptnAppVersion.setStartTime o.now a).isPostDeploymentEvaluationCompleted = true
      case neg => simp [g1, g2, g3, g4, g5] at h
      case pos =>
        have hred : appReconcile o a = appCompletion o
            { entity := KeptnAppVersion.setStartTime o.now a, persisted := a,
              effects := appStartedFx (KeptnAppVersion.setStartTime o.now a),
              updates := o.updates } := by
          simp [appReconcile, g1, g2, g3, g4, g5]
        rw [hred, appCompletion_countCallbacks]
        simp only [appStartedFx]
        split
        · decide
        · decide
  · intro o wi apps av hupd hla hr hsucc
    have key : wiReconcile o wi
        = wiAfterGate o wi (KeptnWorkloadInstance.setStartTime o.now wi) av := by
      simp [wiReconcile, hla, hr, hsucc]
    obtain ⟨pers, fx, heq, -, hcc0, -, -, -⟩ :=
      wiAfterGate_head o wi (KeptnWorkloadInstance.setStartTime o.now wi) av hupd
    rw [key, heq]
    obtain ⟨hsome, hnone⟩ := wiWalkPre_first o
      { entity := (wiTraceCopy
          (wiPromote1 (KeptnWorkloadInstance.setStartTime o.now wi)).1 av).1,
        persisted := pers, effects := fx, updates := [] } rfl
    have hfu : wiFirstUnfinished (wiTraceCopy
          (wiPromote1 (KeptnWorkloadInstance.setStartTime o.now wi)).1 av).1
        = wiFirstUnfinished wi := by
      rw [wiFirstUnfinished_congr _ _ (wiTraceCopy_status _ _),
        (wiFirstUnfinished_promotes _).1, wiFirstUnfinished_setStartTime]
    constructor
    · intro ph f h
      exact hsome ph f (by rw [hfu]; exact h)
    · intro h
      rw [hnone (by rw [hfu]; exact h), hcc0]

/-- Witness for C4: the gate-clearing fixture oracle and fresh workload
instance take the dispatch branch at the first phase of the sequence. -/
theorem c4_single_phase_per_call_witness :
    (fxOracle.updates = [] ∧ fxOracle.listApps = Except.ok [fxAv]
      ∧ getAppVersionForWorkloadInstance [fxAv]
          (KeptnWorkloadInstance.setStartTime fxOracle.now fxWli) = (true, fxAv)
      ∧ fxAv.status.preDeploymentEvaluationStatus.isSucceeded = true
      ∧ wiFirstUnfinished fxWli = some (PhaseWorkloadPreDeployment, WIField.preDeployment))
    ∧ ∃ s2 : RecState KeptnWorkloadInstance,
        wiReconcile fxOracle fxWli
          = wiHandlePhase fxOracle.now s2 PhaseWorkloadPreDeployment WIField.preDeployment
              (fxOracle.callback WIField.preDeployment) :=
  ⟨⟨rfl, rfl, by decide, by decide, by decide⟩,
   (c4_single_phase_per_call.2.2.2 fxOracle fxWli [fxAv] fxAv rfl rfl (by decide)
      (by decide)).1 PhaseWorkloadPreDeployment WIField.preDeployment (by decide)⟩

/-- wiAllSucc depends only on the status record. -/
theorem wiAllSucc_congr (a b : KeptnWorkloadInstance) (h : a.status = b.status) :
    wiAllSucc a = wiAllSucc b := by
  simp [wiAllSucc, KeptnWorkloadInstance.isPreDeploymentSucceeded,
    KeptnWorkloadInstance.isPreDeploymentEvaluationSucceeded,
    KeptnWorkloadInstance.isDeploymentSucceeded,
    KeptnWorkloadInstance.isPostDeploymentSucceeded,
    KeptnWorkloadInstance.isPostDeploymentEvaluationSucceeded, h]

/-- wiStuck depends only on the status record. -/
theorem wiStuck_congr (a b : KeptnWorkloadInstance) (h : a.status = b.status) :
    wiStuck a = wiStuck b := by
  simp only [wiStuck, wiFirstUnfinished_congr a b h, h]

/-- wiInv depends only on the status record. -/
theorem wiInv_congr (a b : KeptnWorkloadInstance) (h : a.status = b.status) :
    wiInv a = wiInv b := by
  simp only [wiInv, wiAllSucc_congr a b h, wiStuck_congr a b h, h]

/-- Stamping the start time does not change wiAllSucc. -/
theorem wiAllSucc_setStartTime (now : Nat) (wi : KeptnWorkloadInstance) :
    wiAllSucc (KeptnWorkloadInstance.setStartTime now wi) = wiAllSucc wi := by
  rw [wiSetStartTime_eq]
  rfl

/-- Stamping the start time does not change wiStuck. -/
theorem wiStuck_setStartTime (now : Nat) (wi : KeptnWorkloadInstance) :
    wiStuck (KeptnWorkloadInstance.setStartTime now wi) = wiStuck wi := by
  simp only [wiStuck, wiFirstUnfinished_setStartTime]
  cases hfu : wiFirstUnfinished wi with
  | none => rfl
  | some p =>
    obtain ⟨ph, f⟩ := p
    rw [wiSetStartTime_eq]
    cases f <;> rfl

/-- Stamping the start time does not change the invariant. -/
theorem wiInv_setStartTime (now : Nat) (wi : KeptnWorkloadInstance) :
    wiInv (KeptnWorkloadInstance.setStartTime now wi) = wiInv wi := by
  simp only [wiInv, wiAllSucc_setStartTime, wiStuck_setStartTime]
  rw [wiSetStartTime_eq]

/-- Success accessors through the gate-section promotion. -/
theorem wiPromote1_succ (wi : KeptnWorkloadInstance) :
    (wiPromote1 wi).1.isPreDeploymentSucceeded = wi.isPreDeploymentSucceeded
    ∧ (wiPromote1 wi).1.isPreDeploymentEvaluationSucceeded
        = wi.isPreDeploymentEvaluationSucceeded
    ∧ (wiPromote1 wi).1.isDeploymentSucceeded = wi.isDeploymentSucceeded
    ∧ (wiPromote1 wi).1.isPostDeploymentSucceeded = wi.isPostDeploymentSucceeded
    ∧ (wiPromote1 wi).1.isPostDeploymentEvaluationSucceeded
        = wi.isPostDeploymentEvaluationSucceeded := by
  rw [wiPromote1_char]
  exact ⟨(promoteValue_succ _).1, rfl, rfl, rfl, rfl⟩

/-- wiStuck through the gate-section promotion. -/
theorem wiStuck_promote1 (wi : KeptnWorkloadInstance) :
    wiStuck (wiPromote1 wi).1 = wiStuck wi := by
  simp only [wiStuck, (wiFirstUnfinished_promotes wi).1]
  cases hfu : wiFirstUnfinished wi with
  | none => rfl
  | some p =>
    obtain ⟨ph, f⟩ := p
    rw [wiPromote1_char]
    cases f <;> first | rfl | exact (promoteValue_succ _).2

/-- wiStuck through the pre-evaluation promotion. -/
theorem wiStuck_promotePreEval (wi : KeptnWorkloadInstance) :
    wiStuck (wiPromotePreEval wi).1 = wiStuck wi := by
  simp only [wiStuck, (wiFirstUnfinished_promotes wi).2.1]
  cases hfu : wiFirstUnfinished wi with
  | none => rfl
  | some p =>
    obtain ⟨ph, f⟩ := p
    rw [wiPromotePreEval_char]
    cases f <;> first | rfl | exact (promoteValue_succ _).2

/-- wiStuck through the deployment promotion. -/
theorem wiStuck_promoteDeployment (wi : KeptnWorkloadInstance) :
    wiStuck (wiPromoteDeployment wi).1 = wiStuck wi := by
  simp only [wiStuck, (wiFirstUnfinished_promotes wi).2.2.1]
  cases hfu : wiFirstUnfinished wi with
  | none => rfl
  | some p =>
    obtain ⟨ph, f⟩ := p
    rw [wiPromoteDeployment_char]
    cases f <;> first | rfl | exact (promoteValue_succ _).2

/-- wiStuck through the post-deployment promotion. -/
theorem wiStuck_promotePostDeployment (wi : KeptnWorkloadInstance) :
    wiStuck (wiPromotePostDeployment wi).1 = wiStuck wi := by
  simp only [wiStuck, (wiFirstUnfinished_promotes wi).2.2.2.1]
  cases hfu : wiFirstUnfinished wi with
  | none => rfl
  | some p =>
    obtain ⟨ph, f⟩ := p
    rw [wiPromotePostDeployment_char]
    cases f <;> first | rfl | exact (promoteValue_succ _).2

/-- wiStuck through the post-evaluation-step promotion. -/
theorem wiStuck_postEvalStepPromote (wi : KeptnWorkloadInstance) :
    wiStuck (wiPostEvalStepPromote wi).1 = wiStuck wi := by
  simp only [wiStuck, (wiFirstUnfinished_promotes wi).2.2.2.2]
  cases hfu : wiFirstUnfinished wi with
  | none => rfl
  | some p =>
    obtain ⟨ph, f⟩ := p
    rw [wiPostEvalStepPromote_char]
    cases f <;> first | rfl | exact (promoteValue_succ _).2

/-- wiAllSucc through each promotion. -/
theorem wiAllSucc_promotes (wi : KeptnWorkloadInstance) :
    wiAllSucc (wiPromote1 wi).1 = wiAllSucc wi
    ∧ wiAllSucc (wiPromotePreEval wi).1 = wiAllSucc wi
    ∧ wiAllSucc (wiPromoteDeployment wi).1 = wiAllSucc wi
    ∧ wiAllSucc (wiPromotePostDeployment wi).1 = wiAllSucc wi
    ∧ wiAllSucc (wiPostEvalStepPromote wi).1 = wiAllSucc wi := by
  refine ⟨?_, ?_, ?_, ?_, ?_⟩
  · obtain ⟨h1, h2, h3, h4, h5⟩ := wiPromote1_succ wi
    simp [wiAllSucc, h1, h2, h3, h4, h5]
  · obtain ⟨h1, h2, h3, h4, h5⟩ := wiPromotePreEval_succ wi
    simp [wiAllSucc, h1, h2, h3, h4, h5]
  · obtain ⟨h1, h2, h3, h4, h5⟩ := wiPromoteDeployment_succ wi
    simp [wiAllSucc, h1, h2, h3, h4, h5]
  · obtain ⟨h1, h2, h3, h4, h5⟩ := wiPromotePostDeployment_succ wi
    simp [wiAllSucc, h1, h2, h3, h4, h5]
  · obtain ⟨h1, h2, h3, h4, h5⟩ := wiPostEvalStepPromote_succ wi
    simp [wiAllSucc, h1, h2, h3, h4, h5]

/-- The invariant through each promotion. -/
theorem wiInv_promotes (wi : KeptnWorkloadInstance) :
    wiInv (wiPromote1 wi).1 = wiInv wi
    ∧ wiInv (wiPromotePreEval wi).1 = wiInv wi
    ∧ wiInv (wiPromoteDeployment wi).1 = wiInv wi
    ∧ wiInv (wiPromotePostDeployment wi).1 = wiInv wi
    ∧ wiInv (wiPostEvalStepPromote wi).1 = wiInv wi := by
  refine ⟨?_, ?_, ?_, ?_, ?_⟩
  · simp only [wiInv, wiStuck_promote1, (wiAllSucc_promotes wi).1]
    rw [wiPromote1_char]
  · simp only [wiInv, wiStuck_promotePreEval, (wiAllSucc_promotes wi).2.1]
    rw [wiPromotePreEval_char]
  · simp only [wiInv, wiStuck_promoteDeployment, (wiAllSucc_promotes wi).2.2.1]
    rw [wiPromoteDeployment_char]
  · simp only [wiInv, wiStuck_promotePostDeployment, (wiAllSucc_promotes wi).2.2.2.1]
    rw [wiPromotePostDeployment_char]
  · simp only [wiInv, wiStuck_postEvalStepPromote, (wiAllSucc_promotes wi).2.2.2.2]
    rw [wiPostEvalStepPromote_char]

/-- Stamping the start time leaves the application walk guards unchanged. -/
theorem appFirstUnfinished_setStartTime (now : Nat) (a : KeptnAppVersion) :
    appFirstUnfinished (KeptnAppVersion.setStartTime now a) = appFirstUnfinished a := by
  rw [appSetStartTime_eq]
  simp [appFirstUnfinished, KeptnAppVersion.isPreDeploymentSucceeded,
    KeptnAppVersion.isPreDeploymentEvaluationSucceeded,
    KeptnAppVersion.areWorkloadsSucceeded,
    KeptnAppVersion.isPostDeploymentSucceeded,
    KeptnAppVersion.isPostDeploymentEvaluationCompleted]

/-- Stamping the start time does not change appDone. -/
theorem appDone_setStartTime (now : Nat) (a : KeptnAppVersion) :
    appDone (KeptnAppVersion.setStartTime now a) = appDone a := by
  rw [appSetStartTime_eq]
  rfl

/-- Stamping the start time does not change appStuck. -/
theorem appStuck_setStartTime (now : Nat) (a : KeptnAppVersion) :
    appStuck (KeptnAppVersion.setStartTime now a) = appStuck a := by
  simp only [appStuck, appFirstUnfinished_setStartTime]
  cases hfu : appFirstUnfinished a with
  | none => rfl
  | some p =>
    obtain ⟨ph, f⟩ := p
    rw [appSetStartTime_eq]
    cases f <;> rfl

/-- Stamping the start time does not change the application invariant. -/
theorem appInv_setStartTime (now : Nat) (a : KeptnAppVersion) :
    appInv (KeptnAppVersion.setStartTime now a) = appInv a := by
  simp only [appInv, appDone_setStartTime, appStuck_setStartTime]
  rw [appSetStartTime_eq]

/-- A status update on a clean stream succeeds and persists the entity. -/
theorem doUpdate_clean {E : Type} (s : RecState E) (hupd : s.updates = []) :
    doUpdate s = (true,
      { s with persisted := s.entity, effects := s.effects ++ [.statusUpdate true] }) := by
  simp [doUpdate, hupd]

/-- On a clean stream the driver tail persists either the entity it was
handed (always, when the driver already updated something) or nothing. -/
theorem wiHandleTail_persisted (e pers : KeptnWorkloadInstance) (fx : List Effect)
    (oldPhase : String) (updated : Bool) :
    (wiHandleTail e pers fx [] oldPhase updated).persisted = e
    ∨ (updated = false ∧ (wiHandleTail e pers fx [] oldPhase updated).persisted = pers) := by
  simp only [wiHandleTail, doUpdate]
  repeat' split
  all_goals simp_all

/-- The entity of the driver tail is the entity handed to it. -/
theorem wiHandleTail_entity (e pers : KeptnWorkloadInstance) (fx : List Effect)
    (updates : List Bool) (oldPhase : String) (updated : Bool) :
    (wiHandleTail e pers fx updates oldPhase updated).entity = e := by
  simp only [wiHandleTail, doUpdate]
  repeat' split
  all_goals simp_all

/-- Writing a per-phase field touches neither the overall status nor the
times. -/
theorem wiSetField_frame (f : WIField) (v : KeptnState)
    (st : KeptnWorkloadInstanceStatus) :
    (wiSetField f v st).status = st.status ∧ (wiSetField f v st).endTime = st.endTime
    ∧ (wiSetField f v st).startTime = st.startTime
    ∧ (wiSetField f v st).currentPhase = st.currentPhase := by
  cases f <;> simp [wiSetField]

/-- Writing a per-phase field touches neither the overall status nor the
times. -/
theorem appSetField_frame (f : AppField) (v : KeptnState)
    (st : KeptnAppVersionStatus) :
    (appSetField f v st).status = st.status ∧ (appSetField f v st).endTime = st.endTime
    ∧ (appSetField f v st).startTime = st.startTime
    ∧ (appSetField f v st).currentPhase = st.currentPhase := by
  cases f <;> simp [appSetField]

/-- Unpacking the workload-instance invariant. -/
theorem wiInv_elim (wi : KeptnWorkloadInstance) (h : wiInv wi = true) :
    (wi.status.status = KeptnState.succeeded →
      wiAllSucc wi = true ∧ wi.status.endTime.isSome = true)
    ∧ (wi.status.status = KeptnState.failed →
      wiStuck wi = true ∧ wi.status.endTime.isSome = true)
    ∧ (wi.status.endTime.isSome = true → wi.status.status.isCompleted = true) := by
  simp only [wiInv, Bool.and_eq_true] at h
  obtain ⟨⟨h1, h2⟩, h3⟩ := h
  refine ⟨fun hx => ?_, fun hx => ?_, fun hx => ?_⟩
  · rw [if_pos hx] at h1
    simpa using h1
  · rw [if_pos hx] at h2
    simpa using h2
  · rw [if_pos hx] at h3
    exact h3

/-- The invariant holds at any non-terminal state with no end time. -/
theorem wiInv_of_nonterminal (wi : KeptnWorkloadInstance)
    (h1 : ¬ wi.status.status = KeptnState.succeeded)
    (h2 : ¬ wi.status.status = KeptnState.failed)
    (h3 : wi.status.endTime.isSome = false) : wiInv wi = true := by
  simp [wiInv, h1, h2, h3]

/-- The invariant holds at a stuck failed state with its end time stamped. -/
theorem wiInv_of_failed (wi : KeptnWorkloadInstance)
    (h1 : wi.status.status = KeptnState.failed)
    (h2 : wiStuck wi = true)
    (h3 : wi.status.endTime.isSome = true) : wiInv wi = true := by
  simp [wiInv, h1, h2, h3, KeptnState.isCompleted, KeptnState.isFailed,
    KeptnState.isSucceeded]

/-- The invariant holds at a fully succeeded state with its end time
stamped. -/
theorem wiInv_of_succeeded (wi : KeptnWorkloadInstance)
    (h1 : wi.status.status = KeptnState.succeeded)
    (h2 : wiAllSucc wi = true)
    (h3 : wi.status.endTime.isSome = true) : wiInv wi = true := by
  simp [wiInv, h1, h2, h3, KeptnState.isCompleted, KeptnState.isFailed,
    KeptnState.isSucceeded]

/-- A fully succeeded walk has no unfinished phase. -/
theorem wiFirstUnfinished_of_allSucc (wi : KeptnWorkloadInstance)
    (h : wiAllSucc wi = true) : wiFirstUnfinished wi = none := by
  simp only [wiAllSucc, Bool.and_eq_true] at h
  obtain ⟨⟨⟨⟨h1, h2⟩, h3⟩, h4⟩, h5⟩ := h
  simp [wiFirstUnfinished, h1, h2, h3, h4, h5]

/-- On a clean stream the driver tail persists an invariant state when
both candidates satisfy the invariant. -/
theorem wiHandleTail_inv (e pers : KeptnWorkloadInstance) (fx : List Effect)
    (oldPhase : String) (b : Bool) (he : wiInv e = true) (hp : wiInv pers = true) :
    wiInv (wiHandleTail e pers fx [] oldPhase b).persisted = true := by
  rcases wiHandleTail_persisted e pers fx oldPhase b with h | ⟨-, h⟩ <;> rw [h] <;>
    assumption

/-- The Phase Driver preserves the invariant when invoked, on a clean
update stream, on the first unfinished phase of an invariant entity with
an invariant persisted snapshot. -/
theorem wiHandlePhase_inv (now : Nat) (s : RecState KeptnWorkloadInstance)
    (phase ph0 : KeptnPhaseType) (field : WIField) (cb : Except String KeptnState)
    (hupd : s.updates = [])
    (hpers : wiInv s.persisted = true) (hent : wiInv s.entity = true)
    (hfu : wiFirstUnfinished s.entity = some (ph0, field)) :
    wiInv (wiHandlePhase now s phase field cb).persisted = true := by
  have hE := wiInv_elim s.entity hent
  have hns : ¬ s.entity.status.status = KeptnState.succeeded := by
    intro hx
    rw [wiFirstUnfinished_of_allSucc s.entity (hE.1 hx).1] at hfu
    cases hfu
  by_cases p1 : s.entity.isPreDeploymentSucceeded = true
  case neg =>
    rw [Bool.not_eq_true] at p1
    have hfu2 : wiFirstUnfinished s.entity
        = some (PhaseWorkloadPreDeployment, WIField.preDeployment) := by
      simp [wiFirstUnfinished, p1]
    rw [hfu2] at hfu
    obtain ⟨-, h2⟩ : PhaseWorkloadPreDeployment = ph0 ∧ WIField.preDeployment = field := by
      simpa using hfu
    cases h2
    by_cases hff : (wiGetField WIField.preDeployment s.entity.status).isFailed = true
    case pos =>
      simp only [wiHandlePhase, wiGetField_currentPhase, hff, if_true]
      exact hpers
    case neg =>
      rw [Bool.not_eq_true] at hff
      have hnf : ¬ s.entity.status.status = KeptnState.failed := by
        intro hx
        have hstuck := (hE.2.1 hx).1
        simp only [wiStuck, hfu2] at hstuck
        rw [hff] at hstuck
        cases hstuck
      have het : s.entity.status.endTime.isSome = false := by
        by_contra hcon
        rw [Bool.not_eq_false] at hcon
        have hterm := hE.2.2 hcon
        cases hs : s.entity.status.status with
        | succeeded => exact hns hs
        | failed => exact hnf hs
        | pending =>
          rw [hs] at hterm
          simp [KeptnState.isCompleted, KeptnState.isSucceeded, KeptnState.isFailed] at hterm
        | progressing =>
          rw [hs] at hterm
          simp [KeptnState.isCompleted, KeptnState.isSucceeded, KeptnState.isFailed] at hterm
      cases cb with
      | error msg =>
        simp only [wiHandlePhase, wiGetField_currentPhase, hff, Bool.false_eq_true, if_false]
        exact hpers
      | ok st =>
        simp only [wiHandlePhase, wiGetField_currentPhase, hff, Bool.false_eq_true, if_false]
        cases st with
        | succeeded =>
          simp only [KeptnState.isSucceeded, if_true, hupd]
          exact wiHandleTail_inv _ _ _ _ _ (wiInv_of_nonterminal _ hns hnf het)
            (wiInv_of_nonterminal _ hns hnf het)
        | failed =>
          simp only [KeptnState.isSucceeded, KeptnState.isFailed, Bool.false_eq_true,
            if_false, if_true, hupd]
          refine wiHandleTail_inv _ _ _ _ _ (wiInv_of_failed _ ?_ ?_ ?_)
            (wiInv_of_nonterminal _ hns hnf het)
          · rw [wiSetEndTime_eq]
          · rw [wiSetEndTime_eq]
            simp_all [wiStuck, wiFirstUnfinished, KeptnWorkloadInstance.isPreDeploymentSucceeded, KeptnWorkloadInstance.isPreDeploymentEvaluationSucceeded, KeptnWorkloadInstance.isDeploymentSucceeded, KeptnWorkloadInstance.isPostDeploymentSucceeded, KeptnWorkloadInstance.isPostDeploymentEvaluationSucceeded,
              wiGetField, wiSetField, KeptnState.isSucceeded, KeptnState.isFailed]
          · rw [wiSetEndTime_eq]
            simp
        | progressing =>
          simp only [KeptnState.isSucceeded, KeptnState.isFailed, Bool.false_eq_true,
            if_false, hupd]
          by_cases hmv : s.entity.status.status ≠ KeptnState.progressing
          case pos =>
            rw [if_pos hmv]
            exact wiHandleTail_inv _ _ _ _ _
              (wiInv_of_nonterminal _ (by simp) (by simp) het)
              (wiInv_of_nonterminal _ hns hnf het)
          case neg =>
            rw [if_neg hmv]
            exact wiHandleTail_inv _ _ _ _ _ (wiInv_of_nonterminal _ hns hnf het)
              (wiInv_of_nonterminal _ hns hnf het)
        | pending =>
          simp only [KeptnState.isSucceeded, KeptnState.isFailed, Bool.false_eq_true,
            if_false, hupd]
          by_cases hmv : s.entity.status.status ≠ KeptnState.progressing
          case pos =>
            rw [if_pos hmv]
            exact wiHandleTail_inv _ _ _ _ _
              (wiInv_of_nonterminal _ (by simp) (by simp) het)
              (wiInv_of_nonterminal _ hns hnf het)
          case neg =>
            rw [if_neg hmv]
            exact wiHandleTail_inv _ _ _ _ _ (wiInv_of_nonterminal _ hns hnf het)
              (wiInv_of_nonterminal _ hns hnf het)
  case pos =>
  by_cases p2 : s.entity.isPreDeploymentEvaluationSucceeded = true
  case neg =>
    rw [Bool.not_eq_true] at p2
    have hfu2 : wiFirstUnfinished s.entity
        = some (PhaseAppPreEvaluation, WIField.preDeploymentEval) := by
      simp [wiFirstUnfinished, p1, p2]
    rw [hfu2] at hfu
    obtain ⟨-, h2⟩ : PhaseAppPreEvaluation = ph0 ∧ WIField.preDeploymentEval = field := by
      simpa using hfu
    cases h2
    by_cases hff : (wiGetField WIField.preDeploymentEval s.entity.status).isFailed = true
    case pos =>
      simp only [wiHandlePhase, wiGetField_currentPhase, hff, if_true]
      exact hpers
    case neg =>
      rw [Bool.not_eq_true] at hff
      have hnf : ¬ s.entity.status.status = KeptnState.failed := by
        intro hx
        have hstuck := (hE.2.1 hx).1
        simp only [wiStuck, hfu2] at hstuck
        rw [hff] at hstuck
        cases hstuck
      have het : s.entity.status.endTime.isSome = false := by
        by_contra hcon
        rw [Bool.not_eq_false] at hcon
        have hterm := hE.2.2 hcon
        cases hs : s.entity.status.status with
        | succeeded => exact hns hs
        | failed => exact hnf hs
        | pending =>
          rw [hs] at hterm
          simp [KeptnState.isCompleted, KeptnState.isSucceeded, KeptnState.isFailed] at hterm
        | progressing =>
          rw [hs] at hterm
          simp [KeptnState.isCompleted, KeptnState.isSucceeded, KeptnState.isFailed] at hterm
      cases cb with
      | error msg =>
        simp only [wiHandlePhase, wiGetField_currentPhase, hff, Bool.false_eq_true, if_false]
        exact hpers
      | ok st =>
        simp only [wiHandlePhase, wiGetField_currentPhase, hff, Bool.false_eq_true, if_false]
        cases st with
        | succeeded =>
          simp only [KeptnState.isSucceeded, if_true, hupd]
          exact wiHandleTail_inv _ _ _ _ _ (wiInv_of_nonterminal _ hns hnf het)
            (wiInv_of_nonterminal _ hns hnf het)
        | failed =>
          simp only [KeptnState.isSucceeded, KeptnState.isFailed, Bool.false_eq_true,
            if_false, if_true, hupd]
          refine wiHandleTail_inv _ _ _ _ _ (wiInv_of_failed _ ?_ ?_ ?_)
            (wiInv_of_nonterminal _ hns hnf het)
          · rw [wiSetEndTime_eq]
          · rw [wiSetEndTime_eq]
            simp_all [wiStuck, wiFirstUnfinished, KeptnWorkloadInstance.isPreDeploymentSucceeded, KeptnWorkloadInstance.isPreDeploymentEvaluationSucceeded, KeptnWorkloadInstance.isDeploymentSucceeded, KeptnWorkloadInstance.isPostDeploymentSucceeded, KeptnWorkloadInstance.isPostDeploymentEvaluationSucceeded,
              wiGetField, wiSetField, KeptnState.isSucceeded, KeptnState.isFailed, p1]
          · rw [wiSetEndTime_eq]
            simp
        | progressing =>
          simp only [KeptnState.isSucceeded, KeptnState.isFailed, Bool.false_eq_true,
            if_false, hupd]
          by_cases hmv : s.entity.status.status ≠ KeptnState.progressing
          case pos =>
            rw [if_pos hmv]
            exact wiHandleTail_inv _ _ _ _ _
              (wiInv_of_nonterminal _ (by simp) (by simp) het)
              (wiInv_of_nonterminal _ hns hnf het)
          case neg =>
            rw [if_neg hmv]
            exact wiHandleTail_inv _ _ _ _ _ (wiInv_of_nonterminal _ hns hnf het)
              (wiInv_of_nonterminal _ hns hnf het)
        | pending =>
          simp only [KeptnState.isSucceeded, KeptnState.isFailed, Bool.false_eq_true,
            if_false, hupd]
          by_cases hmv : s.entity.status.status ≠ KeptnState.progressing
          case pos =>
            rw [if_pos hmv]
            exact wiHandleTail_inv _ _ _ _ _
              (wiInv_of_nonterminal _ (by simp) (by simp) het)
              (wiInv_of_nonterminal _ hns hnf het)
          case neg =>
            rw [if_neg hmv]
            exact wiHandleTail_inv _ _ _ _ _ (wiInv_of_nonterminal _ hns hnf het)
              (wiInv_of_nonterminal _ hns hnf het)
  case pos =>
  by_cases p3 : s.entity.isDeploymentSucceeded = true
  case neg =>
    rw [Bool.not_eq_true] at p3
    have hfu2 : wiFirstUnfinished s.entity
        = some (PhaseWorkloadDeployment, WIField.deployment) := by
      simp [wiFirstUnfinished, p1, p2, p3]
    rw [hfu2] at hfu
    obtain ⟨-, h2⟩ : PhaseWorkloadDeployment = ph0 ∧ WIField.deployment = field := by
      simpa using hfu
    cases h2
    by_cases hff : (wiGetField WIField.deployment s.entity.status).isFailed = true
    case pos =>
      simp only [wiHandlePhase, wiGetField_currentPhase, hff, if_true]
      exact hpers
    case neg =>
      rw [Bool.not_eq_true] at hff
      have hnf : ¬ s.entity.status.status = KeptnState.failed := by
        intro hx
        have hstuck := (hE.2.1 hx).1
        simp only [wiStuck, hfu2] at hstuck
        rw [hff] at hstuck
        cases hstuck
      have het : s.entity.status.endTime.isSome = false := by
        by_contra hcon
        rw [Bool.not_eq_false] at hcon
        have hterm := hE.2.2 hcon
        cases hs : s.entity.status.status with
        | succeeded => exact hns hs
        | failed => exact hnf hs
        | pending =>
          rw [hs] at hterm
          simp [KeptnState.isCompleted, KeptnState.isSucceeded, KeptnState.isFailed] at hterm
        | progressing =>
          rw [hs] at hterm
          simp [KeptnState.isCompleted, KeptnState.isSucceeded, KeptnState.isFailed] at hterm
      cases cb with
      | error msg =>
        simp only [wiHandlePhase, wiGetField_currentPhase, hff, Bool.false_eq_true, if_false]
        exact hpers
      | ok st =>
        simp only [wiHandlePhase, wiGetField_currentPhase, hff, Bool.false_eq_true, if_false]
        cases st with
        | succeeded =>
          simp only [KeptnState.isSucceeded, if_true, hupd]
          exact wiHandleTail_inv _ _ _ _ _ (wiInv_of_nonterminal _ hns hnf het)
            (wiInv_of_nonterminal _ hns hnf het)
        | failed =>
          simp only [KeptnState.isSucceeded, KeptnState.isFailed, Bool.false_eq_true,
            if_false, if_true, hupd]
          refine wiHandleTail_inv _ _ _ _ _ (wiInv_of_failed _ ?_ ?_ ?_)
            (wiInv_of_nonterminal _ hns hnf het)
          · rw [wiSetEndTime_eq]
          · rw [wiSetEndTime_eq]
            simp_all [wiStuck, wiFirstUnfinished, KeptnWorkloadInstance.isPreDeploymentSucceeded, KeptnWorkloadInstance.isPreDeploymentEvaluationSucceeded, KeptnWorkloadInstance.isDeploymentSucceeded, KeptnWorkloadInstance.isPostDeploymentSucceeded, KeptnWorkloadInstance.isPostDeploymentEvaluationSucceeded,
              wiGetField, wiSetField, KeptnState.isSucceeded, KeptnState.isFailed, p1, p2]
          · rw [wiSetEndTime_eq]
            simp
        | progressing =>
          simp only [KeptnState.isSucceeded, KeptnState.isFailed, Bool.false_eq_true,
            if_false, hupd]
          by_cases hmv : s.entity.status.status ≠ KeptnState.progressing
          case pos =>
            rw [if_pos hmv]
            exact wiHandleTail_inv _ _ _ _ _
              (wiInv_of_nonterminal _ (by simp) (by simp) het)
              (wiInv_of_nonterminal _ hns hnf het)
          case neg =>
            rw [if_neg hmv]
            exact wiHandleTail_inv _ _ _ _ _ (wiInv_of_nonterminal _ hns hnf het)
              (wiInv_of_nonterminal _ hns hnf het)
        | pending =>
          simp only [KeptnState.isSucceeded, KeptnState.isFailed, Bool.false_eq_true,
            if_false, hupd]
          by_cases hmv : s.entity.status.status ≠ KeptnState.progressing
          case pos =>
            rw [if_pos hmv]
            exact wiHandleTail_inv _ _ _ _ _
              (wiInv_of_nonterminal _ (by simp) (by simp) het)
              (wiInv_of_nonterminal _ hns hnf het)
          case neg =>
            rw [if_neg hmv]
            exact wiHandleTail_inv _ _ _ _ _ (wiInv_of_nonterminal _ hns hnf het)
              (wiInv_of_nonterminal _ hns hnf het)
  case pos =>
  by_cases p4 : s.entity.isPostDeploymentSucceeded = true
  case neg =>
    rw [Bool.not_eq_true] at p4
    have hfu2 : wiFirstUnfinished s.entity
        = some (PhaseWorkloadPostDeployment, WIField.postDeployment) := by
      simp [wiFirstUnfinished, p1, p2, p3, p4]
    rw [hfu2] at hfu
    obtain ⟨-, h2⟩ : PhaseWorkloadPostDeployment = ph0 ∧ WIField.postDeployment = field := by
      simpa using hfu
    cases h2
    by_cases hff : (wiGetField WIField.postDeployment s.entity.status).isFailed = true
    case pos =>
      simp only [wiHandlePhase, wiGetField_currentPhase, hff, if_true]
      exact hpers
    case neg =>
      rw [Bool.not_eq_true] at hff
      have hnf : ¬ s.entity.status.status = KeptnState.failed := by
        intro hx
        have hstuck := (hE.2.1 hx).1
        simp only [wiStuck, hfu2] at hstuck
        rw [hff] at hstuck
        cases hstuck
      have het : s.entity.status.endTime.isSome = false := by
        by_contra hcon
        rw [Bool.not_eq_false] at hcon
        have hterm := hE.2.2 hcon
        cases hs : s.entity.status.status with
        | succeeded => exact hns hs
        | failed => exact hnf hs
        | pending =>
          rw [hs] at hterm
          simp [KeptnState.isCompleted, KeptnState.isSucceeded, KeptnState.isFailed] at hterm
        | progressing =>
          rw [hs] at hterm
          simp [KeptnState.isCompleted, KeptnState.isSucceeded, KeptnState.isFailed] at hterm
      cases cb with
      | error msg =>
        simp only [wiHandlePhase, wiGetField_currentPhase, hff, Bool.false_eq_true, if_false]
        exact hpers
      | ok st =>
        simp only [wiHandlePhase, wiGetField_currentPhase, hff, Bool.false_eq_true, if_false]
        cases st with
        | succeeded =>
          simp only [KeptnState.isSucceeded, if_true, hupd]
          exact wiHandleTail_inv _ _ _ _ _ (wiInv_of_nonterminal _ hns hnf het)
            (wiInv_of_nonterminal _ hns hnf het)
        | failed =>
          simp only [KeptnState.isSucceeded, KeptnState.isFailed, Bool.false_eq_true,
            if_false, if_true, hupd]
          refine wiHandleTail_inv _ _ _ _ _ (wiInv_of_failed _ ?_ ?_ ?_)
            (wiInv_of_nonterminal _ hns hnf het)
          · rw [wiSetEndTime_eq]
          · rw [wiSetEndTime_eq]
            simp_all [wiStuck, wiFirstUnfinished, KeptnWorkloadInstance.isPreDeploymentSucceeded, KeptnWorkloadInstance.isPreDeploymentEvaluationSucceeded, KeptnWorkloadInstance.isDeploymentSucceeded, KeptnWorkloadInstance.isPostDeploymentSucceeded, KeptnWorkloadInstance.isPostDeploymentEvaluationSucceeded,
              wiGetField, wiSetField, KeptnState.isSucceeded, KeptnState.isFailed, p1, p2, p3]
          · rw [wiSetEndTime_eq]
            simp
        | progressing =>
          simp only [KeptnState.isSucceeded, KeptnState.isFailed, Bool.false_eq_true,
            if_false, hupd]
          by_cases hmv : s.entity.status.status ≠ KeptnState.progressing
          case pos =>
            rw [if_pos hmv]
            exact wiHandleTail_inv _ _ _ _ _
              (wiInv_of_nonterminal _ (by simp) (by simp) het)
              (wiInv_of_nonterminal _ hns hnf het)
          case neg =>
            rw [if_neg hmv]
            exact wiHandleTail_inv _ _ _ _ _ (wiInv_of_nonterminal _ hns hnf het)
              (wiInv_of_nonterminal _ hns hnf het)
        | pending =>
          simp only [KeptnState.isSucceeded, KeptnState.isFailed, Bool.false_eq_true,
            if_false, hupd]
          by_cases hmv : s.entity.status.status ≠ KeptnState.progressing
          case pos =>
            rw [if_pos hmv]
            exact wiHandleTail_inv _ _ _ _ _
              (wiInv_of_nonterminal _ (by simp) (by simp) het)
              (wiInv_of_nonterminal _ hns hnf het)
          case neg =>
            rw [if_neg hmv]
            exact wiHandleTail_inv _ _ _ _ _ (wiInv_of_nonterminal _ hns hnf het)
              (wiInv_of_nonterminal _ hns hnf het)
  case pos =>
  by_cases p5 : s.entity.isPostDeploymentEvaluationSucceeded = true
  case neg =>
    rw [Bool.not_eq_true] at p5
    have hfu2 : wiFirstUnfinished s.entity
        = some (PhaseAppPostEvaluation, WIField.postDeploymentEval) := by
      simp [wiFirstUnfinished, p1, p2, p3, p4, p5]
    rw [hfu2] at hfu
    obtain ⟨-, h2⟩ : PhaseAppPostEvaluation = ph0 ∧ WIField.postDeploymentEval = field := by
      simpa using hfu
    cases h2
    by_cases hff : (wiGetField WIField.postDeploymentEval s.entity.status).isFailed = true
    case pos =>
      simp only [wiHandlePhase, wiGetField_currentPhase, hff, if_true]
      exact hpers
    case neg =>
      rw [Bool.not_eq_true] at hff
      have hnf : ¬ s.entity.status.status = KeptnState.failed := by
        intro hx
        have hstuck := (hE.2.1 hx).1
        simp only [wiStuck, hfu2] at hstuck
        rw [hff] at hstuck
        cases hstuck
      have het : s.entity.status.endTime.isSome = false := by
        by_contra hcon
        rw [Bool.not_eq_false] at hcon
        have hterm := hE.2.2 hcon
        cases hs : s.entity.status.status with
        | succeeded => exact hns hs
        | failed => exact hnf hs
        | pending =>
          rw [hs] at hterm
          simp [KeptnState.isCompleted, KeptnState.isSucceeded, KeptnState.isFailed] at hterm
        | progressing =>
          rw [hs] at hterm
          simp [KeptnState.isCompleted, KeptnState.isSucceeded, KeptnState.isFailed] at hterm
      cases cb with
      | error msg =>
        simp only [wiHandlePhase, wiGetField_currentPhase, hff, Bool.false_eq_true, if_false]
        exact hpers
      | ok st =>
        simp only [wiHandlePhase, wiGetField_currentPhase, hff, Bool.false_eq_true, if_false]
        cases st with
        | succeeded =>
          simp only [KeptnState.isSucceeded, if_true, hupd]
          exact wiHandleTail_inv _ _ _ _ _ (wiInv_of_nonterminal _ hns hnf het)
            (wiInv_of_nonterminal _ hns hnf het)
        | failed =>
          simp only [KeptnState.isSucceeded, KeptnState.isFailed, Bool.false_eq_true,
            if_false, if_true, hupd]
          refine wiHandleTail_inv _ _ _ _ _ (wiInv_of_failed _ ?_ ?_ ?_)
            (wiInv_of_nonterminal _ hns hnf het)
          · rw [wiSetEndTime_eq]
          · rw [wiSetEndTime_eq]
            simp_all [wiStuck, wiFirstUnfinished, KeptnWorkloadInstance.isPreDeploymentSucceeded, KeptnWorkloadInstance.isPreDeploymentEvaluationSucceeded, KeptnWorkloadInstance.isDeploymentSucceeded, KeptnWorkloadInstance.isPostDeploymentSucceeded, KeptnWorkloadInstance.isPostDeploymentEvaluationSucceeded,
              wiGetField, wiSetField, KeptnState.isSucceeded, KeptnState.isFailed, p1, p2, p3, p4]
          · rw [wiSetEndTime_eq]
            simp
        | progressing =>
          simp only [KeptnState.isSucceeded, KeptnState.isFailed, Bool.false_eq_true,
            if_false, hupd]
          by_cases hmv : s.entity.status.status ≠ KeptnState.progressing
          case pos =>
            rw [if_pos hmv]
            exact wiHandleTail_inv _ _ _ _ _
              (wiInv_of_nonterminal _ (by simp) (by simp) het)
              (wiInv_of_nonterminal _ hns hnf het)
          case neg =>
            rw [if_neg hmv]
            exact wiHandleTail_inv _ _ _ _ _ (wiInv_of_nonterminal _ hns hnf het)
              (wiInv_of_nonterminal _ hns hnf het)
        | pending =>
          simp only [KeptnState.isSucceeded, KeptnState.isFailed, Bool.false_eq_true,
            if_false, hupd]
          by_cases hmv : s.entity.status.status ≠ KeptnState.progressing
          case pos =>
            rw [if_pos hmv]
            exact wiHandleTail_inv _ _ _ _ _
              (wiInv_of_nonterminal _ (by simp) (by simp) het)
              (wiInv_of_nonterminal _ hns hnf het)
          case neg =>
            rw [if_neg hmv]
            exact wiHandleTail_inv _ _ _ _ _ (wiInv_of_nonterminal _ hns hnf het)
              (wiInv_of_nonterminal _ hns hnf het)
  case pos =>
  have hfu2 : wiFirstUnfinished s.entity = none := by
    simp [wiFirstUnfinished, p1, p2, p3, p4, p5]
  rw [hfu2] at hfu
  cases hfu

/-- The completion block preserves the invariant when every phase accessor
succeeded. -/
theorem wiCompletion_inv (o : WIOracle) (s : RecState KeptnWorkloadInstance)
    (hupd : s.updates = []) (hent : wiInv s.entity = true)
    (hall : wiAllSucc s.entity = true) :
    wiInv (wiCompletion o s).persisted = true := by
  simp only [wiCompletion, hupd]
  rw [doUpdate_clean _ rfl]
  by_cases hets : s.entity.isEndTimeSet = true
  case pos =>
    simp [hets]
    exact hent
  case neg =>
    rw [Bool.not_eq_true] at hets
    simp [hets]
    rw [wiSetEndTime_eq]
    refine wiInv_of_succeeded _ rfl ?_ (by simp)
    simp_all [wiAllSucc, KeptnWorkloadInstance.isPreDeploymentSucceeded,
      KeptnWorkloadInstance.isPreDeploymentEvaluationSucceeded,
      KeptnWorkloadInstance.isDeploymentSucceeded,
      KeptnWorkloadInstance.isPostDeploymentSucceeded,
      KeptnWorkloadInstance.isPostDeploymentEvaluationSucceeded]

/-- This walk step preserves the invariant on a clean stream. -/
theorem wiWalkPostEval_inv (o : WIOracle) (s : RecState KeptnWorkloadInstance)
    (hupd : s.updates = []) (hpers : wiInv s.persisted = true)
    (hent : wiInv s.entity = true)
    (h1 : s.entity.isPreDeploymentSucceeded = true)
    (h2 : s.entity.isPreDeploymentEvaluationSucceeded = true)
    (h3 : s.entity.isDeploymentSucceeded = true)
    (h4 : s.entity.isPostDeploymentSucceeded = true) :
    wiInv (wiWalkPostEval o s).persisted = true := by
  obtain ⟨he, hcl⟩ := wiPromoteAndSave_state s wiPostEvalStepPromote
  obtain ⟨hok, hupd2, hmem⟩ := hcl hupd
  have hent2 : wiInv (wiPromoteAndSave s wiPostEvalStepPromote).2.entity = true := by
    rw [he, (wiInv_promotes s.entity).2.2.2.2]
    exact hent
  have hpers2 : wiInv (wiPromoteAndSave s wiPostEvalStepPromote).2.persisted = true := by
    rcases List.mem_cons.mp hmem with h | h
    · rw [h]
      exact hpers
    · rw [List.mem_singleton.mp h, (wiInv_promotes s.entity).2.2.2.2]
      exact hent
  have t1 : (wiPromoteAndSave s wiPostEvalStepPromote).2.entity.isPreDeploymentSucceeded = true := by
    rw [he, (wiPostEvalStepPromote_succ s.entity).1]
    exact h1
  have t2 : (wiPromoteAndSave s wiPostEvalStepPromote).2.entity.isPreDeploymentEvaluationSucceeded = true := by
    rw [he, (wiPostEvalStepPromote_succ s.entity).2.1]
    exact h2
  have t3 : (wiPromoteAndSave s wiPostEvalStepPromote).2.entity.isDeploymentSucceeded = true := by
    rw [he, (wiPostEvalStepPromote_succ s.entity).2.2.1]
    exact h3
  have t4 : (wiPromoteAndSave s wiPostEvalStepPromote).2.entity.isPostDeploymentSucceeded = true := by
    rw [he, (wiPostEvalStepPromote_succ s.entity).2.2.2.1]
    exact h4
  simp only [wiWalkPostEval, hok, Bool.true_eq_false, if_false]
  by_cases hg : (wiPromoteAndSave s wiPostEvalStepPromote).2.entity.isPostDeploymentEvaluationSucceeded = true
  case pos =>
    rw [if_neg (by simp [hg])]
    exact wiCompletion_inv o _ hupd2 hent2 (by simp [wiAllSucc, t1, t2, t3, t4, hg])
  case neg =>
    rw [Bool.not_eq_true] at hg
    rw [if_pos (by simp [hg])]
    exact wiHandlePhase_inv o.now _ PhaseAppPostEvaluation PhaseAppPostEvaluation
      WIField.postDeploymentEval (o.callback WIField.postDeploymentEval) hupd2 hpers2 hent2
      (by simp [wiFirstUnfinished, t1, t2, t3, t4, hg])

/-- This walk step preserves the invariant on a clean stream. -/
theorem wiWalkPostDeployment_inv (o : WIOracle) (s : RecState KeptnWorkloadInstance)
    (hupd : s.updates = []) (hpers : wiInv s.persisted = true)
    (hent : wiInv s.entity = true)
    (h1 : s.entity.isPreDeploymentSucceeded = true)
    (h2 : s.entity.isPreDeploymentEvaluationSucceeded = true)
    (h3 : s.entity.isDeploymentSucceeded = true) :
    wiInv (wiWalkPostDeployment o s).persisted = true := by
  obtain ⟨he, hcl⟩ := wiPromoteAndSave_state s wiPromotePostDeployment
  obtain ⟨hok, hupd2, hmem⟩ := hcl hupd
  have hent2 : wiInv (wiPromoteAndSave s wiPromotePostDeployment).2.entity = true := by
    rw [he, (wiInv_promotes s.entity).2.2.2.1]
    exact hent
  have hpers2 : wiInv (wiPromoteAndSave s wiPromotePostDeployment).2.persisted = true := by
    rcases List.mem_cons.mp hmem with h | h
    · rw [h]
      exact hpers
    · rw [List.mem_singleton.mp h, (wiInv_promotes s.entity).2.2.2.1]
      exact hent
  have t1 : (wiPromoteAndSave s wiPromotePostDeployment).2.entity.isPreDeploymentSucceeded = true := by
    rw [he, (wiPromotePostDeployment_succ s.entity).1]
    exact h1
  have t2 : (wiPromoteAndSave s wiPromotePostDeployment).2.entity.isPreDeploymentEvaluationSucceeded = true := by
    rw [he, (wiPromotePostDeployment_succ s.entity).2.1]
    exact h2
  have t3 : (wiPromoteAndSave s wiPromotePostDeployment).2.entity.isDeploymentSucceeded = true := by
    rw [he, (wiPromotePostDeployment_succ s.entity).2.2.1]
    exact h3
  simp only [wiWalkPostDeployment, hok, Bool.true_eq_false, if_false]
  by_cases hg : (wiPromoteAndSave s wiPromotePostDeployment).2.entity.isPostDeploymentSucceeded = true
  case pos =>
    rw [if_neg (by simp [hg])]
    exact wiWalkPostEval_inv o _ hupd2 hpers2 hent2 t1 t2 t3 hg
  case neg =>
    rw [Bool.not_eq_true] at hg
    rw [if_pos (by simp [hg])]
    exact wiHandlePhase_inv o.now _ PhaseWorkloadPostDeployment PhaseWorkloadPostDeployment
      WIField.postDeployment (o.callback WIField.postDeployment) hupd2 hpers2 hent2
      (by simp [wiFirstUnfinished, t1, t2, t3, hg])

/-- This walk step preserves the invariant on a clean stream. -/
theorem wiWalkDeployment_inv (o : WIOracle) (s : RecState KeptnWorkloadInstance)
    (hupd : s.updates = []) (hpers : wiInv s.persisted = true)
    (hent : wiInv s.entity = true)
    (h1 : s.entity.isPreDeploymentSucceeded = true)
    (h2 : s.entity.isPreDeploymentEvaluationSucceeded = true) :
    wiInv (wiWalkDeployment o s).persisted = true := by
  obtain ⟨he, hcl⟩ := wiPromoteAndSave_state s wiPromoteDeployment
  obtain ⟨hok, hupd2, hmem⟩ := hcl hupd
  have hent2 : wiInv (wiPromoteAndSave s wiPromoteDeployment).2.entity = true := by
    rw [he, (wiInv_promotes s.entity).2.2.1]
    exact hent
  have hpers2 : wiInv (wiPromoteAndSave s wiPromoteDeployment).2.persisted = true := by
    rcases List.mem_cons.mp hmem with h | h
    · rw [h]
      exact hpers
    · rw [List.mem_singleton.mp h, (wiInv_promotes s.entity).2.2.1]
      exact hent
  have t1 : (wiPromoteAndSave s wiPromoteDeployment).2.entity.isPreDeploymentSucceeded = true := by
    rw [he, (wiPromoteDeployment_succ s.entity).1]
    exact h1
  have t2 : (wiPromoteAndSave s wiPromoteDeployment).2.entity.isPreDeploymentEvaluationSucceeded = true := by
    rw [he, (wiPromoteDeployment_succ s.entity).2.1]
    exact h2
  simp only [wiWalkDeployment, hok, Bool.true_eq_false, if_false]
  by_cases hg : (wiPromoteAndSave s wiPromoteDeployment).2.entity.isDeploymentSucceeded = true
  case pos =>
    rw [if_neg (by simp [hg])]
    exact wiWalkPostDeployment_inv o _ hupd2 hpers2 hent2 t1 t2 hg
  case neg =>
    rw [Bool.not_eq_true] at hg
    rw [if_pos (by simp [hg])]
    exact wiHandlePhase_inv o.now _ PhaseWorkloadDeployment PhaseWorkloadDeployment
      WIField.deployment (o.callback WIField.deployment) hupd2 hpers2 hent2
      (by simp [wiFirstUnfinished, t1, t2, hg])

/-- This walk step preserves the invariant on a clean stream. -/
theorem wiWalkPreEval_inv (o : WIOracle) (s : RecState KeptnWorkloadInstance)
    (hupd : s.updates = []) (hpers : wiInv s.persisted = true)
    (hent : wiInv s.entity = true)
    (h1 : s.entity.isPreDeploymentSucceeded = true) :
    wiInv (wiWalkPreEval o s).persisted = true := by
  obtain ⟨he, hcl⟩ := wiPromoteAndSave_state s wiPromotePreEval
  obtain ⟨hok, hupd2, hmem⟩ := hcl hupd
  have hent2 : wiInv (wiPromoteAndSave s wiPromotePreEval).2.entity = true := by
    rw [he, (wiInv_promotes s.entity).2.1]
    exact hent
  have hpers2 : wiInv (wiPromoteAndSave s wiPromotePreEval).2.persisted = true := by
    rcases List.mem_cons.mp hmem with h | h
    · rw [h]
      exact hpers
    · rw [List.mem_singleton.mp h, (wiInv_promotes s.entity).2.1]
      exact hent
  have t1 : (wiPromoteAndSave s wiPromotePreEval).2.entity.isPreDeploymentSucceeded = true := by
    rw [he, (wiPromotePreEval_succ s.entity).1]
    exact h1
  simp only [wiWalkPreEval, hok, Bool.true_eq_false, if_false]
  by_cases hg : (wiPromoteAndSave s wiPromotePreEval).2.entity.isPreDeploymentEvaluationSucceeded = true
  case pos =>
    rw [if_neg (by simp [hg])]
    exact wiWalkDeployment_inv o _ hupd2 hpers2 hent2 t1 hg
  case neg =>
    rw [Bool.not_eq_true] at hg
    rw [if_pos (by simp [hg])]
    exact wiHandlePhase_inv o.now _ PhaseAppPreEvaluation PhaseAppPreEvaluation
      WIField.preDeploymentEval (o.callback WIField.preDeploymentEval) hupd2 hpers2 hent2
      (by simp [wiFirstUnfinished, t1, hg])

/-- The whole post-gate walk preserves the invariant on a clean stream. -/
theorem wiWalkPre_inv (o : WIOracle) (s : RecState KeptnWorkloadInstance)
    (hupd : s.updates = []) (hpers : wiInv s.persisted = true)
    (hent : wiInv s.entity = true) :
    wiInv (wiWalkPre o s).persisted = true := by
  simp only [wiWalkPre]
  by_cases hg : s.entity.isPreDeploymentSucceeded = true
  case pos =>
    rw [if_neg (by simp [hg])]
    exact wiWalkPreEval_inv o s hupd hpers hent hg
  case neg =>
    rw [Bool.not_eq_true] at hg
    rw [if_pos (by simp [hg])]
    exact wiHandlePhase_inv o.now s PhaseWorkloadPreDeployment PhaseWorkloadPreDeployment
      WIField.preDeployment (o.callback WIField.preDeployment) hupd hpers hent
      (by simp [wiFirstUnfinished, hg])

/-- The post-gate section preserves the invariant on a clean stream. -/
theorem wiAfterGate_inv (o : WIOracle) (wi0 e1 : KeptnWorkloadInstance)
    (av : KeptnAppVersion) (hupd : o.updates = [])
    (h0 : wiInv wi0 = true) (h1 : wiInv e1 = true) :
    wiInv (wiAfterGate o wi0 e1 av).persisted = true := by
  have hent2 : wiInv (wiTraceCopy (wiPromote1 e1).1 av).1 = true := by
    rw [wiInv_congr _ _ (wiTraceCopy_status _ _), (wiInv_promotes e1).1]
    exact h1
  simp only [wiAfterGate, hupd]
  by_cases hsave : ((wiPromote1 e1).2 || (wiTraceCopy (wiPromote1 e1).1 av).2) = true
  case pos =>
    rw [if_pos hsave, doUpdate_clean _ rfl]
    simp only [Bool.true_eq_false, if_false]
    split
    · exact wiWalkPre_inv o _ rfl hent2 hent2
    · exact wiWalkPre_inv o _ rfl hent2 hent2
  case neg =>
    rw [if_neg hsave]
    simp only [Bool.true_eq_false, if_false]
    split
    · exact wiWalkPre_inv o _ rfl h0 hent2
    · exact wiWalkPre_inv o _ rfl h0 hent2

/-- A full workload-instance reconcile on a clean stream preserves the
invariant of the persisted object. -/
theorem wiReconcile_inv (o : WIOracle) (wi : KeptnWorkloadInstance)
    (hupd : o.updates = []) (h : wiInv wi = true) :
    wiInv (wiReconcile o wi).persisted = true := by
  simp only [wiReconcile]
  cases hl : o.listApps with
  | error m => exact h
  | ok apps =>
    repeat' split
    all_goals
      first
        | exact h
        | exact wiAfterGate_inv o wi _ _ hupd h
            (by rw [wiInv_setStartTime]; exact h)

/-- Unpacking the application-version invariant. -/
theorem appInv_elim (a : KeptnAppVersion) (h : appInv a = true) :
    (appDone a = true → a.status.status.isCompleted = true)
    ∧ (a.status.endTime.isSome = true →
        (a.status.status = KeptnState.succeeded ∧ appDone a = true)
        ∨ (a.status.status = KeptnState.failed
            ∧ (appDone a = true ∨ appStuck a = true))) := by
  simp only [appInv, Bool.and_eq_true] at h
  obtain ⟨h1, h2⟩ := h
  constructor
  · intro hd
    rw [hd] at h1
    simpa using h1
  · intro he
    rw [he] at h2
    simpa using h2

/-- A finished walk has no unfinished phase. -/
theorem appFirstUnfinished_of_done (a : KeptnAppVersion) (h : appDone a = true) :
    appFirstUnfinished a = none := by
  simp only [appDone, Bool.and_eq_true] at h
  obtain ⟨⟨⟨⟨h1, h2⟩, h3⟩, h4⟩, h5⟩ := h
  simp [appFirstUnfinished, h1, h2, h3, h4, h5]

/-- The application invariant holds whenever the overall status is
Succeeded and no end time is stamped. -/
theorem appInv_intro1 (a : KeptnAppVersion)
    (h1 : a.status.status = KeptnState.succeeded)
    (h2 : a.status.endTime.isSome = false) : appInv a = true := by
  simp [appInv, h1, h2, KeptnState.isCompleted, KeptnState.isSucceeded,
    KeptnState.isFailed]

/-- The application invariant holds whenever the overall status is Failed
and no end time is stamped. -/
theorem appInv_intro2 (a : KeptnAppVersion)
    (h1 : a.status.status = KeptnState.failed)
    (h2 : a.status.endTime.isSome = false) : appInv a = true := by
  simp [appInv, h1, h2, KeptnState.isCompleted, KeptnState.isSucceeded,
    KeptnState.isFailed]

/-- The application invariant holds at a Failed state with end time when
the walk is finished or stuck. -/
theorem appInv_intro3 (a : KeptnAppVersion)
    (h1 : a.status.status = KeptnState.failed)
    (h2 : a.status.endTime.isSome = true)
    (h3 : appDone a = true ∨ appStuck a = true) : appInv a = true := by
  rcases h3 with h3 | h3 <;>
    simp [appInv, h1, h2, h3, KeptnState.isCompleted, KeptnState.isSucceeded,
      KeptnState.isFailed]

/-- The application invariant holds at a non-terminal state with no end
time and an unfinished walk. -/
theorem appInv_intro4 (a : KeptnAppVersion)
    (h1 : ¬ a.status.status = KeptnState.succeeded)
    (h2 : ¬ a.status.status = KeptnState.failed)
    (h3 : appDone a = false)
    (h4 : a.status.endTime.isSome = false) : appInv a = true := by
  simp [appInv, h1, h2, h3, h4]

/-- The application invariant holds at a Succeeded state with end time
when the walk is finished. -/
theorem appInv_intro5 (a : KeptnAppVersion)
    (h1 : a.status.status = KeptnState.succeeded)
    (h2 : a.status.endTime.isSome = true)
    (h3 : appDone a = true) : appInv a = true := by
  simp [appInv, h1, h2, h3, KeptnState.isCompleted, KeptnState.isSucceeded,
    KeptnState.isFailed]

/-- The application completion block preserves the invariant when the walk
is finished. -/
theorem appCompletion_inv (o : AppOracle) (s : RecState KeptnAppVersion)
    (hupd : s.updates = []) (hent : appInv s.entity = true)
    (hdone : appDone s.entity = true) :
    appInv (appCompletion o s).persisted = true := by
  have hterm := (appInv_elim s.entity hent).1 hdone
  simp only [appCompletion, hupd]
  rw [doUpdate_clean _ rfl]
  by_cases hets : s.entity.isEndTimeSet = true
  case pos =>
    simp [hets]
    rw [doUpdate_clean _ rfl]
    exact hent
  case neg =>
    rw [Bool.not_eq_true] at hets
    simp [hets]
    rw [doUpdate_clean _ rfl]
    simp only [Bool.true_eq_false, if_false]
    rw [appSetEndTime_eq]
    cases hσ : s.entity.status.status with
    | succeeded =>
      refine appInv_intro5 _ rfl (by simp) ?_
      simp_all [appDone, KeptnAppVersion.isPreDeploymentSucceeded,
        KeptnAppVersion.isPreDeploymentEvaluationSucceeded,
        KeptnAppVersion.areWorkloadsSucceeded,
        KeptnAppVersion.isPostDeploymentSucceeded,
        KeptnAppVersion.isPostDeploymentEvaluationCompleted]
    | failed =>
      refine appInv_intro3 _ rfl (by simp) (Or.inl ?_)
      simp_all [appDone, KeptnAppVersion.isPreDeploymentSucceeded,
        KeptnAppVersion.isPreDeploymentEvaluationSucceeded,
        KeptnAppVersion.areWorkloadsSucceeded,
        KeptnAppVersion.isPostDeploymentSucceeded,
        KeptnAppVersion.isPostDeploymentEvaluationCompleted]
    | pending =>
      rw [hσ] at hterm
      simp [KeptnState.isCompleted, KeptnState.isSucceeded, KeptnState.isFailed] at hterm
    | progressing =>
      rw [hσ] at hterm
      simp [KeptnState.isCompleted, KeptnState.isSucceeded, KeptnState.isFailed] at hterm

set_option maxHeartbeats 2000000 in
/-- The application Phase Driver preserves the invariant when invoked, on
a clean update stream, on the first unfinished phase of an invariant
entity with an invariant persisted snapshot. -/
theorem appHandlePhase_inv (now : Nat) (s : RecState KeptnAppVersion)
    (phase ph0 : KeptnPhaseType) (field : AppField) (cb : Except String KeptnState)
    (hupd : s.updates = [])
    (hpers : appInv s.persisted = true) (hent : appInv s.entity = true)
    (hfu : appFirstUnfinished s.entity = some (ph0, field)) :
    appInv (appHandlePhase now s phase field cb).persisted = true := by
  have hE := appInv_elim s.entity hent
  have hdone : appDone s.entity = false := by
    cases hd : appDone s.entity
    · rfl
    · rw [appFirstUnfinished_of_done s.entity hd] at hfu
      cases hfu
  by_cases q1 : s.entity.isPreDeploymentSucceeded = true
  case neg =>
    rw [Bool.not_eq_true] at q1
    have hfu2 : appFirstUnfinished s.entity
        = some (PhaseAppPreDeployment, AppField.preDeployment) := by
      simp [appFirstUnfinished, q1]
    rw [hfu2] at hfu
    obtain ⟨-, h2⟩ : PhaseAppPreDeployment = ph0 ∧ AppField.preDeployment = field := by
      simpa using hfu
    cases h2
    by_cases hff : (appGetField AppField.preDeployment s.entity.status).isFailed = true
    case pos =>
      simp only [appHandlePhase, appGetField_currentPhase, hff, if_true]
      exact hpers
    case neg =>
      rw [Bool.not_eq_true] at hff
      have het : s.entity.status.endTime.isSome = false := by
        by_contra hcon
        rw [Bool.not_eq_false] at hcon
        rcases (hE.2 hcon) with ⟨hx, hd⟩ | ⟨hx, hd | hstk⟩
        · rw [hd] at hdone
          cases hdone
        · rw [hd] at hdone
          cases hdone
        · simp only [appStuck, hfu2] at hstk
          rw [hff] at hstk
          cases hstk
      cases cb with
      | error msg =>
        simp only [appHandlePhase, appGetField_currentPhase, hff, Bool.false_eq_true, if_false]
        exact hpers
      | ok st =>
        simp only [appHandlePhase, appGetField_currentPhase, hff, Bool.false_eq_true, if_false]
        cases st with
        | succeeded =>
          simp only [KeptnState.isSucceeded, if_true, hupd]
          by_cases hos : s.entity.status.status ≠ KeptnState.succeeded
          case pos =>
            rw [if_pos hos, decide_eq_true hos, Bool.or_true, if_pos rfl, doUpdate_clean _ rfl]
            exact appInv_intro1 _ rfl het
          case neg =>
            rw [not_not] at hos
            rw [decide_eq_false (show ¬ (s.entity.status.status ≠ KeptnState.succeeded) from fun h => h hos), Bool.or_false]
            split
            · rw [if_neg (show ¬ (s.entity.status.status ≠ KeptnState.succeeded) from fun h => h hos), doUpdate_clean _ rfl]
              exact appInv_intro1 _ hos het
            · exact appInv_intro1 _ hos het
        | failed =>
          simp only [KeptnState.isSucceeded, KeptnState.isFailed, Bool.false_eq_true, if_false,
            if_true, hupd]
          by_cases hos : s.entity.status.status ≠ KeptnState.failed
          case pos =>
            rw [if_pos hos, decide_eq_true hos, Bool.or_true, if_pos rfl, doUpdate_clean _ rfl,
              appSetEndTime_eq]
            refine appInv_intro3 _ rfl (by simp) (Or.inr ?_)
            simp_all [appStuck, appFirstUnfinished, KeptnAppVersion.isPreDeploymentSucceeded, KeptnAppVersion.isPreDeploymentEvaluationSucceeded, KeptnAppVersion.areWorkloadsSucceeded, KeptnAppVersion.isPostDeploymentSucceeded, KeptnAppVersion.isPostDeploymentEvaluationCompleted, appGetField, appSetField, KeptnState.isSucceeded, KeptnState.isFailed, KeptnState.isCompleted]
          case neg =>
            rw [not_not] at hos
            rw [decide_eq_false (show ¬ (s.entity.status.status ≠ KeptnState.failed) from fun h => h hos), Bool.or_false]
            split
            · rw [if_neg (show ¬ (s.entity.status.status ≠ KeptnState.failed) from fun h => h hos), doUpdate_clean _ rfl, appSetEndTime_eq]
              refine appInv_intro3 _ hos (by simp) (Or.inr ?_)
              simp_all [appStuck, appFirstUnfinished, KeptnAppVersion.isPreDeploymentSucceeded, KeptnAppVersion.isPreDeploymentEvaluationSucceeded, KeptnAppVersion.areWorkloadsSucceeded, KeptnAppVersion.isPostDeploymentSucceeded, KeptnAppVersion.isPostDeploymentEvaluationCompleted, appGetField, appSetField, KeptnState.isSucceeded, KeptnState.isFailed, KeptnState.isCompleted]
            · exact appInv_intro2 _ hos het
        | progressing =>
          simp only [KeptnState.isSucceeded, KeptnState.isFailed, Bool.false_eq_true,
            if_false, hupd]
          by_cases hos : s.entity.status.status ≠ KeptnState.progressing
          case pos =>
            rw [if_pos hos, decide_eq_true hos, Bool.or_true, if_pos rfl, doUpdate_clean _ rfl]
            refine appInv_intro4 _ (by simp) (by simp) ?_ het
            simp_all [appDone, KeptnAppVersion.isPreDeploymentSucceeded, KeptnAppVersion.isPreDeploymentEvaluationSucceeded, KeptnAppVersion.areWorkloadsSucceeded, KeptnAppVersion.isPostDeploymentSucceeded, KeptnAppVersion.isPostDeploymentEvaluationCompleted, appGetField, appSetField, KeptnState.isSucceeded, KeptnState.isFailed, KeptnState.isCompleted]
          case neg =>
            rw [not_not] at hos
            rw [decide_eq_false (show ¬ (s.entity.status.status ≠ KeptnState.progressing) from fun h => h hos), Bool.or_false]
            split
            · rw [if_neg (show ¬ (s.entity.status.status ≠ KeptnState.progressing) from fun h => h hos), doUpdate_clean _ rfl]
              refine appInv_intro4 _ (by simp [appSetField, hos]) (by simp [appSetField, hos]) ?_ het
              simp_all [appDone, KeptnAppVersion.isPreDeploymentSucceeded, KeptnAppVersion.isPreDeploymentEvaluationSucceeded, KeptnAppVersion.areWorkloadsSucceeded, KeptnAppVersion.isPostDeploymentSucceeded, KeptnAppVersion.isPostDeploymentEvaluationCompleted, appGetField, appSetField, KeptnState.isSucceeded, KeptnState.isFailed, KeptnState.isCompleted]
            · refine appInv_intro4 _ (by simp [appSetField, hos]) (by simp [appSetField, hos]) ?_ het
              simp_all [appDone, KeptnAppVersion.isPreDeploymentSucceeded, KeptnAppVersion.isPreDeploymentEvaluationSucceeded, KeptnAppVersion.areWorkloadsSucceeded, KeptnAppVersion.isPostDeploymentSucceeded, KeptnAppVersion.isPostDeploymentEvaluationCompleted, appGetField, appSetField, KeptnState.isSucceeded, KeptnState.isFailed, KeptnState.isCompleted]
        | pending =>
          simp only [KeptnState.isSucceeded, KeptnState.isFailed, Bool.false_eq_true,
            if_false, hupd]
          by_cases hos : s.entity.status.status ≠ KeptnState.progressing
          case pos =>
            rw [if_pos hos, decide_eq_true hos, Bool.or_true, if_pos rfl, doUpdate_clean _ rfl]
            refine appInv_intro4 _ (by simp) (by simp) ?_ het
            simp_all [appDone, KeptnAppVersion.isPreDeploymentSucceeded, KeptnAppVersion.isPreDeploymentEvaluationSucceeded, KeptnAppVersion.areWorkloadsSucceeded, KeptnAppVersion.isPostDeploymentSucceeded, KeptnAppVersion.isPostDeploymentEvaluationCompleted, appGetField, appSetField, KeptnState.isSucceeded, KeptnState.isFailed, KeptnState.isCompleted]
          case neg =>
            rw [not_not] at hos
            rw [decide_eq_false (show ¬ (s.entity.status.status ≠ KeptnState.progressing) from fun h => h hos), Bool.or_false]
            split
            · rw [if_neg (show ¬ (s.entity.status.status ≠ KeptnState.progressing) from fun h => h hos), doUpdate_clean _ rfl]
              refine appInv_intro4 _ (by simp [appSetField, hos]) (by simp [appSetField, hos]) ?_ het
              simp_all [appDone, KeptnAppVersion.isPreDeploymentSucceeded, KeptnAppVersion.isPreDeploymentEvaluationSucceeded, KeptnAppVersion.areWorkloadsSucceeded, KeptnAppVersion.isPostDeploymentSucceeded, KeptnAppVersion.isPostDeploymentEvaluationCompleted, appGetField, appSetField, KeptnState.isSucceeded, KeptnState.isFailed, KeptnState.isCompleted]
            · refine appInv_intro4 _ (by simp [appSetField, hos]) (by simp [appSetField, hos]) ?_ het
              simp_all [appDone, KeptnAppVersion.isPreDeploymentSucceeded, KeptnAppVersion.isPreDeploymentEvaluationSucceeded, KeptnAppVersion.areWorkloadsSucceeded, KeptnAppVersion.isPostDeploymentSucceeded, KeptnAppVersion.isPostDeploymentEvaluationCompleted, appGetField, appSetField, KeptnState.isSucceeded, KeptnState.isFailed, KeptnState.isCompleted]
  case pos =>
  by_cases q2 : s.entity.isPreDeploymentEvaluationSucceeded = true
  case neg =>
    rw [Bool.not_eq_true] at q2
    have hfu2 : appFirstUnfinished s.entity
        = some (PhaseAppPreEvaluation, AppField.preDeploymentEval) := by
      simp [appFirstUnfinished, q1, q2]
    rw [hfu2] at hfu
    obtain ⟨-, h2⟩ : PhaseAppPreEvaluation = ph0 ∧ AppField.preDeploymentEval = field := by
      simpa using hfu
    cases h2
    by_cases hff : (appGetField AppField.preDeploymentEval s.entity.status).isFailed = true
    case pos =>
      simp only [appHandlePhase, appGetField_currentPhase, hff, if_true]
      exact hpers
    case neg =>
      rw [Bool.not_eq_true] at hff
      have het : s.entity.status.endTime.isSome = false := by
        by_contra hcon
        rw [Bool.not_eq_false] at hcon
        rcases (hE.2 hcon) with ⟨hx, hd⟩ | ⟨hx, hd | hstk⟩
        · rw [hd] at hdone
          cases hdone
        · rw [hd] at hdone
          cases hdone
        · simp only [appStuck, hfu2] at hstk
          rw [hff] at hstk
          cases hstk
      cases cb with
      | error msg =>
        simp only [appHandlePhase, appGetField_currentPhase, hff, Bool.false_eq_true, if_false]
        exact hpers
      | ok st =>
        simp only [appHandlePhase, appGetField_currentPhase, hff, Bool.false_eq_true, if_false]
        cases st with
        | succeeded =>
          simp only [KeptnState.isSucceeded, if_true, hupd]
          by_cases hos : s.entity.status.status ≠ KeptnState.succeeded
          case pos =>
            rw [if_pos hos, decide_eq_true hos, Bool.or_true, if_pos rfl, doUpdate_clean _ rfl]
            exact appInv_intro1 _ rfl het
          case neg =>
            rw [not_not] at hos
            rw [decide_eq_false (show ¬ (s.entity.status.status ≠ KeptnState.succeeded) from fun h => h hos), Bool.or_false]
            split
            · rw [if_neg (show ¬ (s.entity.status.status ≠ KeptnState.succeeded) from fun h => h hos), doUpdate_clean _ rfl]
              exact appInv_intro1 _ hos het
            · exact appInv_intro1 _ hos het
        | failed =>
          simp only [KeptnState.isSucceeded, KeptnState.isFailed, Bool.false_eq_true, if_false,
            if_true, hupd]
          by_cases hos : s.entity.status.status ≠ KeptnState.failed
          case pos =>
            rw [if_pos hos, decide_eq_true hos, Bool.or_true, if_pos rfl, doUpdate_clean _ rfl,
              appSetEndTime_eq]
            refine appInv_intro3 _ rfl (by simp) (Or.inr ?_)
            simp_all [appStuck, appFirstUnfinished, KeptnAppVersion.isPreDeploymentSucceeded, KeptnAppVersion.isPreDeploymentEvaluationSucceeded, KeptnAppVersion.areWorkloadsSucceeded, KeptnAppVersion.isPostDeploymentSucceeded, KeptnAppVersion.isPostDeploymentEvaluationCompleted, appGetField, appSetField, KeptnState.isSucceeded, KeptnState.isFailed, KeptnState.isCompleted]
          case neg =>
            rw [not_not] at hos
            rw [decide_eq_false (show ¬ (s.entity.status.status ≠ KeptnState.failed) from fun h => h hos), Bool.or_false]
            split
            · rw [if_neg (show ¬ (s.entity.status.status ≠ KeptnState.failed) from fun h => h hos), doUpdate_clean _ rfl, appSetEndTime_eq]
              refine appInv_intro3 _ hos (by simp) (Or.inr ?_)
              simp_all [appStuck, appFirstUnfinished, KeptnAppVersion.isPreDeploymentSucceeded, KeptnAppVersion.isPreDeploymentEvaluationSucceeded, KeptnAppVersion.areWorkloadsSucceeded, KeptnAppVersion.isPostDeploymentSucceeded, KeptnAppVersion.isPostDeploymentEvaluationCompleted, appGetField, appSetField, KeptnState.isSucceeded, KeptnState.isFailed, KeptnState.isCompleted]
            · exact appInv_intro2 _ hos het
        | progressing =>
          simp only [KeptnState.isSucceeded, KeptnState.isFailed, Bool.false_eq_true,
            if_false, hupd]
          by_cases hos : s.entity.status.status ≠ KeptnState.progressing
          case pos =>
            rw [if_pos hos, decide_eq_true hos, Bool.or_true, if_pos rfl, doUpdate_clean _ rfl]
            refine appInv_intro4 _ (by simp) (by simp) ?_ het
            simp_all [appDone, KeptnAppVersion.isPreDeploymentSucceeded, KeptnAppVersion.isPreDeploymentEvaluationSucceeded, KeptnAppVersion.areWorkloadsSucceeded, KeptnAppVersion.isPostDeploymentSucceeded, KeptnAppVersion.isPostDeploymentEvaluationCompleted, appGetField, appSetField, KeptnState.isSucceeded, KeptnState.isFailed, KeptnState.isCompleted]
          case neg =>
            rw [not_not] at hos
            rw [decide_eq_false (show ¬ (s.entity.status.status ≠ KeptnState.progressing) from fun h => h hos), Bool.or_false]
            split
            · rw [if_neg (show ¬ (s.entity.status.status ≠ KeptnState.progressing) from fun h => h hos), doUpdate_clean _ rfl]
              refine appInv_intro4 _ (by simp [appSetField, hos]) (by simp [appSetField, hos]) ?_ het
              simp_all [appDone, KeptnAppVersion.isPreDeploymentSucceeded, KeptnAppVersion.isPreDeploymentEvaluationSucceeded, KeptnAppVersion.areWorkloadsSucceeded, KeptnAppVersion.isPostDeploymentSucceeded, KeptnAppVersion.isPostDeploymentEvaluationCompleted, appGetField, appSetField, KeptnState.isSucceeded, KeptnState.isFailed, KeptnState.isCompleted]
            · refine appInv_intro4 _ (by simp [appSetField, hos]) (by simp [appSetField, hos]) ?_ het
              simp_all [appDone, KeptnAppVersion.isPreDeploymentSucceeded, KeptnAppVersion.isPreDeploymentEvaluationSucceeded, KeptnAppVersion.areWorkloadsSucceeded, KeptnAppVersion.isPostDeploymentSucceeded, KeptnAppVersion.isPostDeploymentEvaluationCompleted, appGetField, appSetField, KeptnState.isSucceeded, KeptnState.isFailed, KeptnState.isCompleted]
        | pending =>
          simp only [KeptnState.isSucceeded, KeptnState.isFailed, Bool.false_eq_true,
            if_false, hupd]
          by_cases hos : s.entity.status.status ≠ KeptnState.progressing
          case pos =>
            rw [if_pos hos, decide_eq_true hos, Bool.or_true, if_pos rfl, doUpdate_clean _ rfl]
            refine appInv_intro4 _ (by simp) (by simp) ?_ het
            simp_all [appDone, KeptnAppVersion.isPreDeploymentSucceeded, KeptnAppVersion.isPreDeploymentEvaluationSucceeded, KeptnAppVersion.areWorkloadsSucceeded, KeptnAppVersion.isPostDeploymentSucceeded, KeptnAppVersion.isPostDeploymentEvaluationCompleted, appGetField, appSetField, KeptnState.isSucceeded, KeptnState.isFailed, KeptnState.isCompleted]
          case neg =>
            rw [not_not] at hos
            rw [decide_eq_false (show ¬ (s.entity.status.status ≠ KeptnState.progressing) from fun h => h hos), Bool.or_false]
            split
            · rw [if_neg (show ¬ (s.entity.status.status ≠ KeptnState.progressing) from fun h => h hos), doUpdate_clean _ rfl]
              refine appInv_intro4 _ (by simp [appSetField, hos]) (by simp [appSetField, hos]) ?_ het
              simp_all [appDone, KeptnAppVersion.isPreDeploymentSucceeded, KeptnAppVersion.isPreDeploymentEvaluationSucceeded, KeptnAppVersion.areWorkloadsSucceeded, KeptnAppVersion.isPostDeploymentSucceeded, KeptnAppVersion.isPostDeploymentEvaluationCompleted, appGetField, appSetField, KeptnState.isSucceeded, KeptnState.isFailed, KeptnState.isCompleted]
            · refine appInv_intro4 _ (by simp [appSetField, hos]) (by simp [appSetField, hos]) ?_ het
              simp_all [appDone, KeptnAppVersion.isPreDeploymentSucceeded, KeptnAppVersion.isPreDeploymentEvaluationSucceeded, KeptnAppVersion.areWorkloadsSucceeded, KeptnAppVersion.isPostDeploymentSucceeded, KeptnAppVersion.isPostDeploymentEvaluationCompleted, appGetField, appSetField, KeptnState.isSucceeded, KeptnState.isFailed, KeptnState.isCompleted]
  case pos =>
  by_cases q3 : s.entity.areWorkloadsSucceeded = true
  case neg =>
    rw [Bool.not_eq_true] at q3
    have hfu2 : appFirstUnfinished s.entity
        = some (PhaseAppDeployment, AppField.workloads) := by
      simp [appFirstUnfinished, q1, q2, q3]
    rw [hfu2] at hfu
    obtain ⟨-, h2⟩ : PhaseAppDeployment = ph0 ∧ AppField.workloads = field := by
      simpa using hfu
    cases h2
    by_cases hff : (appGetField AppField.workloads s.entity.status).isFailed = true
    case pos =>
      simp only [appHandlePhase, appGetField_currentPhase, hff, if_true]
      exact hpers
    case neg =>
      rw [Bool.not_eq_true] at hff
      have het : s.entity.status.endTime.isSome = false := by
        by_contra hcon
        rw [Bool.not_eq_false] at hcon
        rcases (hE.2 hcon) with ⟨hx, hd⟩ | ⟨hx, hd | hstk⟩
        · rw [hd] at hdone
          cases hdone
        · rw [hd] at hdone
          cases hdone
        · simp only [appStuck, hfu2] at hstk
          rw [hff] at hstk
          cases hstk
      cases cb with
      | error msg =>
        simp only [appHandlePhase, appGetField_currentPhase, hff, Bool.false_eq_true, if_false]
        exact hpers
      | ok st =>
        simp only [appHandlePhase, appGetField_currentPhase, hff, Bool.false_eq_true, if_false]
        cases st with
        | succeeded =>
          simp only [KeptnState.isSucceeded, if_true, hupd]
          by_cases hos : s.entity.status.status ≠ KeptnState.succeeded
          case pos =>
            rw [if_pos hos, decide_eq_true hos, Bool.or_true, if_pos rfl, doUpdate_clean _ rfl]
            exact appInv_intro1 _ rfl het
          case neg =>
            rw [not_not] at hos
            rw [decide_eq_false (show ¬ (s.entity.status.status ≠ KeptnState.succeeded) from fun h => h hos), Bool.or_false]
            split
            · rw [if_neg (show ¬ (s.entity.status.status ≠ KeptnState.succeeded) from fun h => h hos), doUpdate_clean _ rfl]
              exact appInv_intro1 _ hos het
            · exact appInv_intro1 _ hos het
        | failed =>
          simp only [KeptnState.isSucceeded, KeptnState.isFailed, Bool.false_eq_true, if_false,
            if_true, hupd]
          by_cases hos : s.entity.status.status ≠ KeptnState.failed
          case pos =>
            rw [if_pos hos, decide_eq_true hos, Bool.or_true, if_pos rfl, doUpdate_clean _ rfl,
              appSetEndTime_eq]
            refine appInv_intro3 _ rfl (by simp) (Or.inr ?_)
            simp_all [appStuck, appFirstUnfinished, KeptnAppVersion.isPreDeploymentSucceeded, KeptnAppVersion.isPreDeploymentEvaluationSucceeded, KeptnAppVersion.areWorkloadsSucceeded, KeptnAppVersion.isPostDeploymentSucceeded, KeptnAppVersion.isPostDeploymentEvaluationCompleted, appGetField, appSetField, KeptnState.isSucceeded, KeptnState.isFailed, KeptnState.isCompleted]
          case neg =>
            rw [not_not] at hos
            rw [decide_eq_false (show ¬ (s.entity.status.status ≠ KeptnState.failed) from fun h => h hos), Bool.or_false]
            split
            · rw [if_neg (show ¬ (s.entity.status.status ≠ KeptnState.failed) from fun h => h hos), doUpdate_clean _ rfl, appSetEndTime_eq]
              refine appInv_intro3 _ hos (by simp) (Or.inr ?_)
              simp_all [appStuck, appFirstUnfinished, KeptnAppVersion.isPreDeploymentSucceeded, KeptnAppVersion.isPreDeploymentEvaluationSucceeded, KeptnAppVersion.areWorkloadsSucceeded, KeptnAppVersion.isPostDeploymentSucceeded, KeptnAppVersion.isPostDeploymentEvaluationCompleted, appGetField, appSetField, KeptnState.isSucceeded, KeptnState.isFailed, KeptnState.isCompleted]
            · exact appInv_intro2 _ hos het
        | progressing =>
          simp only [KeptnState.isSucceeded, KeptnState.isFailed, Bool.false_eq_true,
            if_false, hupd]
          by_cases hos : s.entity.status.status ≠ KeptnState.progressing
          case pos =>
            rw [if_pos hos, decide_eq_true hos, Bool.or_true, if_pos rfl, doUpdate_clean _ rfl]
            refine appInv_intro4 _ (by simp) (by simp) ?_ het
            simp_all [appDone, KeptnAppVersion.isPreDeploymentSucceeded, KeptnAppVersion.isPreDeploymentEvaluationSucceeded, KeptnAppVersion.areWorkloadsSucceeded, KeptnAppVersion.isPostDeploymentSucceeded, KeptnAppVersion.isPostDeploymentEvaluationCompleted, appGetField, appSetField, KeptnState.isSucceeded, KeptnState.isFailed, KeptnState.isCompleted]
          case neg =>
            rw [not_not] at hos
            rw [decide_eq_false (show ¬ (s.entity.status.status ≠ KeptnState.progressing) from fun h => h hos), Bool.or_false]
            split
            · rw [if_neg (show ¬ (s.entity.status.status ≠ KeptnState.progressing) from fun h => h hos), doUpdate_clean _ rfl]
              refine appInv_intro4 _ (by simp [appSetField, hos]) (by simp [appSetField, hos]) ?_ het
              simp_all [appDone, KeptnAppVersion.isPreDeploymentSucceeded, KeptnAppVersion.isPreDeploymentEvaluationSucceeded, KeptnAppVersion.areWorkloadsSucceeded, KeptnAppVersion.isPostDeploymentSucceeded, KeptnAppVersion.isPostDeploymentEvaluationCompleted, appGetField, appSetField, KeptnState.isSucceeded, KeptnState.isFailed, KeptnState.isCompleted]
            · refine appInv_intro4 _ (by simp [appSetField, hos]) (by simp [appSetField, hos]) ?_ het
              simp_all [appDone, KeptnAppVersion.isPreDeploymentSucceeded, KeptnAppVersion.isPreDeploymentEvaluationSucceeded, KeptnAppVersion.areWorkloadsSucceeded, KeptnAppVersion.isPostDeploymentSucceeded, KeptnAppVersion.isPostDeploymentEvaluationCompleted, appGetField, appSetField, KeptnState.isSucceeded, KeptnState.isFailed, KeptnState.isCompleted]
        | pending =>
          simp only [KeptnState.isSucceeded, KeptnState.isFailed, Bool.false_eq_true,
            if_false, hupd]
          by_cases hos : s.entity.status.status ≠ KeptnState.progressing
          case pos =>
            rw [if_pos hos, decide_eq_true hos, Bool.or_true, if_pos rfl, doUpdate_clean _ rfl]
            refine appInv_intro4 _ (by simp) (by simp) ?_ het
            simp_all [appDone, KeptnAppVersion.isPreDeploymentSucceeded, KeptnAppVersion.isPreDeploymentEvaluationSucceeded, KeptnAppVersion.areWorkloadsSucceeded, KeptnAppVersion.isPostDeploymentSucceeded, KeptnAppVersion.isPostDeploymentEvaluationCompleted, appGetField, appSetField, KeptnState.isSucceeded, KeptnState.isFailed, KeptnState.isCompleted]
          case neg =>
            rw [not_not] at hos
            rw [decide_eq_false (show ¬ (s.entity.status.status ≠ KeptnState.progressing) from fun h => h hos), Bool.or_false]
            split
            · rw [if_neg (show ¬ (s.entity.status.status ≠ KeptnState.progressing) from fun h => h hos), doUpdate_clean _ rfl]
              refine appInv_intro4 _ (by simp [appSetField, hos]) (by simp [appSetField, hos]) ?_ het
              simp_all [appDone, KeptnAppVersion.isPreDeploymentSucceeded, KeptnAppVersion.isPreDeploymentEvaluationSucceeded, KeptnAppVersion.areWorkloadsSucceeded, KeptnAppVersion.isPostDeploymentSucceeded, KeptnAppVersion.isPostDeploymentEvaluationCompleted, appGetField, appSetField, KeptnState.isSucceeded, KeptnState.isFailed, KeptnState.isCompleted]
            · refine appInv_intro4 _ (by simp [appSetField, hos]) (by simp [appSetField, hos]) ?_ het
              simp_all [appDone, KeptnAppVersion.isPreDeploymentSucceeded, KeptnAppVersion.isPreDeploymentEvaluationSucceeded, KeptnAppVersion.areWorkloadsSucceeded, KeptnAppVersion.isPostDeploymentSucceeded, KeptnAppVersion.isPostDeploymentEvaluationCompleted, appGetField, appSetField, KeptnState.isSucceeded, KeptnState.isFailed, KeptnState.isCompleted]
  case pos =>
  by_cases q4 : s.entity.isPostDeploymentSucceeded = true
  case neg =>
    rw [Bool.not_eq_true] at q4
    have hfu2 : appFirstUnfinished s.entity
        = some (PhaseAppPostDeployment, AppField.postDeployment) := by
      simp [appFirstUnfinished, q1, q2, q3, q4]
    rw [hfu2] at hfu
    obtain ⟨-, h2⟩ : PhaseAppPostDeployment = ph0 ∧ AppField.postDeployment = field := by
      simpa using hfu
    cases h2
    by_cases hff : (appGetField AppField.postDeployment s.entity.status).isFailed = true
    case pos =>
      simp only [appHandlePhase, appGetField_currentPhase, hff, if_true]
      exact hpers
    case neg =>
      rw [Bool.not_eq_true] at hff
      have het : s.entity.status.endTime.isSome = false := by
        by_contra hcon
        rw [Bool.not_eq_false] at hcon
        rcases (hE.2 hcon) with ⟨hx, hd⟩ | ⟨hx, hd | hstk⟩
        · rw [hd] at hdone
          cases hdone
        · rw [hd] at hdone
          cases hdone
        · simp only [appStuck, hfu2] at hstk
          rw [hff] at hstk
          cases hstk
      cases cb with
      | error msg =>
        simp only [appHandlePhase, appGetField_currentPhase, hff, Bool.false_eq_true, if_false]
        exact hpers
      | ok st =>
        simp only [appHandlePhase, appGetField_currentPhase, hff, Bool.false_eq_true, if_false]
        cases st with
        | succeeded =>
          simp only [KeptnState.isSucceeded, if_true, hupd]
          by_cases hos : s.entity.status.status ≠ KeptnState.succeeded
          case pos =>
            rw [if_pos hos, decide_eq_true hos, Bool.or_true, if_pos rfl, doUpdate_clean _ rfl]
            exact appInv_intro1 _ rfl het
          case neg =>
            rw [not_not] at hos
            rw [decide_eq_false (show ¬ (s.entity.status.status ≠ KeptnState.succeeded) from fun h => h hos), Bool.or_false]
            split
            · rw [if_neg (show ¬ (s.entity.status.status ≠ KeptnState.succeeded) from fun h => h hos), doUpdate_clean _ rfl]
              exact appInv_intro1 _ hos het
            · exact appInv_intro1 _ hos het
        | failed =>
          simp only [KeptnState.isSucceeded, KeptnState.isFailed, Bool.false_eq_true, if_false,
            if_true, hupd]
          by_cases hos : s.entity.status.status ≠ KeptnState.failed
          case pos =>
            rw [if_pos hos, decide_eq_true hos, Bool.or_true, if_pos rfl, doUpdate_clean _ rfl,
              appSetEndTime_eq]
            refine appInv_intro3 _ rfl (by simp) (Or.inr ?_)
            simp_all [appStuck, appFirstUnfinished, KeptnAppVersion.isPreDeploymentSucceeded, KeptnAppVersion.isPreDeploymentEvaluationSucceeded, KeptnAppVersion.areWorkloadsSucceeded, KeptnAppVersion.isPostDeploymentSucceeded, KeptnAppVersion.isPostDeploymentEvaluationCompleted, appGetField, appSetField, KeptnState.isSucceeded, KeptnState.isFailed, KeptnState.isCompleted]
          case neg =>
            rw [not_not] at hos
            rw [decide_eq_false (show ¬ (s.entity.status.status ≠ KeptnState.failed) from fun h => h hos), Bool.or_false]
            split
            · rw [if_neg (show ¬ (s.entity.status.status ≠ KeptnState.failed) from fun h => h hos), doUpdate_clean _ rfl, appSetEndTime_eq]
              refine appInv_intro3 _ hos (by simp) (Or.inr ?_)
              simp_all [appStuck, appFirstUnfinished, KeptnAppVersion.isPreDeploymentSucceeded, KeptnAppVersion.isPreDeploymentEvaluationSucceeded, KeptnAppVersion.areWorkloadsSucceeded, KeptnAppVersion.isPostDeploymentSucceeded, KeptnAppVersion.isPostDeploymentEvaluationCompleted, appGetField, appSetField, KeptnState.isSucceeded, KeptnState.isFailed, KeptnState.isCompleted]
            · exact appInv_intro2 _ hos het
        | progressing =>
          simp only [KeptnState.isSucceeded, KeptnState.isFailed, Bool.false_eq_true,
            if_false, hupd]
          by_cases hos : s.entity.status.status ≠ KeptnState.progressing
          case pos =>
            rw [if_pos hos, decide_eq_true hos, Bool.or_true, if_pos rfl, doUpdate_clean _ rfl]
            refine appInv_intro4 _ (by simp) (by simp) ?_ het
            simp_all [appDone, KeptnAppVersion.isPreDeploymentSucceeded, KeptnAppVersion.isPreDeploymentEvaluationSucceeded, KeptnAppVersion.areWorkloadsSucceeded, KeptnAppVersion.isPostDeploymentSucceeded, KeptnAppVersion.isPostDeploymentEvaluationCompleted, appGetField, appSetField, KeptnState.isSucceeded, KeptnState.isFailed, KeptnState.isCompleted]
          case neg =>
            rw [not_not] at hos
            rw [decide_eq_false (show ¬ (s.entity.status.status ≠ KeptnState.progressing) from fun h => h hos), Bool.or_false]
            split
            · rw [if_neg (show ¬ (s.entity.status.status ≠ KeptnState.progressing) from fun h => h hos), doUpdate_clean _ rfl]
              refine appInv_intro4 _ (by simp [appSetField, hos]) (by simp [appSetField, hos]) ?_ het
              simp_all [appDone, KeptnAppVersion.isPreDeploymentSucceeded, KeptnAppVersion.isPreDeploymentEvaluationSucceeded, KeptnAppVersion.areWorkloadsSucceeded, KeptnAppVersion.isPostDeploymentSucceeded, KeptnAppVersion.isPostDeploymentEvaluationCompleted, appGetField, appSetField, KeptnState.isSucceeded, KeptnState.isFailed, KeptnState.isCompleted]
            · refine appInv_intro4 _ (by simp [appSetField, hos]) (by simp [appSetField, hos]) ?_ het
              simp_all [appDone, KeptnAppVersion.isPreDeploymentSucceeded, KeptnAppVersion.isPreDeploymentEvaluationSucceeded, KeptnAppVersion.areWorkloadsSucceeded, KeptnAppVersion.isPostDeploymentSucceeded, KeptnAppVersion.isPostDeploymentEvaluationCompleted, appGetField, appSetField, KeptnState.isSucceeded, KeptnState.isFailed, KeptnState.isCompleted]
        | pending =>
          simp only [KeptnState.isSucceeded, KeptnState.isFailed, Bool.false_eq_true,
            if_false, hupd]
          by_cases hos : s.entity.status.status ≠ KeptnState.progressing
          case pos =>
            rw [if_pos hos, decide_eq_true hos, Bool.or_true, if_pos rfl, doUpdate_clean _ rfl]
            refine appInv_intro4 _ (by simp) (by simp) ?_ het
            simp_all [appDone, KeptnAppVersion.isPreDeploymentSucceeded, KeptnAppVersion.isPreDeploymentEvaluationSucceeded, KeptnAppVersion.areWorkloadsSucceeded, KeptnAppVersion.isPostDeploymentSucceeded, KeptnAppVersion.isPostDeploymentEvaluationCompleted, appGetField, appSetField, KeptnState.isSucceeded, KeptnState.isFailed, KeptnState.isCompleted]
          case neg =>
            rw [not_not] at hos
            rw [decide_eq_false (show ¬ (s.entity.status.status ≠ KeptnState.progressing) from fun h => h hos), Bool.or_false]
            split
            · rw [if_neg (show ¬ (s.entity.status.status ≠ KeptnState.progressing) from fun h => h hos), doUpdate_clean _ rfl]
              refine appInv_intro4 _ (by simp [appSetField, hos]) (by simp [appSetField, hos]) ?_ het
              simp_all [appDone, KeptnAppVersion.isPreDeploymentSucceeded, KeptnAppVersion.isPreDeploymentEvaluationSucceeded, KeptnAppVersion.areWorkloadsSucceeded, KeptnAppVersion.isPostDeploymentSucceeded, KeptnAppVersion.isPostDeploymentEvaluationCompleted, appGetField, appSetField, KeptnState.isSucceeded, KeptnState.isFailed, KeptnState.isCompleted]
            · refine appInv_intro4 _ (by simp [appSetField, hos]) (by simp [appSetField, hos]) ?_ het
              simp_all [appDone, KeptnAppVersion.isPreDeploymentSucceeded, KeptnAppVersion.isPreDeploymentEvaluationSucceeded, KeptnAppVersion.areWorkloadsSucceeded, KeptnAppVersion.isPostDeploymentSucceeded, KeptnAppVersion.isPostDeploymentEvaluationCompleted, appGetField, appSetField, KeptnState.isSucceeded, KeptnState.isFailed, KeptnState.isCompleted]
  case pos =>
  by_cases q5 : s.entity.isPostDeploymentEvaluationCompleted = true
  case neg =>
    rw [Bool.not_eq_true] at q5
    have hfu2 : appFirstUnfinished s.entity
        = some (PhaseAppPostEvaluation, AppField.postDeploymentEval) := by
      simp [appFirstUnfinished, q1, q2, q3, q4, q5]
    rw [hfu2] at hfu
    obtain ⟨-, h2⟩ : PhaseAppPostEvaluation = ph0 ∧ AppField.postDeploymentEval = field := by
      simpa using hfu
    cases h2
    by_cases hff : (appGetField AppField.postDeploymentEval s.entity.status).isFailed = true
    case pos =>
      simp only [appHandlePhase, appGetField_currentPhase, hff, if_true]
      exact hpers
    case neg =>
      rw [Bool.not_eq_true] at hff
      have het : s.entity.status.endTime.isSome = false := by
        by_contra hcon
        rw [Bool.not_eq_false] at hcon
        rcases (hE.2 hcon) with ⟨hx, hd⟩ | ⟨hx, hd | hstk⟩
        · rw [hd] at hdone
          cases hdone
        · rw [hd] at hdone
          cases hdone
        · simp only [appStuck, hfu2] at hstk
          rw [hff] at hstk
          cases hstk
      cases cb with
      | error msg =>
        simp only [appHandlePhase, appGetField_currentPhase, hff, Bool.false_eq_true, if_false]
        exact hpers
      | ok st =>
        simp only [appHandlePhase, appGetField_currentPhase, hff, Bool.false_eq_true, if_false]
        cases st with
        | succeeded =>
          simp only [KeptnState.isSucceeded, if_true, hupd]
          by_cases hos : s.entity.status.status ≠ KeptnState.succeeded
          case pos =>
            rw [if_pos hos, decide_eq_true hos, Bool.or_true, if_pos rfl, doUpdate_clean _ rfl]
            exact appInv_intro1 _ rfl het
          case neg =>
            rw [not_not] at hos
            rw [decide_eq_false (show ¬ (s.entity.status.status ≠ KeptnState.succeeded) from fun h => h hos), Bool.or_false]
            split
            · rw [if_neg (show ¬ (s.entity.status.status ≠ KeptnState.succeeded) from fun h => h hos), doUpdate_clean _ rfl]
              exact appInv_intro1 _ hos het
            · exact appInv_intro1 _ hos het
        | failed =>
          simp only [KeptnState.isSucceeded, KeptnState.isFailed, Bool.false_eq_true, if_false,
            if_true, hupd]
          by_cases hos : s.entity.status.status ≠ KeptnState.failed
          case pos =>
            rw [if_pos hos, decide_eq_true hos, Bool.or_true, if_pos rfl, doUpdate_clean _ rfl,
              appSetEndTime_eq]
            refine appInv_intro3 _ rfl (by simp) (Or.inl ?_)
            simp_all [appDone, KeptnAppVersion.isPreDeploymentSucceeded, KeptnAppVersion.isPreDeploymentEvaluationSucceeded, KeptnAppVersion.areWorkloadsSucceeded, KeptnAppVersion.isPostDeploymentSucceeded, KeptnAppVersion.isPostDeploymentEvaluationCompleted, appGetField, appSetField, KeptnState.isSucceeded, KeptnState.isFailed, KeptnState.isCompleted]
          case neg =>
            rw [not_not] at hos
            rw [decide_eq_false (show ¬ (s.entity.status.status ≠ KeptnState.failed) from fun h => h hos), Bool.or_false]
            split
            · rw [if_neg (show ¬ (s.entity.status.status ≠ KeptnState.failed) from fun h => h hos), doUpdate_clean _ rfl, appSetEndTime_eq]
              refine appInv_intro3 _ hos (by simp) (Or.inl ?_)
              simp_all [appDone, KeptnAppVersion.isPreDeploymentSucceeded, KeptnAppVersion.isPreDeploymentEvaluationSucceeded, KeptnAppVersion.areWorkloadsSucceeded, KeptnAppVersion.isPostDeploymentSucceeded, KeptnAppVersion.isPostDeploymentEvaluationCompleted, appGetField, appSetField, KeptnState.isSucceeded, KeptnState.isFailed, KeptnState.isCompleted]
            · exact appInv_intro2 _ hos het
        | progressing =>
          simp only [KeptnState.isSucceeded, KeptnState.isFailed, Bool.false_eq_true,
            if_false, hupd]
          by_cases hos : s.entity.status.status ≠ KeptnState.progressing
          case pos =>
            rw [if_pos hos, decide_eq_true hos, Bool.or_true, if_pos rfl, doUpdate_clean _ rfl]
            refine appInv_intro4 _ (by simp) (by simp) ?_ het
            simp_all [appDone, KeptnAppVersion.isPreDeploymentSucceeded, KeptnAppVersion.isPreDeploymentEvaluationSucceeded, KeptnAppVersion.areWorkloadsSucceeded, KeptnAppVersion.isPostDeploymentSucceeded, KeptnAppVersion.isPostDeploymentEvaluationCompleted, appGetField, appSetField, KeptnState.isSucceeded, KeptnState.isFailed, KeptnState.isCompleted]
          case neg =>
            rw [not_not] at hos
            rw [decide_eq_false (show ¬ (s.entity.status.status ≠ KeptnState.progressing) from fun h => h hos), Bool.or_false]
            split
            · rw [if_neg (show ¬ (s.entity.status.status ≠ KeptnState.progressing) from fun h => h hos), doUpdate_clean _ rfl]
              refine appInv_intro4 _ (by simp [appSetField, hos]) (by simp [appSetField, hos]) ?_ het
              simp_all [appDone, KeptnAppVersion.isPreDeploymentSucceeded, KeptnAppVersion.isPreDeploymentEvaluationSucceeded, KeptnAppVersion.areWorkloadsSucceeded, KeptnAppVersion.isPostDeploymentSucceeded, KeptnAppVersion.isPostDeploymentEvaluationCompleted, appGetField, appSetField, KeptnState.isSucceeded, KeptnState.isFailed, KeptnState.isCompleted]
            · refine appInv_intro4 _ (by simp [appSetField, hos]) (by simp [appSetField, hos]) ?_ het
              simp_all [appDone, KeptnAppVersion.isPreDeploymentSucceeded, KeptnAppVersion.isPreDeploymentEvaluationSucceeded, KeptnAppVersion.areWorkloadsSucceeded, KeptnAppVersion.isPostDeploymentSucceeded, KeptnAppVersion.isPostDeploymentEvaluationCompleted, appGetField, appSetField, KeptnState.isSucceeded, KeptnState.isFailed, KeptnState.isCompleted]
        | pending =>
          simp only [KeptnState.isSucceeded, KeptnState.isFailed, Bool.false_eq_true,
            if_false, hupd]
          by_cases hos : s.entity.status.status ≠ KeptnState.progressing
          case pos =>
            rw [if_pos hos, decide_eq_true hos, Bool.or_true, if_pos rfl, doUpdate_clean _ rfl]
            refine appInv_intro4 _ (by simp) (by simp) ?_ het
            simp_all [appDone, KeptnAppVersion.isPreDeploymentSucceeded, KeptnAppVersion.isPreDeploymentEvaluationSucceeded, KeptnAppVersion.areWorkloadsSucceeded, KeptnAppVersion.isPostDeploymentSucceeded, KeptnAppVersion.isPostDeploymentEvaluationCompleted, appGetField, appSetField, KeptnState.isSucceeded, KeptnState.isFailed, KeptnState.isCompleted]
          case neg =>
            rw [not_not] at hos
            rw [decide_eq_false (show ¬ (s.entity.status.status ≠ KeptnState.progressing) from fun h => h hos), Bool.or_false]
            split
            · rw [if_neg (show ¬ (s.entity.status.status ≠ KeptnState.progressing) from fun h => h hos), doUpdate_clean _ rfl]
              refine appInv_intro4 _ (by simp [appSetField, hos]) (by simp [appSetField, hos]) ?_ het
              simp_all [appDone, KeptnAppVersion.isPreDeploymentSucceeded, KeptnAppVersion.isPreDeploymentEvaluationSucceeded, KeptnAppVersion.areWorkloadsSucceeded, KeptnAppVersion.isPostDeploymentSucceeded, KeptnAppVersion.isPostDeploymentEvaluationCompleted, appGetField, appSetField, KeptnState.isSucceeded, KeptnState.isFailed, KeptnState.isCompleted]
            · refine appInv_intro4 _ (by simp [appSetField, hos]) (by simp [appSetField, hos]) ?_ het
              simp_all [appDone, KeptnAppVersion.isPreDeploymentSucceeded, KeptnAppVersion.isPreDeploymentEvaluationSucceeded, KeptnAppVersion.areWorkloadsSucceeded, KeptnAppVersion.isPostDeploymentSucceeded, KeptnAppVersion.isPostDeploymentEvaluationCompleted, appGetField, appSetField, KeptnState.isSucceeded, KeptnState.isFailed, KeptnState.isCompleted]
  case pos =>
  have hfu2 : appFirstUnfinished s.entity = none := by
    simp [appFirstUnfinished, q1, q2, q3, q4, q5]
  rw [hfu2] at hfu
  cases hfu

/-- A full application-version reconcile on a clean stream preserves the
invariant of the persisted object. -/
theorem appReconcile_inv (o : AppOracle) (a : KeptnAppVersion)
    (hupd : o.updates = []) (h : appInv a = true) :
    appInv (appReconcile o a).persisted = true := by
  have he1 : appInv (KeptnAppVersion.setStartTime o.now a) = true := by
    rw [appInv_setStartTime]
    exact h
  simp only [appReconcile]
  by_cases g1 : (KeptnAppVersion.setStartTime o.now a).isPreDeploymentSucceeded = true
  case neg =>
    rw [Bool.not_eq_true] at g1
    rw [if_pos (by simp [g1])]
    exact appHandlePhase_inv o.now _ PhaseAppPreDeployment PhaseAppPreDeployment
      AppField.preDeployment (o.callback AppField.preDeployment) hupd h he1
      (by simp [appFirstUnfinished, g1])
  case pos =>
  rw [if_neg (by simp [g1])]
  by_cases g2 :
      (KeptnAppVersion.setStartTime o.now a).isPreDeploymentEvaluationSucceeded = true
  case neg =>
    rw [Bool.not_eq_true] at g2
    rw [if_pos (by simp [g2])]
    exact appHandlePhase_inv o.now _ PhaseAppPreEvaluation PhaseAppPreEvaluation
      AppField.preDeploymentEval (o.callback AppField.preDeploymentEval) hupd h he1
      (by simp [appFirstUnfinished, g1, g2])
  case pos =>
  rw [if_neg (by simp [g2])]
  by_cases g3 : (KeptnAppVersion.setStartTime o.now a).areWorkloadsSucceeded = true
  case neg =>
    rw [Bool.not_eq_true] at g3
    rw [if_pos (by simp [g3])]
    exact appHandlePhase_inv o.now _ PhaseAppDeployment PhaseAppDeployment
      AppField.workloads (o.callback AppField.workloads) hupd h he1
      (by simp [appFirstUnfinished, g1, g2, g3])
  case pos =>
  rw [if_neg (by simp [g3])]
  by_cases g4 : (KeptnAppVersion.setStartTime o.now a).isPostDeploymentSucceeded = true
  case neg =>
    rw [Bool.not_eq_true] at g4
    rw [if_pos (by simp [g4])]
    exact appHandlePhase_inv o.now _ PhaseAppPostDeployment PhaseAppPostDeployment
      AppField.postDeployment (o.callback AppField.postDeployment) hupd h he1
      (by simp [appFirstUnfinished, g1, g2, g3, g4])
  case pos =>
  rw [if_neg (by simp [g4])]
  by_cases g5 :
      (KeptnAppVersion.setStartTime o.now a).isPostDeploymentEvaluationCompleted = true
  case neg =>
    rw [Bool.not_eq_true] at g5
    rw [if_pos (by simp [g5])]
    exact appHandlePhase_inv o.now _ PhaseAppPostEvaluation PhaseAppPostEvaluation
      AppField.postDeploymentEval (o.callback AppField.postDeploymentEval) hupd h he1
      (by simp [appFirstUnfinished, g1, g2, g3, g4, g5])
  case pos =>
  rw [if_neg (by simp [g5])]
  exact appCompletion_inv o _ hupd he1 (by simp [appDone, g1, g2, g3, g4, g5])

/-- Writing a per-phase field keeps the end time. -/
theorem wiSetField_endTime (f : WIField) (v : KeptnState)
    (st : KeptnWorkloadInstanceStatus) : (wiSetField f v st).endTime = st.endTime :=
  (wiSetField_frame f v st).2.1

/-- Writing a per-phase field keeps the end time. -/
theorem appSetField_endTime (f : AppField) (v : KeptnState)
    (st : KeptnAppVersionStatus) : (appSetField f v st).endTime = st.endTime :=
  (appSetField_frame f v st).2.1

/-- A status update keeps the entity and persists either the old snapshot
or the entity, whatever the update stream. -/
theorem doUpdate_frame {E : Type} (s : RecState E) :
    (doUpdate s).2.entity = s.entity
    ∧ ((doUpdate s).2.persisted = s.persisted ∨ (doUpdate s).2.persisted = s.entity) := by
  simp only [doUpdate]
  repeat' split
  all_goals simp_all

/-- The driver tail persists either the entity it was handed or the prior
snapshot, whatever the update stream. -/
theorem wiHandleTail_persisted_mem (e pers : KeptnWorkloadInstance) (fx : List Effect)
    (updates : List Bool) (oldPhase : String) (b : Bool) :
    (wiHandleTail e pers fx updates oldPhase b).persisted = e
    ∨ (wiHandleTail e pers fx updates oldPhase b).persisted = pers := by
  simp only [wiHandleTail, doUpdate]
  repeat' split
  all_goals simp_all

/-- A promotion-and-save step passes the promoted entity on and persists
either the old snapshot or that entity, whatever the update stream. -/
theorem wiPromoteAndSave_frame (s : RecState KeptnWorkloadInstance)
    (promote : KeptnWorkloadInstance → KeptnWorkloadInstance × Bool) :
    (wiPromoteAndSave s promote).2.entity = (promote s.entity).1
    ∧ ((wiPromoteAndSave s promote).2.persisted = s.persisted
        ∨ (wiPromoteAndSave s promote).2.persisted = (promote s.entity).1) := by
  simp only [wiPromoteAndSave, doUpdate]
  repeat' split
  all_goals simp_all

/-- Stamping the start time keeps the end time. -/
theorem wiSetStartTime_endTime (now : Nat) (wi : KeptnWorkloadInstance) :
    (KeptnWorkloadInstance.setStartTime now wi).status.endTime = wi.status.endTime := by
  rw [wiSetStartTime_eq]

/-- Stamping the start time keeps the end time. -/
theorem appSetStartTime_endTime (now : Nat) (av : KeptnAppVersion) :
    (KeptnAppVersion.setStartTime now av).status.endTime = av.status.endTime := by
  rw [appSetStartTime_eq]

/-- Each promotion block and the trace copy keep the end time. -/
theorem wiPromotes_endTime (wi : KeptnWorkloadInstance) (av : KeptnAppVersion) :
    (wiPromote1 wi).1.status.endTime = wi.status.endTime
    ∧ (wiPromotePreEval wi).1.status.endTime = wi.status.endTime
    ∧ (wiPromoteDeployment wi).1.status.endTime = wi.status.endTime
    ∧ (wiPromotePostDeployment wi).1.status.endTime = wi.status.endTime
    ∧ (wiPostEvalStepPromote wi).1.status.endTime = wi.status.endTime
    ∧ (wiTraceCopy wi av).1.status.endTime = wi.status.endTime := by
  refine ⟨?_, ?_, ?_, ?_, ?_, ?_⟩
  · rw [wiPromote1_char]
  · rw [wiPromotePreEval_char]
  · rw [wiPromoteDeployment_char]
  · rw [wiPromotePostDeployment_char]
  · rw [wiPostEvalStepPromote_char]
  · rw [wiTraceCopy_status]

/-- The workload-instance driver never loses an end time already stamped
on the entity and the snapshot, whatever the update stream. -/
theorem wiHandlePhase_endTime (now : Nat) (s : RecState KeptnWorkloadInstance)
    (phase : KeptnPhaseType) (field : WIField) (cb : Except String KeptnState) (t : Nat)
    (he : s.entity.status.endTime = some t)
    (hp : s.persisted.status.endTime = some t) :
    (wiHandlePhase now s phase field cb).entity.status.endTime = some t
    ∧ (wiHandlePhase now s phase field cb).persisted.status.endTime = some t := by
  simp only [wiHandlePhase, wiGetField_currentPhase, wiHandleTail, doUpdate,
    wiSetEndTime_eq, wiSetField_endTime]
  repeat' split
  all_goals simp_all [wiSetField_endTime]

/-- The application driver never loses an end time already stamped on the
entity and the snapshot, whatever the update stream. -/
theorem appHandlePhase_endTime (now : Nat) (s : RecState KeptnAppVersion)
    (phase : KeptnPhaseType) (field : AppField) (cb : Except String KeptnState) (t : Nat)
    (he : s.entity.status.endTime = some t)
    (hp : s.persisted.status.endTime = some t) :
    (appHandlePhase now s phase field cb).entity.status.endTime = some t
    ∧ (appHandlePhase now s phase field cb).persisted.status.endTime = some t := by
  simp only [appHandlePhase, appGetField_currentPhase, doUpdate,
    appSetEndTime_eq, appSetField_endTime]
  repeat' split
  all_goals simp_all [appSetField_endTime]

/-- The workload-instance completion block never loses an end time,
whatever the update stream. -/
theorem wiCompletion_endTime (o : WIOracle) (s : RecState KeptnWorkloadInstance) (t : Nat)
    (he : s.entity.status.endTime = some t)
    (hp : s.persisted.status.endTime = some t) :
    (wiCompletion o s).entity.status.endTime = some t
    ∧ (wiCompletion o s).persisted.status.endTime = some t := by
  simp only [wiCompletion, KeptnWorkloadInstance.isEndTimeSet, wiSetEndTime_eq, doUpdate]
  repeat' split
  all_goals simp_all

/-- The application completion block never loses an end time, whatever the
update stream. -/
theorem appCompletion_endTime (o : AppOracle) (s : RecState KeptnAppVersion) (t : Nat)
    (he : s.entity.status.endTime = some t)
    (hp : s.persisted.status.endTime = some t) :
    (appCompletion o s).entity.status.endTime = some t
    ∧ (appCompletion o s).persisted.status.endTime = some t := by
  simp only [appCompletion, KeptnAppVersion.isEndTimeSet, appSetEndTime_eq, doUpdate]
  repeat' split
  all_goals simp_all

/-- This walk step never loses an end time, whatever the update stream. -/
theorem wiWalkPostEval_endTime (o : WIOracle) (s : RecState KeptnWorkloadInstance) (t : Nat)
    (he : s.entity.status.endTime = some t)
    (hp : s.persisted.status.endTime = some t) :
    (wiWalkPostEval o s).entity.status.endTime = some t
    ∧ (wiWalkPostEval o s).persisted.status.endTime = some t := by
  obtain ⟨hfe, hfp⟩ := wiPromoteAndSave_frame s wiPostEvalStepPromote
  have he2 : (wiPromoteAndSave s wiPostEvalStepPromote).2.entity.status.endTime = some t := by
    rw [hfe, (wiPromotes_endTime s.entity emptyAppVersion).2.2.2.2.1]
    exact he
  have hp2 : (wiPromoteAndSave s wiPostEvalStepPromote).2.persisted.status.endTime = some t := by
    rcases hfp with h | h
    · rw [h]
      exact hp
    · rw [h, (wiPromotes_endTime s.entity emptyAppVersion).2.2.2.2.1]
      exact he
  simp only [wiWalkPostEval]
  split
  · exact ⟨he2, hp2⟩
  · split
    · exact wiHandlePhase_endTime o.now _ _ _ _ t he2 hp2
    · exact wiCompletion_endTime o _ t he2 hp2

/-- This walk step never loses an end time, whatever the update stream. -/
theorem wiWalkPostDeployment_endTime (o : WIOracle) (s : RecState KeptnWorkloadInstance) (t : Nat)
    (he : s.entity.status.endTime = some t)
    (hp : s.persisted.status.endTime = some t) :
    (wiWalkPostDeployment o s).entity.status.endTime = some t
    ∧ (wiWalkPostDeployment o s).persisted.status.endTime = some t := by
  obtain ⟨hfe, hfp⟩ := wiPromoteAndSave_frame s wiPromotePostDeployment
  have he2 : (wiPromoteAndSave s wiPromotePostDeployment).2.entity.status.endTime = some t := by
    rw [hfe, (wiPromotes_endTime s.entity emptyAppVersion).2.2.2.1]
    exact he
  have hp2 : (wiPromoteAndSave s wiPromotePostDeployment).2.persisted.status.endTime = some t := by
    rcases hfp with h | h
    · rw [h]
      exact hp
    · rw [h, (wiPromotes_endTime s.entity emptyAppVersion).2.2.2.1]
      exact he
  simp only [wiWalkPostDeployment]
  split
  · exact ⟨he2, hp2⟩
  · split
    · exact wiHandlePhase_endTime o.now _ _ _ _ t he2 hp2
    · exact wiWalkPostEval_endTime o _ t he2 hp2

/-- This walk step never loses an end time, whatever the update stream. -/
theorem wiWalkDeployment_endTime (o : WIOracle) (s : RecState KeptnWorkloadInstance) (t : Nat)
    (he : s.entity.status.endTime = some t)
    (hp : s.persisted.status.endTime = some t) :
    (wiWalkDeployment o s).entity.status.endTime = some t
    ∧ (wiWalkDeployment o s).persisted.status.endTime = some t := by
  obtain ⟨hfe, hfp⟩ := wiPromoteAndSave_frame s wiPromoteDeployment
  have he2 : (wiPromoteAndSave s wiPromoteDeployment).2.entity.status.endTime = some t := by
    rw [hfe, (wiPromotes_endTime s.entity emptyAppVersion).2.2.1]
    exact he
  have hp2 : (wiPromoteAndSave s wiPromoteDeployment).2.persisted.status.endTime = some t := by
    rcases hfp with h | h
    · rw [h]
      exact hp
    · rw [h, (wiPromotes_endTime s.entity emptyAppVersion).2.2.1]
      exact he
  simp only [wiWalkDeployment]
  split
  · exact ⟨he2, hp2⟩
  · split
    · exact wiHandlePhase_endTime o.now _ _ _ _ t he2 hp2
    · exact wiWalkPostDeployment_endTime o _ t he2 hp2

/-- This walk step never loses an end time, whatever the update stream. -/
theorem wiWalkPreEval_endTime (o : WIOracle) (s : RecState KeptnWorkloadInstance) (t : Nat)
    (he : s.entity.status.endTime = some t)
    (hp : s.persisted.status.endTime = some t) :
    (wiWalkPreEval o s).entity.status.endTime = some t
    ∧ (wiWalkPreEval o s).persisted.status.endTime = some t := by
  obtain ⟨hfe, hfp⟩ := wiPromoteAndSave_frame s wiPromotePreEval
  have he2 : (wiPromoteAndSave s wiPromotePreEval).2.entity.status.endTime = some t := by
    rw [hfe, (wiPromotes_endTime s.entity emptyAppVersion).2.1]
    exact he
  have hp2 : (wiPromoteAndSave s wiPromotePreEval).2.persisted.status.endTime = some t := by
    rcases hfp with h | h
    · rw [h]
      exact hp
    · rw [h, (wiPromotes_endTime s.entity emptyAppVersion).2.1]
      exact he
  simp only [wiWalkPreEval]
  split
  · exact ⟨he2, hp2⟩
  · split
    · exact wiHandlePhase_endTime o.now _ _ _ _ t he2 hp2
    · exact wiWalkDeployment_endTime o _ t he2 hp2

/-- The whole post-gate walk never loses an end time, whatever the update
stream. -/
theorem wiWalkPre_endTime (o : WIOracle) (s : RecState KeptnWorkloadInstance) (t : Nat)
    (he : s.entity.status.endTime = some t)
    (hp : s.persisted.status.endTime = some t) :
    (wiWalkPre o s).entity.status.endTime = some t
    ∧ (wiWalkPre o s).persisted.status.endTime = some t := by
  simp only [wiWalkPre]
  split
  · exact wiHandlePhase_endTime o.now _ _ _ _ t he hp
  · exact wiWalkPreEval_endTime o s t he hp

/-- The post-gate section never loses an end time, whatever the update
stream. -/
theorem wiAfterGate_endTime (o : WIOracle) (wi0 e1 : KeptnWorkloadInstance)
    (av : KeptnAppVersion) (t : Nat)
    (he : e1.status.endTime = some t) (hp : wi0.status.endTime = some t) :
    (wiAfterGate o wi0 e1 av).entity.status.endTime = some t
    ∧ (wiAfterGate o wi0 e1 av).persisted.status.endTime = some t := by
  have hent : (wiTraceCopy (wiPromote1 e1).1 av).1.status.endTime = some t := by
    rw [(wiPromotes_endTime (wiPromote1 e1).1 av).2.2.2.2.2,
      (wiPromotes_endTime e1 av).1]
    exact he
  simp only [wiAfterGate]
  set s0 : RecState KeptnWorkloadInstance :=
    { entity := (wiTraceCopy (wiPromote1 e1).1 av).1, persisted := wi0, effects := [],
      updates := o.updates } with hs0
  set r0 := if ((wiPromote1 e1).2 || (wiTraceCopy (wiPromote1 e1).1 av).2) = true then
      doUpdate s0
    else (true, s0) with hr0
  have hre : r0.2.entity.status.endTime = some t := by
    rw [hr0]
    split
    · rw [(doUpdate_frame s0).1, hs0]
      exact hent
    · rw [hs0]
      exact hent
  have hrp : r0.2.persisted.status.endTime = some t := by
    rw [hr0]
    split
    · rcases (doUpdate_frame s0).2 with h | h <;> rw [h, hs0]
      · exact hp
      · exact hent
    · rw [hs0]
      exact hp
  by_cases hfail : r0.1 = false
  · rw [if_pos hfail]
    exact ⟨hre, hrp⟩
  · rw [if_neg hfail]
    split
    · exact wiWalkPre_endTime o _ t hre hrp
    · exact wiWalkPre_endTime o _ t hre hrp

/-- A workload-instance reconcile never loses an end time already stamped
on the stored object, whatever the oracle. -/
theorem wiReconcile_endTime (o : WIOracle) (wi : KeptnWorkloadInstance) (t : Nat)
    (h : wi.status.endTime = some t) :
    (wiReconcile o wi).entity.status.endTime = some t
    ∧ (wiReconcile o wi).persisted.status.endTime = some t := by
  have he1 : (KeptnWorkloadInstance.setStartTime o.now wi).status.endTime = some t := by
    rw [wiSetStartTime_endTime]
    exact h
  simp only [wiReconcile]
  cases hl : o.listApps with
  | error m => exact ⟨he1, h⟩
  | ok apps =>
    repeat' split
    all_goals first
      | exact ⟨he1, h⟩
      | exact wiAfterGate_endTime o wi _ _ t he1 h

/-- An application-version reconcile never loses an end time already
stamped on the stored object, whatever the oracle. -/
theorem appReconcile_endTime (o : AppOracle) (a : KeptnAppVersion) (t : Nat)
    (h : a.status.endTime = some t) :
    (appReconcile o a).entity.status.endTime = some t
    ∧ (appReconcile o a).persisted.status.endTime = some t := by
  have he1 : (KeptnAppVersion.setStartTime o.now a).status.endTime = some t := by
    rw [appSetStartTime_endTime]
    exact h
  simp only [appReconcile]
  repeat' split
  all_goals first
    | exact appHandlePhase_endTime o.now _ _ _ _ t he1 h
    | exact appCompletion_endTime o _ t he1 h

/-- A freshly created workload instance satisfies the invariant. -/
theorem wiInv_of_empty (wi : KeptnWorkloadInstance) (h : wi.status = {}) :
    wiInv wi = true := by
  simp [wiInv, wiAllSucc, wiStuck, wiFirstUnfinished, h,
    KeptnWorkloadInstance.isPreDeploymentSucceeded,
    KeptnWorkloadInstance.isPreDeploymentEvaluationSucceeded,
    KeptnWorkloadInstance.isDeploymentSucceeded,
    KeptnWorkloadInstance.isPostDeploymentSucceeded,
    KeptnWorkloadInstance.isPostDeploymentEvaluationSucceeded,
    KeptnState.isSucceeded, KeptnState.isFailed]

/-- A freshly created application aggregate satisfies the invariant. -/
theorem appInv_of_empty (a : KeptnAppVersion) (h : a.status = {}) :
    appInv a = true := by
  simp [appInv, appDone, appStuck, appFirstUnfinished, h,
    KeptnAppVersion.isPreDeploymentSucceeded,
    KeptnAppVersion.isPreDeploymentEvaluationSucceeded,
    KeptnAppVersion.areWorkloadsSucceeded,
    KeptnAppVersion.isPostDeploymentSucceeded,
    KeptnAppVersion.isPostDeploymentEvaluationCompleted,
    KeptnState.isSucceeded, KeptnState.isFailed, KeptnState.isCompleted]

/-- The invariant yields the EndTime biconditional for workload
instances. -/
theorem wiInv_iff (wi : KeptnWorkloadInstance) (h : wiInv wi = true) :
    (wi.status.endTime.isSome = true ↔ wi.status.status.isCompleted = true) := by
  have hE := wiInv_elim wi h
  constructor
  · exact hE.2.2
  · intro hc
    cases hσ : wi.status.status with
    | succeeded => exact (hE.1 hσ).2
    | failed => exact (hE.2.1 hσ).2
    | pending =>
      rw [hσ] at hc
      simp [KeptnState.isCompleted, KeptnState.isSucceeded, KeptnState.isFailed] at hc
    | progressing =>
      rw [hσ] at hc
      simp [KeptnState.isCompleted, KeptnState.isSucceeded, KeptnState.isFailed] at hc

/-- The application invariant yields the forward EndTime implication. -/
theorem appInv_endTime_terminal (a : KeptnAppVersion) (h : appInv a = true)
    (he : a.status.endTime.isSome = true) : a.status.status.isCompleted = true := by
  rcases (appInv_elim a h).2 he with ⟨hσ, -⟩ | ⟨hσ, -⟩ <;> rw [hσ] <;>
    simp [KeptnState.isCompleted, KeptnState.isSucceeded, KeptnState.isFailed]

/-- The invariant holds at every state reachable by clean reconciles. -/
theorem wiReachable_inv (a b : KeptnWorkloadInstance) (ha : wiInv a = true)
    (hr : wiReachable a b) : wiInv b = true := by
  induction hr with
  | refl => exact ha
  | tail h1 h2 ih =>
    obtain ⟨o, ho, hc⟩ := h2
    rw [hc]
    exact wiReconcile_inv o _ ho ih

/-- The application invariant holds at every state reachable by clean
reconciles. -/
theorem appReachable_inv (a b : KeptnAppVersion) (ha : appInv a = true)
    (hr : appReachable a b) : appInv b = true := by
  induction hr with
  | refl => exact ha
  | tail h1 h2 ih =>
    obtain ⟨o, ho, hc⟩ := h2
    rw [hc]
    exact appReconcile_inv o _ ho ih

/-- Counterexample to C3: one clean reconcile of a freshly created
application aggregate with a phase engine reporting Succeeded leaves the
persisted overall Status terminal (Succeeded) while EndTime is still
unset, because the application driver writes the overall Status on every
successful phase, long before the completion block stamps EndTime. -/
theorem c3_counterexample_app_status_terminal_without_endtime :
    fxAppInit.status = ({} : KeptnAppVersionStatus)
    ∧ appStep fxAppInit (appReconcile fxAppOracleSucc fxAppInit).persisted
    ∧ (appReconcile fxAppOracleSucc fxAppInit).persisted.status.status
        = KeptnState.succeeded
    ∧ (appReconcile fxAppOracleSucc fxAppInit).persisted.status.endTime = none :=
  ⟨rfl, ⟨fxAppOracleSucc, rfl, rfl⟩, by decide, by decide⟩

/-- C3 (amended): EndTime, once stamped on the stored object, is never
overwritten or cleared by any later reconcile of either controller,
whatever the oracle; for workload instances EndTime is set if and only if
the overall Status is terminal, over every state reachable from a fresh
object by clean reconciles; for application versions only the forward
direction holds over reachable states — EndTime set implies the overall
Status is terminal — while a terminal Status without EndTime is reachable
(see the counterexample). -/
theorem c3_amended_endtime_invariant :
    (∀ (o : WIOracle) (wi : KeptnWorkloadInstance) (t : Nat),
        wi.status.endTime = some t →
        (wiReconcile o wi).persisted.status.endTime = some t)
    ∧ (∀ (o : AppOracle) (a : KeptnAppVersion) (t : Nat),
        a.status.endTime = some t →
        (appReconcile o a).persisted.status.endTime = some t)
    ∧ (∀ a b : KeptnWorkloadInstance, a.status = {} → wiReachable a b →
        (b.status.endTime.isSome = true ↔ b.status.status.isCompleted = true))
    ∧ (∀ a b : KeptnAppVersion, a.status = {} → appReachable a b →
        b.status.endTime.isSome = true → b.status.status.isCompleted = true) := by
  refine ⟨?_, ?_, ?_, ?_⟩
  · intro o wi t h
    exact (wiReconcile_endTime o wi t h).2
  · intro o a t h
    exact (appReconcile_endTime o a t h).2
  · intro a b ha hr
    exact wiInv_iff b (wiReachable_inv a b (wiInv_of_empty a ha) hr)
  · intro a b ha hr
    exact appInv_endTime_terminal b (appReachable_inv a b (appInv_of_empty a ha) hr)

/-- Witness for the amended C3 at concrete completed and fresh entities. -/
theorem c3_amended_endtime_invariant_witness :
    (fxWliDone.status.endTime = some 9
      ∧ (wiReconcile fxOracle fxWliDone).persisted.status.endTime = some 9)
    ∧ (fxAppDone.status.endTime = some 9
      ∧ (appReconcile fxAppOracle fxAppDone).persisted.status.endTime = some 9)
    ∧ (fxWli.status = ({} : KeptnWorkloadInstanceStatus)
      ∧ ((fxWli.status.endTime.isSome = true) ↔ (fxWli.status.status.isCompleted = true)))
    ∧ (fxAppInit.status = ({} : KeptnAppVersionStatus)
      ∧ (fxAppInit.status.endTime.isSome = true →
          fxAppInit.status.status.isCompleted = true)) :=
  ⟨⟨rfl, c3_amended_endtime_invariant.1 fxOracle fxWliDone 9 rfl⟩,
   ⟨rfl, c3_amended_endtime_invariant.2.1 fxAppOracle fxAppDone 9 rfl⟩,
   ⟨rfl, c3_amended_endtime_invariant.2.2.1 fxWli fxWli rfl Relation.ReflTransGen.refl⟩,
   ⟨rfl, c3_amended_endtime_invariant.2.2.2 fxAppInit fxAppInit rfl
      Relation.ReflTransGen.refl⟩⟩
